import Mathlib

/-!
# Scheduler command channel and cycle dispatch of `pbs_sched.c`

A shallow embedding of the connection registry, the command queue, the wait
loop and the dispatch loop of `src/scheduler/pbs_sched.c`.

* The globals `servers`, `poll_context`, `sched_cmds`, the signal mask and the
  two segv time stamps form the `State`.
* Everything the process does to the outside world is appended to
  `State.trace`, in program order.
* Everything the outside world answers (the result of `schedule`, of a socket
  write, of a connection attempt, of an allocation ...) is read from an `Env`,
  whose fields are functions of the trace so far: the answer of a call may
  depend on the whole history.
* Loops that the C code does not bound (`connect_server`, `wait_for_cmds`, the
  main loop) take a `fuel` argument and one unit is spent per iteration;
  running out of it is the outcome `Res.out_of_fuel`, which is not a return.

The embedding follows the build without `DEBUG`, `NAS` and
`PBS_UNDOLR_ENABLED`; asynchronous delivery of signals is not part of it: the
handlers `restart` and `on_segv` are functions that run to completion where
they are called.

The server side of the channel, `put_sched_cmd` and `contact_sched` of
`src/server/run_sched.c`, is embedded with its own small environment
(`SvrEnv`) and event type (`SvrEvent`); `schedule_jobs` and
`set_scheduler_flag` of the same file work on the globals in `SvrState`.

Further parts of the server and of the commands are embedded each with the
state it uses: the work task lists of `work_task.c` (`TaskState`), the table of
Moms and the vnode pools of `mom_info.c` (`MomState`, `PoolState`), the boolean
attribute decoder of `attr_fn_b.c`, the node name comparison of `pbsnodes.c`,
the command switch of `pbs_sched_bare.cpp` and the preempt request of
`req_preemptjob.c`. C strings are Lean strings, a pointer to a heap object is
the object itself or its position in a table, NULL is `none`, and times and
counters are unbounded integers.
-/

namespace PbsSched

/-! ## Data model -/

/-- Connection to one server (`sched_svrconn`): host string, primary socket,
secondary socket. A pointer to such a struct is represented by its value; the
sockets of two open connections differ, so values identify connections. -/
structure sched_svrconn where
  svrhost : String
  primary_sock : Int
  secondary_sock : Int
deriving DecidableEq, Repr

/-- Scheduling command (`sched_cmd`): command id, optional job id and the
secondary socket it was read from. -/
structure sched_cmd where
  cmd : Int
  jid : Option String
  from_sock : Int
deriving DecidableEq, Repr

/-- Allocation sites whose failure the code tests. -/
inductive AllocSite where
  | new_sched_cmd
  | new_sched_cmd_prio
  | ds_enqueue
  | malloc_svr
  | strdup_svrhost
  | add_ptr_to_array
deriving DecidableEq, Repr

/-- The observable actions of the scheduler process, in the vocabulary of the
source. -/
inductive Event where
  | pbs_connect (host : String) (is_primary : Bool) (sock : Int)
  | pbs_disconnect (sock : Int)
  | tpp_em_add_fd (sock : Int) (rc : Int)
  | tpp_em_del_fd (sock : Int)
  | tpp_em_destroy
  | tpp_em_pwait (nsocks : Int) (err : Int)
  | log_connected (host : String)
  | log_disconnected (host : String)
  | log_rejected (is_primary : Bool) (errmsg : String)
  | log_msg (what : String)
  | sleep (secs : Nat)
  | sigprocmask (mask_after : List Int)
  | get_sched_cmd (sock : Int) (rc : Int)
  | get_sched_cmd_noblk (sock : Int) (rc : Int)
  | free_sched_cmd (cmd : sched_cmd)
  | free_ds_queue
  | schedule (sconn : sched_svrconn) (cmd : sched_cmd) (ret : Int)
  | diswsi (sock : Int) (value : Int) (rc : Int)
  | dis_flush (sock : Int) (rc : Int)
  | schedexit
  | exit (status : Int)
  | read_config (file : String) (rc : Int)
deriving DecidableEq, Repr

/-- The globals of `pbs_sched.c` that the command channel uses.
`servers = none` is the NULL array pointer, `some l` a NULL-terminated array
holding the entries `l`; `poll_context = none` is the NULL context, `some fds`
a context watching `fds`. -/
structure State where
  servers : Option (List sched_svrconn)
  poll_context : Option (List Int)
  sched_cmds : List sched_cmd
  sigmask : List Int
  segv_start_time : Int
  segv_last_time : Int
  opt_no_restart : Bool
  trace : List Event
deriving DecidableEq, Repr

/-- Append actions to the trace. -/
def State.log (s : State) (evs : List Event) : State :=
  { s with trace := s.trace ++ evs }

/-- What one run of `connect_server_helper` meets: the socket returned by
`pbs_connect`, the results of the four sends of the register request, whether
`PBSD_rdrpy` returned a reply, `pbs_errno` after it and the text of
`get_conn_errtxt`. A field is consulted only if the code reaches the call. -/
structure ConnAttempt where
  sock : Int
  hdr_rc : Int
  name_rc : Int
  ext_rc : Int
  flush_rc : Int
  reply : Bool
  pbs_errno : Int
  errmsg : Option String
deriving DecidableEq, Repr

/-- Result of `tpp_em_pwait`: a negative count (-1) with the value of
`errno`, or the ready descriptors (`nsocks` is their number). -/
inductive PwaitResult where
  | error (errno : Int)
  | ready (fds : List Int)
deriving DecidableEq, Repr

/-- The outside world. Each answer is a function of the trace so far. -/
structure Env where
  schedule : List Event → sched_svrconn → sched_cmd → Int
  diswsi : List Event → Int → Int → Int
  dis_flush : List Event → Int → Int
  connect_attempt : List Event → String → Bool → ConnAttempt
  tpp_em_add_fd : List Event → Int → Int
  alloc : List Event → AllocSite → Bool
  decode : List Event → Int → Int × sched_cmd
  decode_noblk : List Event → Int → Int × sched_cmd
  tpp_em_pwait : List Event → PwaitResult
  time : List Event → Int
  read_config : List Event → String → Int

/-- Outcome of running a piece of the program: it returned, the process
ended through `exit`, it dereferenced the NULL `servers` pointer, or the
fuel of the model ran out before any of these. -/
inductive Res (α : Type) where
  | ret (s : State) (a : α)
  | exited (s : State) (status : Int)
  | fault (s : State)
  | out_of_fuel (s : State)

/-- The state an outcome ends in. -/
def Res.state {α : Type} : Res α → State
  | .ret s _ => s
  | .exited s _ => s
  | .fault s => s
  | .out_of_fuel s => s

/-- Sequencing: go on with `f` when the first part returned. -/
def Res.bind {α β : Type} (r : Res α) (f : State → α → Res β) : Res β :=
  match r with
  | .ret s a => f s a
  | .exited s n => .exited s n
  | .fault s => .fault s
  | .out_of_fuel s => .out_of_fuel s

/-! ## Constants -/

/-- `DIS_SUCCESS` of `dis.h`. -/
def DIS_SUCCESS : Int := 0

/-- `EINTR` of `errno.h` (Linux). -/
def EINTR : Int := 4

/-- `EAGAIN` of `errno.h` (Linux). -/
def EAGAIN : Int := 11

/-- Signal numbers collected in `allsigs` by `main`: SIGHUP, SIGINT, SIGTERM
and SIGUSR1 (Linux numbering). -/
def allsigs : List Int := [1, 2, 15, 10]

/-- The static `cycle_end_marker` of `send_cycle_end`. -/
def cycle_end_marker : Int := 0

/-- `SCH_SCHEDULE_AJOB` of `sched_cmds.h`; the dispatch code never inspects
the command id, the value only labels example commands. -/
def SCH_SCHEDULE_AJOB : Int := 11

/-! ## Pointer arrays, poll set and queue helpers -/

/-- Modelled from the spec: `count_array` of libutil is not part of the
excerpt; it counts the entries of a NULL-terminated array and gives 0 for a
NULL pointer. -/
def count_array (arr : Option (List sched_svrconn)) : Nat :=
  match arr with
  | none => 0
  | some l => l.length

/-- Modelled from the spec: `remove_ptr_from_array` of libutil is not part of
the excerpt; "removes from registry" the given entry, in place, keeping the
order of the others. -/
def remove_ptr_from_array (arr : Option (List sched_svrconn)) (ptr : sched_svrconn) :
    Option (List sched_svrconn) :=
  arr.map (fun l => l.erase ptr)

/-- Modelled from the spec: `add_ptr_to_array` of libutil is not part of the
excerpt; "adds the fully-formed connection to the registry" at the end (a
fresh array when the old one is NULL or empty). Its failure is decided by the
environment at the call site. -/
def add_ptr_to_array (arr : Option (List sched_svrconn)) (ptr : sched_svrconn) :
    Option (List sched_svrconn) :=
  if count_array arr = 0 then some [ptr] else arr.map (fun l => l ++ [ptr])

/-- Modelled from the spec: `tpp_em_del_fd` is not part of the excerpt;
"removes secondary descriptor from multiplexer". -/
def tpp_em_del_fd (ctx : Option (List Int)) (fd : Int) : Option (List Int) :=
  ctx.map (fun l => l.erase fd)

/-- Modelled from the spec: `tpp_em_add_fd` is not part of the excerpt;
"registers the secondary descriptor with the Event Multiplexer". -/
def tpp_em_add_fd (ctx : Option (List Int)) (fd : Int) : Option (List Int) :=
  ctx.map (fun l => l ++ [fd])

/-- Modelled from the spec: `ds_enqueue` is not part of the excerpt; the
queue is "FIFO by arrival", a command is added at its tail. -/
def ds_enqueue (q : List sched_cmd) (cmd : sched_cmd) : List sched_cmd :=
  q ++ [cmd]

/-- Modelled from the spec: `ds_dequeue` is not part of the excerpt; it takes
the command at the head of the queue, NULL when there is none. -/
def ds_dequeue (q : List sched_cmd) : Option sched_cmd × List sched_cmd :=
  match q with
  | [] => (none, [])
  | c :: rest => (some c, rest)

/-- Modelled from the spec: `ds_queue_is_empty` is not part of the excerpt. -/
def ds_queue_is_empty (q : List sched_cmd) : Bool :=
  q.isEmpty

/-- Modelled from the spec: `get_sched_cmd` of Libifl is not part of the
excerpt; it decodes one command record from `sock` (blocking) and, on
success (1), leaves in the command the decoded id and job id and "the
secondary socket it arrived on". -/
def get_sched_cmd (env : Env) (s : State) (sock : Int) : State × Int × sched_cmd :=
  let r := env.decode s.trace sock
  let cmd := if r.1 = 1 then { r.2 with from_sock := sock } else r.2
  (s.log [.get_sched_cmd sock r.1], r.1, cmd)

/-- Modelled from the spec: `get_sched_cmd_noblk` of Libifl is not part of the
excerpt; the non-blocking decode used for the look-ahead. -/
def get_sched_cmd_noblk (env : Env) (s : State) (sock : Int) : State × Int × sched_cmd :=
  let r := env.decode_noblk s.trace sock
  let cmd := if r.1 = 1 then { r.2 with from_sock := sock } else r.2
  (s.log [.get_sched_cmd_noblk sock r.1], r.1, cmd)

/-! ## Signal mask -/

/-- The mask `m` with the signals of `allsigs` added. -/
def block_mask (m : List Int) : List Int :=
  m ++ allsigs.filter (fun x => !m.contains x)

/-- Effect of `sigprocmask(SIG_BLOCK, &allsigs, ...)`: the signals of
`allsigs` are added to the mask. -/
def sigprocmask_block (s : State) : State :=
  { s with sigmask := block_mask s.sigmask,
           trace := s.trace ++ [.sigprocmask (block_mask s.sigmask)] }

/-- Effect of `sigprocmask(SIG_UNBLOCK, &allsigs, NULL)`. -/
def sigprocmask_unblock (s : State) : State :=
  let m := s.sigmask.filter (fun x => !allsigs.contains x)
  { s with sigmask := m, trace := s.trace ++ [.sigprocmask m] }

/-- Effect of `sigprocmask(SIG_SETMASK, &oldsigs, NULL)`. -/
def sigprocmask_setmask (s : State) (oldsigs : List Int) : State :=
  { s with sigmask := oldsigs, trace := s.trace ++ [.sigprocmask oldsigs] }

/-! ## Connection registry -/

/-- The function `close_server`: with a non-NULL `sconn`, take it out of
`servers` (freeing the array when it became empty), take its secondary
socket out of the poll set, disconnect both sockets and log. -/
def close_server (s : State) (sconn : Option sched_svrconn) : State :=
  match sconn with
  | none => s
  | some c =>
    let arr := remove_ptr_from_array s.servers c
    let servers := if count_array arr = 0 then none else arr
    { s with
      servers := servers,
      poll_context := tpp_em_del_fd s.poll_context c.secondary_sock,
      trace := s.trace ++ [.tpp_em_del_fd c.secondary_sock, .pbs_disconnect c.primary_sock,
        .pbs_disconnect c.secondary_sock, .log_disconnected c.svrhost] }

/-- First loop of `close_servers`: `while (count_array(servers))
close_server(servers[0])`. -/
def close_servers_loop : Nat → State → Res Unit
  | 0, s => .out_of_fuel s
  | fuel + 1, s =>
    if count_array s.servers ≠ 0 then
      match s.servers with
      | some (c :: _) => close_servers_loop fuel (close_server s (some c))
      | _ => .fault s
    else .ret s ()

/-- Second loop of `close_servers`: dequeue and free every queued command. -/
def drain_sched_cmds : List sched_cmd → List Event
  | [] => []
  | c :: rest => .free_sched_cmd c :: drain_sched_cmds rest

/-- The function `close_servers`: close every server, destroy the poll
context if there is one, free the queued commands and the queue. -/
def close_servers (fuel : Nat) (s : State) : Res Unit :=
  (close_servers_loop fuel s).bind fun s1 _ =>
    let s2 := if s1.poll_context.isSome then
        { s1 with poll_context := none, trace := s1.trace ++ [.tpp_em_destroy] }
      else s1
    let s3 := s2.log (drain_sched_cmds s2.sched_cmds)
    .ret { s3 with sched_cmds := [], trace := s3.trace ++ [.free_ds_queue] } ()

/-- The function `die`: log, `close_servers`, `schedexit`, `exit(1)`. The
cleanup mutex is recursive and the model has one thread, so the trylock
succeeds; closing the security library and the log is left out. -/
def die {α : Type} (fuel : Nat) (s : State) (sig : Int) : Res α :=
  let s0 := s.log [.log_msg (if sig > 0 then "caught signal" else "abnormal termination")]
  (close_servers fuel s0).bind fun s1 _ => .exited (s1.log [.schedexit, .exit 1]) 1

/-- The function `connect_server_helper`: connect, send the register request,
read the reply. Returns the socket, or -1 after `rerr`; a reply with
`pbs_errno != 0` and an error text ends the process through `die(-1)`. -/
def connect_server_helper (env : Env) (fuel : Nat) (s : State) (host : String)
    (is_primary : Bool) : Res Int :=
  let a := env.connect_attempt s.trace host is_primary
  let s0 := s.log [.pbs_connect host is_primary a.sock]
  let rerr : Res Int := .ret (s0.log [.pbs_disconnect a.sock]) (-1)
  if a.sock < 0 then rerr
  else if a.hdr_rc ≠ DIS_SUCCESS then rerr
  else if a.name_rc ≠ DIS_SUCCESS then rerr
  else if a.ext_rc ≠ DIS_SUCCESS then rerr
  else if a.flush_rc ≠ 0 then rerr
  else if !a.reply then rerr
  else if a.pbs_errno ≠ 0 then
    match a.errmsg with
    | some errmsg => die fuel (s0.log [.log_rejected is_primary errmsg]) (-1)
    | none => rerr
  else .ret s0 a.sock

/-- The retry loop of `connect_server`:
`while (primary_sock < 0 || secondary_sock < 0)`. -/
def connect_server_loop (env : Env) : Nat → State → String → Int → Int → Res (Int × Int)
  | 0, s, _, _, _ => .out_of_fuel s
  | fuel + 1, s, svrhost, primary_sock, secondary_sock =>
    if primary_sock < 0 ∨ secondary_sock < 0 then
      let secondary := fun (s1 : State) (p : Int) =>
        (connect_server_helper env fuel s1 svrhost false).bind fun s2 q =>
          if q < 0 then connect_server_loop env fuel (s2.log [.sleep 2]) svrhost p q
          else connect_server_loop env fuel s2 svrhost p q
      if primary_sock < 0 then
        (connect_server_helper env fuel s svrhost true).bind fun s1 p =>
          if p < 0 then connect_server_loop env fuel (s1.log [.sleep 2]) svrhost p secondary_sock
          else secondary s1 p
      else secondary s primary_sock
    else .ret s (primary_sock, secondary_sock)

/-- The function `connect_server`: connect both sockets (retrying), add the
secondary socket to the poll set, build the `sched_svrconn` and add it to
`servers`. -/
def connect_server (env : Env) (fuel : Nat) (s : State) (svrhost : Option String) : Res Unit :=
  match svrhost with
  | none => .ret s ()
  | some host =>
    (connect_server_loop env fuel s host (-1) (-1)).bind fun s1 pq =>
      let primary_sock := pq.1
      let secondary_sock := pq.2
      let rc := env.tpp_em_add_fd s1.trace secondary_sock
      let s2 := s1.log [.tpp_em_add_fd secondary_sock rc]
      if rc < 0 then
        die fuel (s2.log [.log_msg "cannot add secondary connection to poll list",
          .pbs_disconnect primary_sock, .pbs_disconnect secondary_sock]) (-1)
      else
        let s3 := { s2 with poll_context := tpp_em_add_fd s2.poll_context secondary_sock }
        if !env.alloc s3.trace .malloc_svr then die fuel (s3.log [.log_msg "MEM_ERR_MSG"]) (-1)
        else if !env.alloc s3.trace .strdup_svrhost then
          die fuel (s3.log [.log_msg "MEM_ERR_MSG"]) (-1)
        else
          let svr : sched_svrconn := ⟨host, primary_sock, secondary_sock⟩
          if !env.alloc s3.trace .add_ptr_to_array then die fuel (close_server s3 (some svr)) (-1)
          else
            .ret { s3 with servers := add_ptr_to_array s3.servers svr,
                           trace := s3.trace ++ [.log_connected host] } ()

/-- The function `reconnect_server`: copy the host string, `close_server`,
then `connect_server` with the copy. -/
def reconnect_server (env : Env) (fuel : Nat) (s : State) (sconn : sched_svrconn) : Res Unit :=
  let svrhost := sconn.svrhost
  connect_server env fuel (close_server s (some sconn)) (some svrhost)

/-- The function `find_server`: the loop
`for (; servers[i] != NULL && servers[i]->secondary_sock == sock; i++) return servers[i];`
followed by `return NULL`. The body returns in its first pass, so `i++` is
never reached and only `servers[0]` is ever tested. The outer `none` is the
dereference of a NULL `servers`. -/
def find_server (servers : Option (List sched_svrconn)) (sock : Int) :
    Option (Option sched_svrconn) :=
  let i := 0
  match servers with
  | none => none
  | some arr =>
    match arr[i]? with
    | some c => if c.secondary_sock = sock then some (some c) else some none
    | none => some none

/-! ## Reading commands -/

/-- The function `read_sched_cmd`: one blocking decode, one non-blocking
look-ahead whose command is freed at once, then the enqueue of the first
command. Returns -2 (no memory), -1 (read or enqueue failure), 0 (no command,
connection closed) or 1 (command queued). -/
def read_sched_cmd (env : Env) (s : State) (sock : Int) : State × Int :=
  if !env.alloc s.trace .new_sched_cmd then (s, -2)
  else
    let (s1, rc, cmd) := get_sched_cmd env s sock
    if rc ≠ 1 then (s1.log [.free_sched_cmd cmd], rc)
    else
      let enqueue := fun (s3 : State) =>
        if !env.alloc s3.trace .ds_enqueue then (s3.log [.free_sched_cmd cmd], (-1 : Int))
        else ({ s3 with sched_cmds := ds_enqueue s3.sched_cmds cmd }, rc)
      if env.alloc s1.trace .new_sched_cmd_prio then
        let (s2, rc_prio, cmd_prio) := get_sched_cmd_noblk env s1 sock
        let s3 := s2.log [.free_sched_cmd cmd_prio]
        if rc_prio = -2 then (s3.log [.free_sched_cmd cmd], 0)
        else enqueue s3
      else enqueue s1

/-- The `for` loop of `wait_for_cmds` over the ready descriptors: read a
command from each; on a result other than 1 and -2 look the server up with
`find_server` and reconnect it when found. Returns `hascmd`. -/
def wait_for_cmds_events (env : Env) (fuel : Nat) : List Int → State → Bool → Res Bool
  | [], s, hascmd => .ret s hascmd
  | sock :: rest, s, hascmd =>
    let (s1, err) := read_sched_cmd env s sock
    if err ≠ 1 then
      if err ≠ -2 then
        match find_server s1.servers sock with
        | none => .fault s1
        | some none => wait_for_cmds_events env fuel rest s1 hascmd
        | some (some sconn) =>
          (reconnect_server env fuel s1 sconn).bind fun s2 _ =>
            wait_for_cmds_events env fuel rest s2 hascmd
      else wait_for_cmds_events env fuel rest s1 hascmd
    else wait_for_cmds_events env fuel rest s1 true

/-- The `while (!hascmd)` loop of `wait_for_cmds`. -/
def wait_for_cmds_loop (env : Env) : Nat → State → Bool → Res Unit
  | 0, s, _ => .out_of_fuel s
  | fuel + 1, s, hascmd =>
    if !hascmd then
      match env.tpp_em_pwait s.trace with
      | .error err =>
        let s0 := s.log [.tpp_em_pwait (-1) err]
        let s1 := if ¬ (err = EINTR ∨ err = EAGAIN ∨ err = 0) then
            s0.log [.log_msg "tpp_em_wait() error", .sleep 1]
          else s0
        let s2 := if err = EINTR then sigprocmask_block (sigprocmask_unblock s1) else s1
        wait_for_cmds_loop env fuel s2 hascmd
      | .ready fds =>
        let s0 := s.log [.tpp_em_pwait fds.length 0]
        (wait_for_cmds_events env fuel fds s0 hascmd).bind fun s1 h =>
          wait_for_cmds_loop env fuel s1 h
    else .ret s ()

/-- The function `wait_for_cmds`. -/
def wait_for_cmds (env : Env) (fuel : Nat) (s : State) : Res Unit :=
  wait_for_cmds_loop env fuel s false

/-! ## Dispatch -/

/-- The function `send_cycle_end`: write the marker on the secondary socket
and flush it; when either fails, `reconnect_server`. -/
def send_cycle_end (env : Env) (fuel : Nat) (s : State) (sconn : sched_svrconn) : Res Unit :=
  let rc := env.diswsi s.trace sconn.secondary_sock cycle_end_marker
  let s1 := s.log [.diswsi sconn.secondary_sock cycle_end_marker rc]
  if rc ≠ DIS_SUCCESS then
    reconnect_server env fuel (s1.log [.log_msg "Not able to send end of cycle"]) sconn
  else
    let rc2 := env.dis_flush s1.trace sconn.secondary_sock
    let s2 := s1.log [.dis_flush sconn.secondary_sock rc2]
    if rc2 ≠ 0 then reconnect_server env fuel s2 sconn
    else .ret s2 ()

/-- The statement `if (!opt_no_restart) segv_last_time = now;` of `main`. -/
def set_segv_last_time (s : State) (now : Int) : State :=
  if s.opt_no_restart then s else { s with segv_last_time := now }

/-- One pass through the body of the inner `while` of `main` (the queue is
not empty): dequeue, look the server up, run `schedule` with the signals
blocked, send the cycle end unless `schedule` asked to exit, free the
command. Returns the new value of `go`. -/
def dispatch_body (env : Env) (fuel : Nat) (s : State) : Res Bool :=
  match ds_dequeue s.sched_cmds with
  | (none, q) => .ret { s with sched_cmds := q } true
  | (some cmd, q) =>
    let s0 := { s with sched_cmds := q }
    match find_server s0.servers cmd.from_sock with
    | none => .fault s0
    | some none => .ret (s0.log [.free_sched_cmd cmd]) true
    | some (some sconn) =>
      let oldsigs := s0.sigmask
      let s1 := sigprocmask_block s0
      let now := env.time s1.trace
      let s2 := set_segv_last_time s1 now
      let r := env.schedule s2.trace sconn cmd
      let s3 := s2.log [.schedule sconn cmd r]
      if r ≠ 0 then
        .ret (sigprocmask_setmask (s3.log [.free_sched_cmd cmd]) oldsigs) false
      else
        (send_cycle_end env fuel s3 sconn).bind fun s4 _ =>
          .ret (sigprocmask_setmask (s4.log [.free_sched_cmd cmd]) oldsigs) true

/-- The inner loop of `main`:
`while (go && !ds_queue_is_empty(sched_cmds))`. Returns `go`. -/
def dispatch_loop (env : Env) : Nat → State → Bool → Res Bool
  | 0, s, _ => .out_of_fuel s
  | fuel + 1, s, go =>
    if go && !ds_queue_is_empty s.sched_cmds then
      (dispatch_body env fuel s).bind fun s1 go1 => dispatch_loop env fuel s1 go1
    else .ret s go

/-- The end of `main` after the loops: `close_servers`, `schedexit`, the log
and lock teardown, `exit(0)`. -/
def main_finish (fuel : Nat) (s : State) : Res Unit :=
  (close_servers fuel s).bind fun s1 _ =>
    .exited (s1.log [.schedexit, .log_msg "normal finish", .exit 0]) 0

/-- The loop `for (go=1; go;)` of `main` followed by the end of `main`,
entered at the inner loop with the given `go` when `resume` is set and at
`wait_for_cmds` otherwise. -/
def main_loop (env : Env) : Nat → State → Bool → Bool → Res Unit
  | 0, s, _, _ => .out_of_fuel s
  | fuel + 1, s, resume, go =>
    if resume then
      (dispatch_loop env fuel s go).bind fun s1 go1 =>
        if go1 then main_loop env fuel s1 false go1 else main_finish fuel s1
    else
      (wait_for_cmds env fuel s).bind fun s1 _ => main_loop env fuel s1 true true

/-! ## Projections of the trace -/

/-- The commands handed to `schedule`, in call order. -/
def scheduled_cmds (t : List Event) : List sched_cmd :=
  t.filterMap fun e => match e with
    | .schedule _ cmd _ => some cmd
    | _ => none

/-- The marker writes: socket and value of every `diswsi` call, in order. -/
def marker_writes (t : List Event) : List (Int × Int) :=
  t.filterMap fun e => match e with
    | .diswsi sock v _ => some (sock, v)
    | _ => none

/-- The marker writes that succeeded: their sockets, in order. -/
def marker_writes_ok (t : List Event) : List Int :=
  t.filterMap fun e => match e with
    | .diswsi sock _ rc => if rc = DIS_SUCCESS then some sock else none
    | _ => none

/-- The sockets flushed by `dis_flush`, in order. -/
def flushes (t : List Event) : List Int :=
  t.filterMap fun e => match e with
    | .dis_flush sock _ => some sock
    | _ => none

/-- The cycles that ended with `schedule` returning 0: for each, the
`from_sock` of its command paired with the marker value, in order. -/
def zero_cycles (t : List Event) : List (Int × Int) :=
  t.filterMap fun e => match e with
    | .schedule _ cmd r => if r = 0 then some (cmd.from_sock, cycle_end_marker) else none
    | _ => none

/-- Events of connection management and teardown: everything except a
`schedule` call, a marker write and a flush. -/
def Event.quiet : Event → Bool
  | .schedule _ _ _ => false
  | .diswsi _ _ _ => false
  | .dis_flush _ _ => false
  | _ => true

/-! ## Example inputs -/

/-- Server A: secondary socket 5. -/
def svrA : sched_svrconn := ⟨"A", 4, 5⟩

/-- Server B: secondary socket 7. -/
def svrB : sched_svrconn := ⟨"B", 6, 7⟩

/-- An environment in which every call succeeds: `schedule` returns 0, the
sockets accept the marker, a connection attempt gives socket 8 (primary) or
9 (secondary), a blocking decode gives a command and the look-ahead finds
nothing. -/
def env_ok : Env where
  schedule := fun _ _ _ => 0
  diswsi := fun _ _ _ => 0
  dis_flush := fun _ _ => 0
  connect_attempt := fun _ _ is_primary => ⟨if is_primary then 8 else 9, 0, 0, 0, 0, true, 0, none⟩
  tpp_em_add_fd := fun _ _ => 0
  alloc := fun _ _ => true
  decode := fun _ _ => (1, ⟨1, none, -1⟩)
  decode_noblk := fun _ _ => (0, ⟨0, none, -1⟩)
  tpp_em_pwait := fun _ => .ready []
  time := fun _ => 0
  read_config := fun _ _ => 0

/-- A state with the given registry and queue, the secondary sockets of the
registry in the poll set, nothing blocked and an empty trace. -/
def state_of (servers : List sched_svrconn) (q : List sched_cmd) : State :=
  { servers := some servers, poll_context := some (servers.map fun c => c.secondary_sock),
    sched_cmds := q, sigmask := [], segv_start_time := 0, segv_last_time := 0,
    opt_no_restart := false, trace := [] }

/-- Scenario 1 of the spec: AJOB "1.srv" from A, then AJOB "2.srv" from B. -/
def cmd1 : sched_cmd := ⟨SCH_SCHEDULE_AJOB, some "1.srv", 5⟩

/-- Second command of scenario 1. -/
def cmd2 : sched_cmd := ⟨SCH_SCHEDULE_AJOB, some "2.srv", 7⟩

/-- The events of one `close_server` call. -/
def close_events (c : sched_svrconn) : List Event :=
  [.tpp_em_del_fd c.secondary_sock, .pbs_disconnect c.primary_sock,
   .pbs_disconnect c.secondary_sock, .log_disconnected c.svrhost]

/-- A third command, from server A. -/
def cmd3 : sched_cmd := ⟨1, none, 5⟩

/-- As `env_ok`, but every marker write fails. -/
def env_write_fails : Env :=
  { env_ok with diswsi := fun _ _ _ => -1 }

/-- As `env_ok`, but the look-ahead meets the end of the stream (-2). -/
def env_eof_lookahead : Env :=
  { env_ok with decode_noblk := fun _ _ => (-2, ⟨0, none, -1⟩) }

/-- The look-ahead block of `read_sched_cmd`, run on the state `s1` reached
after the blocking decode: the state after it and the result of the
non-blocking decode, if `cmd_prio` could be allocated. -/
def read_lookahead (env : Env) (s1 : State) (sock : Int) : State × Option Int :=
  if env.alloc s1.trace .new_sched_cmd_prio then
    let r := get_sched_cmd_noblk env s1 sock
    (r.1.log [.free_sched_cmd r.2.2], some r.2.1)
  else (s1, none)

/-- Events that a connection attempt appends: connects, disconnects of failed
attempts, retry sleeps, the poll-set addition and the success log. Closing a
registered server (`tpp_em_del_fd`, "Disconnected from server") is not among
them. -/
def Event.connecting : Event → Bool
  | .pbs_connect _ _ _ => true
  | .pbs_disconnect _ => true
  | .sleep _ => true
  | .tpp_em_add_fd _ _ => true
  | .log_connected _ => true
  | _ => false

/-- The hosts logged as "Disconnected from server", in order: one per
`close_server` call on a non-NULL connection. -/
def disconnect_logs (t : List Event) : List String :=
  t.filterMap fun e => match e with
    | .log_disconnected host => some host
    | _ => none

/-- The exit status of an outcome that ended the process. -/
def Res.exit_status {α : Type} : Res α → Option Int
  | .exited _ n => some n
  | _ => none

/-- An environment in which descriptor 5 is ready, reading a command fails
(-1) and the server answers the register request with error 15 and an error
text. -/
def env_reject : Env :=
  { env_ok with
    decode := fun _ _ => (-1, ⟨0, none, -1⟩),
    tpp_em_pwait := fun _ => .ready [5],
    connect_attempt := fun _ _ _ => ⟨8, 0, 0, 0, 0, true, 15, some "rejected"⟩ }

/-- As `env_reject`, and every marker write fails. -/
def env_reject_write : Env :=
  { env_reject with diswsi := fun _ _ _ => -1 }

/-- As `env_ok`, but reading a command fails (-1). -/
def env_read_fails : Env :=
  { env_ok with decode := fun _ _ => (-1, ⟨0, none, -1⟩) }

/-- Result of the marker write of `send_cycle_end`. -/
def marker_write_rc (env : Env) (s : State) (sconn : sched_svrconn) : Int :=
  env.diswsi s.trace sconn.secondary_sock cycle_end_marker

/-- State after the marker write of `send_cycle_end`. -/
def after_marker_write (env : Env) (s : State) (sconn : sched_svrconn) : State :=
  s.log [.diswsi sconn.secondary_sock cycle_end_marker (marker_write_rc env s sconn)]

/-- Result of the flush of `send_cycle_end`. -/
def marker_flush_rc (env : Env) (s : State) (sconn : sched_svrconn) : Int :=
  env.dis_flush (after_marker_write env s sconn).trace sconn.secondary_sock

/-- State after the flush of `send_cycle_end`. -/
def after_marker_flush (env : Env) (s : State) (sconn : sched_svrconn) : State :=
  (after_marker_write env s sconn).log
    [.dis_flush sconn.secondary_sock (marker_flush_rc env s sconn)]

/-! ## Predicates on runs -/

/-- The trace `t2` extends `t1` by quiet events only. -/
def QuietExt (t1 t2 : List Event) : Prop :=
  ∃ ev, t2 = t1 ++ ev ∧ ∀ e ∈ ev, e.quiet = true

/-- A piece of the program is framed at `s` when it appends quiet events only
and, if it returns, returns with the queue of `s`. -/
structure Frame {α : Type} (s : State) (r : Res α) : Prop where
  quiet : QuietExt s.trace r.state.trace
  cmds : ∀ s1 a, r = .ret s1 a → s1.sched_cmds = s.sched_cmds

/-- What a stretch of the run shows of cycles and markers: every marker write
belongs to a cycle that returned 0, on the socket its command came from, and
every successful write is followed by its flush. -/
structure MarkersPaired (ev : List Event) : Prop where
  writes : marker_writes ev = zero_cycles ev
  flushed : flushes ev = marker_writes_ok ev

/-- From `s` to `s1` only connection attempts happened: registry and poll set
are the same and the trace grew by connecting events. -/
structure ConnStep (s s1 : State) : Prop where
  servers : s1.servers = s.servers
  poll : s1.poll_context = s.poll_context
  cmds : s1.sched_cmds = s.sched_cmds
  trace : ∃ ev, s1.trace = s.trace ++ ev ∧ ∀ e ∈ ev, e.connecting = true

/-- The attempt failed in transport: no socket, a failed send of the register
request, a failed flush or no reply. -/
def ConnAttempt.transport_failed (a : ConnAttempt) : Bool :=
  decide (a.sock < 0) || decide (a.hdr_rc ≠ DIS_SUCCESS) || decide (a.name_rc ≠ DIS_SUCCESS) ||
    decide (a.ext_rc ≠ DIS_SUCCESS) || decide (a.flush_rc ≠ 0) || !a.reply

/-- The state in which `connect_server_helper` leaves through `rerr`. -/
def rerr_state (env : Env) (s : State) (host : String) (is_primary : Bool) : State :=
  (s.log [.pbs_connect host is_primary (env.connect_attempt s.trace host is_primary).sock]).log
    [.pbs_disconnect (env.connect_attempt s.trace host is_primary).sock]

/-- An environment in which the server answers the register request with
error 15 and leaves no error text on the connection. -/
def env_silent_reject : Env :=
  { env_ok with connect_attempt := fun _ _ _ => ⟨8, 0, 0, 0, 0, true, 15, none⟩ }

/-- As `env_ok`, with descriptor 5 reported ready by every wait. -/
def env_ready : Env :=
  { env_ok with tpp_em_pwait := fun _ => .ready [5] }

/-- The registered connections: the entries of `servers`, none for NULL. -/
def registry (s : State) : List sched_svrconn :=
  s.servers.getD []

/-- The descriptors in the poll set, none for a NULL context. -/
def poll_set (s : State) : List Int :=
  s.poll_context.getD []

/-- The operating system hands out descriptors that are not in use: the
connections that `s1` has registered beyond those of `s` have secondary
sockets that no connection registered in `s` has. -/
def SockFresh (s s1 : State) : Prop :=
  ∀ c1 ∈ (registry s1).drop (registry s).length,
    ∀ c ∈ registry s, c1.secondary_sock ≠ c.secondary_sock

/-- The states the registry operations lead to, the way the program uses
them: starting with no connection and a fresh poll context (the state
`connect_servers` sets up), `connect_server` and `reconnect_server` run while
the poll context exists and yield a descriptor that is not in use,
`close_server` and `reconnect_server` are given registered connections,
`close_servers` closes everything. -/
inductive Reachable (env : Env) : State → Prop where
  | init (s : State) (h1 : registry s = []) (h2 : s.poll_context = some []) : Reachable env s
  | connect (s s1 : State) (fuel : Nat) (host : String) (hr : Reachable env s)
      (hp : s.poll_context.isSome = true)
      (h : connect_server env fuel s (some host) = .ret s1 ()) (hf : SockFresh s s1) :
      Reachable env s1
  | close (s : State) (c : sched_svrconn) (hr : Reachable env s) (hc : c ∈ registry s) :
      Reachable env (close_server s (some c))
  | reconnect (s s1 : State) (fuel : Nat) (c : sched_svrconn) (hr : Reachable env s)
      (hc : c ∈ registry s) (h : reconnect_server env fuel s c = .ret s1 ())
      (hf : SockFresh (close_server s (some c)) s1) : Reachable env s1
  | close_all (s s1 : State) (fuel : Nat) (hr : Reachable env s)
      (h : close_servers fuel s = .ret s1 ()) : Reachable env s1

/-- The invariant kept by the registry operations: valid sockets, pairwise
different secondary sockets, and the poll set holding exactly the secondary
sockets of the registered connections, in registry order. -/
structure RegInv (s : State) : Prop where
  valid : ∀ c ∈ registry s, 0 ≤ c.primary_sock ∧ 0 ≤ c.secondary_sock
  nodup : ((registry s).map fun c => c.secondary_sock).Nodup
  poll : poll_set s = (registry s).map fun c => c.secondary_sock

/-- `SCH_CONFIGURE` of `sched_cmds.h`; as for `SCH_SCHEDULE_AJOB` the value
only labels the command. -/
def SCH_CONFIGURE : Int := 6

/-- The connection `{NULL, -1, -1}` that `restart` hands to `schedule`; the
NULL host string is represented by the empty string. -/
def restart_sconn : sched_svrconn := ⟨"", -1, -1⟩

/-- The command `{SCH_CONFIGURE, NULL, -1}` that `restart` hands to
`schedule`. -/
def restart_cmd : sched_cmd := ⟨SCH_CONFIGURE, none, -1⟩

/-- The log lines at the start of `restart`: with a signal the log is closed
and opened again first. -/
def restart_log (sig : Int) : List Event :=
  if sig ≠ 0 then [.log_msg "log reopened", .log_msg "restart on signal"]
  else [.log_msg "restart command"]

/-- The function `restart`, the handler of SIGHUP: log, read the client
configuration again when `configfile` is set and end through `die(0)` when
that fails, then call `schedule` with a configure command; the result of
`schedule` is not used. -/
def restart (env : Env) (fuel : Nat) (s : State) (sig : Int) (configfile : Option String) :
    Res Unit :=
  let s0 := s.log (restart_log sig)
  let run := fun (s1 : State) =>
    (Res.ret (s1.log [.schedule restart_sconn restart_cmd
      (env.schedule s1.trace restart_sconn restart_cmd)]) () : Res Unit)
  match configfile with
  | none => run s0
  | some file =>
    let rc := env.read_config s0.trace file
    let s1 := s0.log [.read_config file rc]
    if rc ≠ 0 then die fuel s1 0 else run s1

/-- The reload of `restart` succeeds: no configuration file is set, or
`read_config` returns 0. -/
def reload_ok (env : Env) (s : State) (sig : Int) (configfile : Option String) : Prop :=
  match configfile with
  | none => True
  | some file => env.read_config (s.log (restart_log sig)).trace file = 0

/-- The `read_config` event of a successful reload. -/
def reload_events (configfile : Option String) : List Event :=
  match configfile with
  | none => []
  | some file => [.read_config file 0]

/-- As `env_ok`, but `read_config` fails. -/
def env_bad_config : Env :=
  { env_ok with read_config := fun _ _ => -1 }

/-! ## The segv handler -/

/-- What `on_segv` ends in: `pthread_exit` when the cleanup lock cannot be
taken, `abort()` inside the five-minute window, `sleep(10)` and
`execv(glob_argv[0], glob_argv)` in the process for which `fork()` returned a
child pid, `abort()` in the process for which `fork()` returned 0 or failed. -/
inductive SegvAction where
  | thread_exit
  | abort_in_window
  | reexec
  | abort_after_fork
deriving DecidableEq, Repr

/-- The function `on_segv`; `lock_rc` is the result of `pthread_mutex_lock`
and `fork_rc` the result of `fork()` in the process that runs the handler. -/
def on_segv (lock_rc fork_rc : Int) (s : State) : SegvAction :=
  if lock_rc ≠ 0 then .thread_exit
  else if s.segv_last_time - s.segv_start_time < 300 then .abort_in_window
  else if fork_rc > 0 then .reexec
  else .abort_after_fork

/-- A state in which the last cycle started 400 seconds after the start of
the scheduler. -/
def state_late : State :=
  { state_of [svrA] [] with segv_start_time := 1000, segv_last_time := 1400 }

/-! ## Server side: sending a command to the scheduler (`run_sched.c`) -/

/-- Actions of the server when it contacts the scheduler. -/
inductive SvrEvent where
  | DIS_tcp_setup (sock : Int)
  | diswsi (sock : Int) (value : Int) (rc : Int)
  | diswst (sock : Int) (value : Option String) (rc : Int)
  | DIS_tcp_wflush (sock : Int)
  | log_msg (what : String)
  | sigaction_alarm (rc : Int)
  | alarm (secs : Nat)
  | client_to_svr (sock : Int)
  | sigaction_reset
  | add_conn (sock : Int) (ok : Bool)
  | net_add_close_func (sock : Int)
  | close_conn (sock : Int)
deriving DecidableEq, Repr

/-- What the server meets when it contacts the scheduler: the results of the
two DIS writes, of `sigaction`, of `client_to_svr` (with whether `pbs_errno`
is `PBSE_NOLOOPBACKIF` after it) and of `add_conn`. -/
structure SvrEnv where
  diswsi : Int → Int → Int
  diswst : Int → Option String → Int
  sigaction : Int
  client_to_svr : Int
  noloopbackif : Bool
  add_conn : Int → Bool

/-- `PBS_NET_RC_RETRY` of `net_connect.h`. -/
def PBS_NET_RC_RETRY : Int := -2

/-- The function `put_sched_cmd`: write `cmd`, then the job id when `cmd` is
`SCH_SCHEDULE_AJOB`, then flush; a failed write logs and returns -1. -/
def put_sched_cmd (env : SvrEnv) (sock cmd : Int) (jobid : Option String) :
    List SvrEvent × Int :=
  let ret := env.diswsi sock cmd
  let t0 : List SvrEvent := [.DIS_tcp_setup sock, .diswsi sock cmd ret]
  let err := fun (t : List SvrEvent) =>
    (t ++ [SvrEvent.log_msg "write to scheduler failed"], (-1 : Int))
  if ret ≠ DIS_SUCCESS then err t0
  else if cmd = SCH_SCHEDULE_AJOB then
    let ret2 := env.diswst sock jobid
    let t1 := t0 ++ [.diswst sock jobid ret2]
    if ret2 ≠ DIS_SUCCESS then err t1
    else (t1 ++ [.DIS_tcp_wflush sock], 0)
  else (t0 ++ [.DIS_tcp_wflush sock], 0)

/-- The function `contact_sched` (build without `WIN32`): refuse
`SCH_SCHEDULE_AJOB` without a job id, connect to the scheduler under an
alarm, register the connection and send the command. -/
def contact_sched (env : SvrEnv) (cmd : Int) (jobid : Option String) : List SvrEvent × Int :=
  if cmd = SCH_SCHEDULE_AJOB ∧ jobid = none then ([], -1)
  else if env.sigaction = -1 then ([.sigaction_alarm (-1)], PBS_NET_RC_RETRY)
  else
    let sock := env.client_to_svr
    let t0 : List SvrEvent := [.sigaction_alarm env.sigaction, .alarm 20, .client_to_svr sock] ++
      (if env.noloopbackif then [SvrEvent.log_msg "msg_noloopbackif"] else []) ++
      [.alarm 0, .sigaction_reset]
    if sock < 0 then (t0 ++ [.log_msg "msg_sched_nocall"], -1)
    else if !env.add_conn sock then
      (t0 ++ [.add_conn sock false, .log_msg "could not find sock in connection table"], -1)
    else
      let t1 := t0 ++ [.add_conn sock true, .net_add_close_func sock]
      let r := put_sched_cmd env sock cmd jobid
      if r.2 < 0 then (t1 ++ r.1 ++ [.close_conn sock], -1)
      else (t1 ++ r.1 ++ [.log_msg "msg_sched_called"], sock)

/-- A value written to the scheduler: an integer or a string. -/
inductive Wire where
  | int (v : Int)
  | str (v : Option String)
deriving DecidableEq, Repr

/-- The values handed to the DIS writers, in order. -/
def wire_writes (t : List SvrEvent) : List Wire :=
  t.filterMap fun e => match e with
    | .diswsi _ v _ => some (.int v)
    | .diswst _ v _ => some (.str v)
    | _ => none

/-! ## Signal mask discipline along a trace -/

/-- Events that neither change the signal mask nor start a cycle. -/
def Event.keeps_mask : Event → Bool
  | .sigprocmask _ => false
  | .schedule _ _ _ => false
  | _ => true

/-- The mask `m` blocks exactly the signals of `allsigs`. -/
def same_signals (m : List Int) : Bool :=
  allsigs.all (fun x => m.contains x) && m.all (fun x => allsigs.contains x)

/-- What a reader of the trace knows at a point of it: the signal mask in
force and the command of the cycle in progress, if its command has not been
freed yet. -/
structure MaskScan where
  mask : List Int
  running : Option sched_cmd
deriving DecidableEq, Repr

/-- One event read against the discipline: a mask change is refused while the
command of a cycle has not been freed; a `schedule` call is refused unless no
cycle is in progress and exactly the signals of `allsigs` are blocked; the
free of the command of the cycle ends the cycle. `none` is a refusal. -/
def mask_step (st : MaskScan) : Event → Option MaskScan
  | .sigprocmask m => if st.running.isSome then none else some ⟨m, none⟩
  | .schedule _ cmd _ =>
    if st.running.isNone && same_signals st.mask then some ⟨st.mask, some cmd⟩ else none
  | .free_sched_cmd c => if st.running = some c then some ⟨st.mask, none⟩ else some st
  | _ => some st

/-- A stretch of the trace read against the discipline. -/
def mask_scan : MaskScan → List Event → Option MaskScan
  | st, [] => some st
  | st, e :: rest => (mask_step st e).bind fun st1 => mask_scan st1 rest

/-- The trace `t2` extends `t1` by events that keep the mask. -/
def KExt (t1 t2 : List Event) : Prop :=
  ∃ ev, t2 = t1 ++ ev ∧ ∀ e ∈ ev, e.keeps_mask = true

/-- A piece of the program appends only events that keep the mask and, if it
returns, returns with the signal mask of `s`. -/
structure KFrame {α : Type} (s : State) (r : Res α) : Prop where
  ext : KExt s.trace r.state.trace
  mask : ∀ s1 a, r = .ret s1 a → s1.sigmask = s.sigmask

/-- A piece of the program run from `s` keeps the discipline: what it appends
to the trace is accepted, read from the mask of `s` with no cycle in
progress, and if it returns, no cycle is in progress, the mask in force is
the one of the state returned and it blocks signals of `allsigs` only. -/
structure MaskOK {α : Type} (s : State) (r : Res α) : Prop where
  scan : ∃ ev st, r.state.trace = s.trace ++ ev ∧
    mask_scan ⟨s.sigmask, none⟩ ev = some st ∧
    ∀ s1 a, r = .ret s1 a → st = ⟨s1.sigmask, none⟩
  sub : ∀ s1 a, r = .ret s1 a → ∀ x ∈ s1.sigmask, x ∈ allsigs

/-! ## Server side: asking for a scheduling cycle (`run_sched.c`) -/

/-- `SCH_SCHEDULE_NULL` of `sched_cmds.h`. -/
def SCH_SCHEDULE_NULL : Int := 0

/-- `SCH_QUIT` of `sched_cmds.h`. -/
def SCH_QUIT : Int := 7

/-- `SCH_SCHEDULE_FIRST` of `sched_cmds.h`. -/
def SCH_SCHEDULE_FIRST : Int := 9

/-- `IS_ARRAY_NO` of `job.h`: the id names a regular job. -/
def IS_ARRAY_NO : Int := 0

/-- `IS_ARRAY_Single` of `job.h`: the id names one subjob. -/
def IS_ARRAY_Single : Int := 2

/-- `IS_ARRAY_Range` of `job.h`: the id names a range of subjobs. -/
def IS_ARRAY_Range : Int := 3

/-- One entry of the list `svr_deferred_req`: a qrun request that waits for
the scheduler, with its job id and its sent mark. -/
structure deferred_request where
  dr_id : String
  dr_sent : Int
deriving DecidableEq, Repr

/-- The globals of `run_sched.c` that `schedule_jobs` and
`set_scheduler_flag` use, the static `first_time` of `schedule_jobs`, and the
trace of the server's actions. -/
structure SvrState where
  scheduler_sock : Int
  scheduler_sock2 : Int
  svr_do_schedule : Int
  svr_do_sched_high : Int
  first_time : Int
  svr_deferred_req : List deferred_request
  trace : List SvrEvent
deriving DecidableEq, Repr

/-- The job table as `schedule_jobs` consults it: `is_job_array`, and whether
`find_job` and `find_arrayparent` return a job. -/
structure SvrJobs where
  is_job_array : String → Int
  find_job : String → Bool
  find_arrayparent : String → Bool

/-- Modelled from the spec: `set_sched_sock` is not among the excerpted files;
it is taken to store the socket of the cycle in `scheduler_sock`. -/
def set_sched_sock (s : SvrState) (sock : Int) : SvrState :=
  { s with scheduler_sock := sock }

/-- The first loop of `schedule_jobs`: the position (counted from `i`) of the
first deferred request that has not been sent and whose job, or array parent,
exists; `none` when the loop ends with `pdefr == NULL`. -/
def schedule_jobs_pick (jobs : SvrJobs) : List deferred_request → Nat → Option Nat
  | [], _ => none
  | p :: rest, i =>
    if p.dr_sent = 0 then
      let s := jobs.is_job_array p.dr_id
      if s = IS_ARRAY_NO then
        if jobs.find_job p.dr_id then some i else schedule_jobs_pick jobs rest (i + 1)
      else if s = IS_ARRAY_Single ∨ s = IS_ARRAY_Range then
        if jobs.find_arrayparent p.dr_id then some i else schedule_jobs_pick jobs rest (i + 1)
      else schedule_jobs_pick jobs rest (i + 1)
    else schedule_jobs_pick jobs rest (i + 1)

/-- The assignment `pdefr->dr_sent = 1` on the entry at position `i`. -/
def mark_sent : List deferred_request → Nat → List deferred_request
  | [], _ => []
  | p :: rest, 0 => { p with dr_sent := 1 } :: rest
  | p :: rest, i + 1 => p :: mark_sent rest i

/-- The command and job id that `schedule_jobs` settles on before it contacts
the scheduler: `SCH_SCHEDULE_FIRST` the first time and `svr_do_schedule`
later, replaced by `SCH_SCHEDULE_AJOB` with the job id of the picked deferred
request. -/
def schedule_jobs_cmd (jobs : SvrJobs) (s : SvrState) : Int × Option String :=
  let cmd := if s.first_time ≠ 0 then SCH_SCHEDULE_FIRST else s.svr_do_schedule
  match schedule_jobs_pick jobs s.svr_deferred_req 0 with
  | some i => (SCH_SCHEDULE_AJOB, (s.svr_deferred_req.get? i).map fun p => p.dr_id)
  | none => (cmd, none)

/-- The function `schedule_jobs`. The environment is asked anew at each
contact, with the trace so far. Returns 1 when a request is outstanding, -1
when the scheduler could not be contacted and 0 when it was notified. The
connection table (`add_conn`, `net_add_close_func`, `close_conn`) is not among
the excerpted files: its calls are events of the trace and write no global
here. -/
def schedule_jobs (env : List SvrEvent → SvrEnv) (jobs : SvrJobs) (s : SvrState) :
    SvrState × Int :=
  if s.scheduler_sock = -1 then
    let pdefr := schedule_jobs_pick jobs s.svr_deferred_req 0
    let c := schedule_jobs_cmd jobs s
    let r := contact_sched (env s.trace) c.1 c.2
    let s1 := { s with trace := s.trace ++ r.1 }
    if r.2 < 0 then (s1, -1)
    else
      let s2 := match pdefr with
        | some i => { s1 with svr_deferred_req := mark_sent s1.svr_deferred_req i }
        | none => s1
      let s3 := set_sched_sock s2 r.2
      let s4 :=
        if s3.scheduler_sock2 = -1 then
          let r2 := contact_sched (env s3.trace) SCH_SCHEDULE_NULL none
          let s3a := { s3 with trace := s3.trace ++ r2.1 }
          if r2.2 ≥ 0 then { s3a with scheduler_sock2 := r2.2 } else s3a
        else s3
      let s5 := { s4 with svr_do_schedule := SCH_SCHEDULE_NULL, first_time := 0 }
      let s6 :=
        if s5.svr_deferred_req.any (fun p => p.dr_sent = 0) then
          { s5 with svr_do_schedule := SCH_SCHEDULE_AJOB }
        else s5
      (s6, 0)
  else (s, 1)

/-- The function `set_scheduler_flag`: a high priority command goes to
`svr_do_sched_high` unless `SCH_QUIT` is already there, every other flag goes
to `svr_do_schedule`. -/
def set_scheduler_flag (s : SvrState) (flag : Int) : SvrState :=
  if flag = SCH_CONFIGURE ∨ flag = SCH_QUIT then
    if s.svr_do_sched_high = SCH_QUIT then s
    else { s with svr_do_sched_high := flag }
  else { s with svr_do_schedule := flag }

/-- An environment in which every contact with the scheduler succeeds on
descriptor 9. -/
def svr_env_ok : List SvrEvent → SvrEnv := fun _ =>
  { diswsi := fun _ _ => 0, diswst := fun _ _ => 0, sigaction := 0, client_to_svr := 9,
    noloopbackif := false, add_conn := fun _ => true }

/-- An environment in which the scheduler cannot be reached. -/
def svr_env_down : List SvrEvent → SvrEnv := fun _ =>
  { diswsi := fun _ _ => 0, diswst := fun _ _ => 0, sigaction := 0, client_to_svr := -1,
    noloopbackif := false, add_conn := fun _ => true }

/-- A job table in which every id names an existing regular job. -/
def svr_jobs_all : SvrJobs :=
  { is_job_array := fun _ => IS_ARRAY_NO, find_job := fun _ => true,
    find_arrayparent := fun _ => false }

/-- The server at rest after its first cycle, with one unsent qrun request. -/
def svr_idle : SvrState :=
  { scheduler_sock := -1, scheduler_sock2 := -1, svr_do_schedule := 1, svr_do_sched_high := 0,
    first_time := 0, svr_deferred_req := [⟨"7.srv", 0⟩], trace := [] }

/-! ## Work tasks (`work_task.c`) -/

/-- The kinds of work task (`enum work_type` of `work_task.h`). -/
inductive work_type where
  | WORK_Immed
  | WORK_Interleave
  | WORK_Timed
  | WORK_Deferred_Child
  | WORK_Deferred_Reply
  | WORK_Deferred_Local
  | WORK_Deferred_Other
  | WORK_Deferred_Cmp
  | WORK_Deferred_cmd
deriving DecidableEq, Repr

/-- A work task as `set_task` fills it: the event id (for a timed task the
time at which it is due), the type, the function (`none` for a NULL pointer)
and the first parameter. The other fields are cleared by `set_task` and not
read by the code embedded here. -/
structure work_task where
  wt_event : Int
  wt_type : work_type
  wt_func : Option Nat
  wt_parm1 : Nat
deriving DecidableEq, Repr

/-- The three task lists of the server. -/
structure TaskLists where
  task_list_immed : List work_task
  task_list_timed : List work_task
  task_list_event : List work_task
deriving DecidableEq, Repr

/-- The search loop of `set_task` for a timed task together with the insert
that follows it: `pnew` goes before the first task whose `wt_event` is greater
than its own, and to the end when there is none. -/
def set_task_timed (pnew : work_task) : List work_task → List work_task
  | [] => [pnew]
  | pold :: rest =>
    if pold.wt_event > pnew.wt_event then pnew :: pold :: rest
    else pold :: set_task_timed pnew rest

/-- The function `set_task`; `malloc_ok` tells whether the allocation of the
task succeeds. Returns the new task, `none` for NULL. -/
def set_task (malloc_ok : Bool) (type : work_type) (event_id : Int) (func : Option Nat)
    (parm : Nat) (L : TaskLists) : TaskLists × Option work_task :=
  if !malloc_ok then (L, none)
  else
    let pnew : work_task :=
      { wt_event := event_id, wt_type := type, wt_func := func, wt_parm1 := parm }
    if type = .WORK_Immed then
      ({ L with task_list_immed := L.task_list_immed ++ [pnew] }, some pnew)
    else if type = .WORK_Timed then
      ({ L with task_list_timed := set_task_timed pnew L.task_list_timed }, some pnew)
    else ({ L with task_list_event := L.task_list_event ++ [pnew] }, some pnew)

/-- A timed task due at `t`. -/
def timed_task (t : Int) (p : Nat) : work_task :=
  { wt_event := t, wt_type := .WORK_Timed, wt_func := some 1, wt_parm1 := p }

/-- The timed list is in non-decreasing order of `wt_event`. -/
def TimedSorted (l : List work_task) : Prop :=
  l.Pairwise fun a b => a.wt_event ≤ b.wt_event

/-- `PBS_MAXHOSTNAME` of `pbs_ifl.h`: the longest host name that fits in
`mi_host`. -/
def PBS_MAXHOSTNAME : Nat := 255

/-- `GROW_MOMINFO_ARRAY_AMT` of `mom_info.c`. -/
def GROW_MOMINFO_ARRAY_AMT : Nat := 10

/-- A `mominfo_t` element: the address `malloc` gave it, which stands for the
pointer to it, its host name and its two ports. -/
structure mominfo_t where
  addr : Nat
  mi_host : String
  mi_port : Nat
  mi_rmport : Nat
deriving DecidableEq, Repr

/-- Actions of the functions on the table of Moms besides their writes to the
table. -/
inductive MomEvent where
  | log_err (what : String)
  | add_pending_mom_hook_actions (addr : Nat)
  | delete_task_by_parm1_func (addr : Nat)
  | free (addr : Nat)
deriving DecidableEq, Repr

/-- The globals `mominfo_array` (its size being the length; a slot is `none`
when it holds NULL) and `svr_num_moms`, with the trace of actions. -/
structure MomState where
  mominfo_array : List (Option mominfo_t)
  svr_num_moms : Int
  trace : List MomEvent
deriving DecidableEq, Repr

/-- What `create_mom_entry` meets: whether `realloc` of the array succeeds, the
address that `malloc` returns for the element (`none` for NULL), and the
count of hooks seen. -/
structure MomEnv where
  realloc_ok : Bool
  malloc : Option Nat
  mom_hooks_seen_count : Int

/-- The test `strcasecmp(a, b) == 0`: the strings agree when upper and lower
case letters are taken as the same. -/
def strcasecmp_zero (a b : String) : Bool :=
  a.data.map Char.toLower = b.data.map Char.toLower

/-- The test of `create_mom_entry` and `find_mom_entry` on an element: same
host name, ignoring case, and same port. -/
def mom_matches (pmom : mominfo_t) (hostname : String) (port : Nat) : Bool :=
  strcasecmp_zero pmom.mi_host hostname && pmom.mi_port = port

/-- The first loop of `create_mom_entry`, from position `i` on with the first
empty slot found so far in `empty`: it ends with the first element that
matches, or else with the position of the first empty slot (`none` for the
-1 of the source). -/
def create_mom_entry_scan (hostname : String) (port : Nat) :
    List (Option mominfo_t) → Nat → Option Nat → mominfo_t ⊕ Option Nat
  | [], _, empty => .inr empty
  | some pmom :: rest, i, empty =>
    if mom_matches pmom hostname port then .inl pmom
    else create_mom_entry_scan hostname port rest (i + 1) empty
  | none :: rest, i, empty =>
    create_mom_entry_scan hostname port rest (i + 1) (if empty = none then some i else empty)

/-- The element that `create_mom_entry` builds: the host name is copied up to
`PBS_MAXHOSTNAME` characters, and `mi_rmport` is the next port, in unsigned
32-bit arithmetic. -/
def new_mom (a : Nat) (hostname : String) (port : Nat) : mominfo_t :=
  { addr := a, mi_host := ⟨hostname.data.take PBS_MAXHOSTNAME⟩, mi_port := port,
    mi_rmport := (port + 1) % 2 ^ 32 }

/-- The function `create_mom_entry`: return the element that matches, or else
put a new element in the first empty slot, growing the array by
`GROW_MOMINFO_ARRAY_AMT` slots when there is none. Returns `none` for NULL
when an allocation fails. -/
def create_mom_entry (env : MomEnv) (S : MomState) (hostname : String) (port : Nat) :
    MomState × Option mominfo_t :=
  match create_mom_entry_scan hostname port S.mominfo_array 0 none with
  | .inl pmom => (S, some pmom)
  | .inr empty0 =>
    let grown : Option (MomState × Nat) :=
      match empty0 with
      | some e => some (S, e)
      | none =>
        if env.realloc_ok then
          some ({ S with mominfo_array :=
                    S.mominfo_array ++ List.replicate GROW_MOMINFO_ARRAY_AMT none },
                S.mominfo_array.length)
        else none
    match grown with
    | none => ({ S with trace := S.trace ++ [.log_err "malloc failed"] }, none)
    | some (S1, empty) =>
      match env.malloc with
      | some a =>
        let pmom := new_mom a hostname port
        let hooks : List MomEvent :=
          if env.mom_hooks_seen_count > 0 then [.add_pending_mom_hook_actions a] else []
        ({ S1 with mominfo_array := S1.mominfo_array.set empty (some pmom),
                   svr_num_moms := S1.svr_num_moms + 1,
                   trace := S1.trace ++ hooks }, some pmom)
      | none => ({ S1 with trace := S1.trace ++ [.log_err "malloc failed"] }, none)

/-- The loop of `find_mom_entry`: the first element that matches. -/
def find_mom_entry_scan (hostname : String) (port : Nat) :
    List (Option mominfo_t) → Option mominfo_t
  | [] => none
  | some pmom :: rest =>
    if mom_matches pmom hostname port then some pmom
    else find_mom_entry_scan hostname port rest
  | none :: rest => find_mom_entry_scan hostname port rest

/-- The function `find_mom_entry`. -/
def find_mom_entry (S : MomState) (hostname : String) (port : Nat) : Option mominfo_t :=
  find_mom_entry_scan hostname port S.mominfo_array

/-- The loop of `delete_mom_entry`: the first slot that points to the element
at address `a` is set to NULL. -/
def delete_mom_entry_clear (a : Nat) : List (Option mominfo_t) → List (Option mominfo_t)
  | [] => []
  | slot :: rest =>
    if slot.map (fun q => q.addr) = some a then none :: rest
    else slot :: delete_mom_entry_clear a rest

/-- The function `delete_mom_entry`: nothing for NULL; otherwise the tasks
that refer to the element are deleted, its slot is cleared, it is freed and
`svr_num_moms` is decremented. -/
def delete_mom_entry (S : MomState) (pmom : Option mominfo_t) : MomState :=
  match pmom with
  | none => S
  | some p =>
    { S with mominfo_array := delete_mom_entry_clear p.addr S.mominfo_array,
             svr_num_moms := S.svr_num_moms - 1,
             trace := S.trace ++ [.delete_task_by_parm1_func p.addr, .free p.addr] }

/-- The count of Moms agrees with the table: `svr_num_moms` is the number of
slots of `mominfo_array` that are not NULL. -/
def MomInv (S : MomState) : Prop :=
  S.svr_num_moms = (S.mominfo_array.countP fun slot => slot.isSome)

/-- The table is in use by the element at address `a`. -/
def mom_in_table (S : MomState) (a : Nat) : Prop :=
  ∃ slot ∈ S.mominfo_array, slot.map (fun q => q.addr) = some a

/-- The empty table at start-up. -/
def mom_state_empty : MomState := { mominfo_array := [], svr_num_moms := 0, trace := [] }

/-- Allocations succeed and `malloc` returns address `a`. -/
def mom_env (a : Nat) : MomEnv := { realloc_ok := true, malloc := some a, mom_hooks_seen_count := 0 }

/-- A host name of `PBS_MAXHOSTNAME + 1` characters. -/
def long_hostname : String := ⟨List.replicate (PBS_MAXHOSTNAME + 1) 'h'⟩

/-! ## Boolean attributes (`attr_fn_b.c`) -/

/-- `ATR_TRUE` of `pbs_ifl.h`. -/
def ATR_TRUE : String := "True"

/-- `ATR_FALSE` of `pbs_ifl.h`. -/
def ATR_FALSE : String := "False"

/-- `PBSE_BADATVAL` of `pbs_error.h`. -/
def PBSE_BADATVAL : Int := 15014

/-- `ATR_VFLAG_SET` of `attribute.h`. -/
def ATR_VFLAG_SET : Nat := 1

/-- `ATR_VFLAG_MODIFY` of `attribute.h`. -/
def ATR_VFLAG_MODIFY : Nat := 2

/-- `ATR_VFLAG_MODCACHE` of `attribute.h`. -/
def ATR_VFLAG_MODCACHE : Nat := 8

/-- The part of `struct attribute` that `decode_b` writes: the flags and the
value as a long. The name `attribute` is reserved here. -/
structure pbs_attribute where
  at_flags : Nat
  at_long : Int
deriving DecidableEq, Repr

/-- The function `is_true_or_false`: 1 for a spelling of true, 0 for a
spelling of false, -1 for anything else. -/
def is_true_or_false (val : String) : Int :=
  if val = ATR_TRUE ∨ val = "TRUE" ∨ val = "true" ∨ val = "t" ∨ val = "T" ∨ val = "1" ∨
      val = "y" ∨ val = "Y" then 1
  else if val = ATR_FALSE ∨ val = "FALSE" ∨ val = "false" ∨ val = "f" ∨ val = "F" ∨
      val = "0" ∨ val = "n" ∨ val = "N" then 0
  else -1

/-- The function `decode_b`; `val` is `none` for a NULL pointer. The
parameters `name` and `rescn` are not used by the source. The bits of
`at_flags & ~ATR_VFLAG_SET` are written as the flags with their common bits
with `ATR_VFLAG_SET` taken out. -/
def decode_b (patr : pbs_attribute) (_name : String) (_rescn : Option String)
    (val : Option String) :
    pbs_attribute × Int :=
  match val with
  | none =>
    ({ at_flags := (patr.at_flags ^^^ (patr.at_flags &&& ATR_VFLAG_SET)) |||
          (ATR_VFLAG_MODIFY ||| ATR_VFLAG_MODCACHE),
       at_long := 0 }, 0)
  | some v =>
    if v.length = 0 then
      ({ at_flags := (patr.at_flags ^^^ (patr.at_flags &&& ATR_VFLAG_SET)) |||
            (ATR_VFLAG_MODIFY ||| ATR_VFLAG_MODCACHE),
         at_long := 0 }, 0)
    else
      let i := is_true_or_false v
      if i ≠ -1 then
        ({ at_flags := patr.at_flags ||| ATR_VFLAG_SET ||| ATR_VFLAG_MODIFY ||| ATR_VFLAG_MODCACHE,
           at_long := i }, 0)
      else (patr, PBSE_BADATVAL)

/-- The spellings that `is_true_or_false` takes for true. -/
def true_spellings : List String := [ATR_TRUE, "TRUE", "true", "t", "T", "1", "y", "Y"]

/-- The spellings that `is_true_or_false` takes for false. -/
def false_spellings : List String := [ATR_FALSE, "FALSE", "false", "f", "F", "0", "n", "N"]

/-! ## Node names in `pbsnodes` (`pbsnodes.c`) -/

/-- The character a C string pointer points at: the head of what is left, or
the terminating NUL. -/
def deref (n : List Char) : Char := n.headD (Char.ofNat 0)

/-- The end of `cmp_node_name`, after the loop: 0 when both pointers stand at
the same character, 0 when the first stands at a dot and the second at its
end, 1 otherwise. -/
def cmp_node_name_end (n1 n2 : List Char) : Int :=
  if deref n1 = deref n2 then 0
  else if deref n1 = '.' ∧ deref n2 = Char.ofNat 0 then 0
  else 1

/-- The function `cmp_node_name` on the characters of the two strings: walk
both while neither is at its end and they agree, then decide as
`cmp_node_name_end`. -/
def cmp_node_name_chars : List Char → List Char → Int
  | c1 :: r1, c2 :: r2 =>
    if c1 ≠ Char.ofNat 0 ∧ c2 ≠ Char.ofNat 0 then
      if c1 ≠ c2 then cmp_node_name_end (c1 :: r1) (c2 :: r2)
      else cmp_node_name_chars r1 r2
    else cmp_node_name_end (c1 :: r1) (c2 :: r2)
  | n1, n2 => cmp_node_name_end n1 n2

/-- The function `cmp_node_name`. -/
def cmp_node_name (n1 n2 : String) : Int := cmp_node_name_chars n1.data n2.data

/-! ## The bare scheduler (`pbs_sched_bare.cpp`) -/

/-- `SCH_SCHEDULE_NEW` of `sched_cmds.h`. -/
def SCH_SCHEDULE_NEW : Int := 1

/-- `SCH_SCHEDULE_TERM` of `sched_cmds.h`. -/
def SCH_SCHEDULE_TERM : Int := 2

/-- `SCH_SCHEDULE_TIME` of `sched_cmds.h`. -/
def SCH_SCHEDULE_TIME : Int := 3

/-- `SCH_SCHEDULE_CMD` of `sched_cmds.h`. -/
def SCH_SCHEDULE_CMD : Int := 5

/-- `SCH_RULESET` of `sched_cmds.h`. -/
def SCH_RULESET : Int := 8

/-- `SCH_SCHEDULE_JOBRESV` of `sched_cmds.h`. -/
def SCH_SCHEDULE_JOBRESV : Int := 10

/-- `SCH_SCHEDULE_STARTQ` of `sched_cmds.h`. -/
def SCH_SCHEDULE_STARTQ : Int := 12

/-- `SCH_SCHEDULE_MVLOCAL` of `sched_cmds.h`. -/
def SCH_SCHEDULE_MVLOCAL : Int := 13

/-- `SCH_SCHEDULE_ETE_ON` of `sched_cmds.h`. -/
def SCH_SCHEDULE_ETE_ON : Int := 14

/-- `SCH_SCHEDULE_RESV_RECONFIRM` of `sched_cmds.h`. -/
def SCH_SCHEDULE_RESV_RECONFIRM : Int := 15

/-- Actions of `schedule_bare` and `scheduling_cycle_bare`, in call order. -/
inductive BareEvent where
  | log_msg (what : String)
  | send_job_attr_updates (v : Int)
  | update_cycle_status
  | query_server (ok : Bool)
  | main_sched_loop_bare
  | end_cycle_tasks
  | update_resource_defs
  | set_validate_sched_attrs (ok : Bool)
  | schedinit (rc : Int)
  | Py_Finalize
deriving DecidableEq, Repr

/-- What the bare scheduler meets during one call of `schedule_bare`: whether
the attribute update period has passed, whether `query_server` returns a
server, the results of `set_validate_sched_attrs` and `schedinit`, and whether
the build has `PYTHON` defined. -/
structure BareEnv where
  update_due : Bool
  query_server : Bool
  set_validate_sched_attrs : Bool
  schedinit : Int
  python : Bool

/-- The function `scheduling_cycle_bare`: announce the cycle, query the
server, and on success run the loop over the jobs; 1 when the query fails. -/
def scheduling_cycle_bare (env : BareEnv) : List BareEvent × Int :=
  let t0 : List BareEvent :=
    [.log_msg "Starting Scheduling Cycle",
     .send_job_attr_updates (if env.update_due then 1 else 0),
     .update_cycle_status, .query_server env.query_server]
  if !env.query_server then
    (t0 ++ [.log_msg "Problem with creating server data structure", .end_cycle_tasks], 1)
  else (t0 ++ [.main_sched_loop_bare, .end_cycle_tasks], 0)

/-- The function `schedule_bare`: the switch over the command kind, with the
fall from `SCH_SCHEDULE_FIRST` into the kinds that start a cycle. -/
def schedule_bare (env : BareEnv) (cmd : sched_cmd) : List BareEvent × Int :=
  if cmd.cmd = SCH_SCHEDULE_NULL ∨ cmd.cmd = SCH_RULESET then ([], 0)
  else if cmd.cmd = SCH_SCHEDULE_FIRST then
    let t0 : List BareEvent :=
      [.update_resource_defs, .set_validate_sched_attrs env.set_validate_sched_attrs]
    if !env.set_validate_sched_attrs then (t0, 0)
    else
      let r := scheduling_cycle_bare env
      (t0 ++ r.1, r.2)
  else if cmd.cmd = SCH_SCHEDULE_NEW ∨ cmd.cmd = SCH_SCHEDULE_TERM ∨
      cmd.cmd = SCH_SCHEDULE_CMD ∨ cmd.cmd = SCH_SCHEDULE_TIME ∨
      cmd.cmd = SCH_SCHEDULE_JOBRESV ∨ cmd.cmd = SCH_SCHEDULE_STARTQ ∨
      cmd.cmd = SCH_SCHEDULE_MVLOCAL ∨ cmd.cmd = SCH_SCHEDULE_ETE_ON ∨
      cmd.cmd = SCH_SCHEDULE_RESV_RECONFIRM then scheduling_cycle_bare env
  else if cmd.cmd = SCH_SCHEDULE_AJOB then scheduling_cycle_bare env
  else if cmd.cmd = SCH_CONFIGURE then
    let t0 : List BareEvent :=
      [.log_msg "Scheduler is reconfiguring", .update_resource_defs, .schedinit env.schedinit]
    if env.schedinit ≠ 0 then (t0, 0)
    else (t0 ++ [.set_validate_sched_attrs env.set_validate_sched_attrs], 0)
  else if cmd.cmd = SCH_QUIT then
    ((if env.python then [BareEvent.Py_Finalize] else []), 1)
  else ([], 0)

/-- `PBSE_SYSTEM` of `pbs_error.h`. -/
def PBSE_SYSTEM : Int := 15010

/-- `PBSE_INTERNAL` of `pbs_error.h`. -/
def PBSE_INTERNAL : Int := 15011

/-- `JOB_STATE_LTR_RUNNING` of `job.h`. -/
def JOB_STATE_LTR_RUNNING : Char := 'R'

/-- `JOB_STATE_LTR_QUEUED` of `job.h`. -/
def JOB_STATE_LTR_QUEUED : Char := 'Q'

/-- `JOB_STATE_LTR_EXPIRED` of `job.h`. -/
def JOB_STATE_LTR_EXPIRED : Char := 'X'

/-- `JOB_STATE_LTR_FINISHED` of `job.h`. -/
def JOB_STATE_LTR_FINISHED : Char := 'F'

/-- `JOB_STATE_LTR_MOVED` of `job.h`. -/
def JOB_STATE_LTR_MOVED : Char := 'M'

/-- One entry of a preempt request or reply (`preempt_job_info`): the job id
and the order string, which in a reply is the code of what happened. -/
structure preempt_job_info where
  job_id : String
  order : String
deriving DecidableEq, Repr

/-- Actions of `req_preemptjobs` towards the rest of the server. The reply
that is sent is recorded with its code, its count and its list. -/
inductive PreemptEvent where
  | req_reject (code : Int)
  | log_err (what : String)
  | log_event (job_id : String) (what : String)
  | issue_preempt_request (job_id : String) (failed : Bool)
  | reply_preempt_jobs_request (job_id : String)
  | reply_send (brp_code : Int) (count : Nat) (ppj_list : List preempt_job_info)
deriving DecidableEq, Repr

/-- The fields of the batch request that `req_preemptjobs` uses: the
connection, the requested jobs (`rq_ind.rq_preempt`, its count being the
length), and of the reply the code, the count and the list
(`rq_reply.brp_un.brp_preempt_jobs`); with the trace of actions. -/
structure batch_request where
  rq_conn : Int
  rq_preempt : List preempt_job_info
  brp_code : Int
  brp_count : Nat
  brp_ppj_list : List preempt_job_info
  trace : List PreemptEvent
deriving DecidableEq, Repr

/-- What `req_preemptjobs` meets: whether the connection belongs to a
scheduler, whether `calloc` succeeds, the state letter of the job that
`find_job` returns (`none` for no job), and whether `issue_preempt_request`
fails for a running job. -/
structure PreemptEnv where
  find_sched_from_sock : Int → Bool
  calloc_ok : Bool
  find_job : String → Option Char
  issue_preempt_request : String → Bool

/-- The assignment to `ppj_list[i].order`. -/
def ppj_set_order : List preempt_job_info → Nat → String → List preempt_job_info
  | [], _, _ => []
  | p :: r, 0, v => { p with order := v } :: r
  | p :: r, i + 1, v => p :: ppj_set_order r i v

/-- The assignment to `ppj_list[i].job_id`. -/
def ppj_set_job_id : List preempt_job_info → Nat → String → List preempt_job_info
  | [], _, _ => []
  | p :: r, 0, v => { p with job_id := v } :: r
  | p :: r, i + 1, v => p :: ppj_set_job_id r i v

/-- The function `job_preempt_fail`: it writes the entry at the position given
by the count of the reply, sets `brp_code` and increments that count. -/
def job_preempt_fail (preempt_preq : batch_request) (job_id : String) : batch_request :=
  let preempt_index := preempt_preq.brp_count
  { preempt_preq with
    brp_code := 1,
    brp_ppj_list :=
      ppj_set_job_id (ppj_set_order preempt_preq.brp_ppj_list preempt_index "000")
        preempt_index job_id,
    brp_count := preempt_preq.brp_count + 1,
    trace := preempt_preq.trace ++ [.log_event job_id "Job failed to be preempted"] }

/-- The loop of `req_preemptjobs` over the requested jobs, with the local
`preempt_index`. For a running job the preemption is issued; what that does to
the job and, later, to the reply is outside this embedding. -/
def req_preemptjobs_loop (env : PreemptEnv) :
    List preempt_job_info → batch_request → Nat → batch_request × Nat
  | [], preq, preempt_index => (preq, preempt_index)
  | ppj :: rest, preq, preempt_index =>
    let with_id := ppj_set_job_id preq.brp_ppj_list preempt_index ppj.job_id
    match env.find_job ppj.job_id with
    | none =>
      req_preemptjobs_loop env rest
        { preq with brp_ppj_list := ppj_set_order with_id preempt_index "D" } (preempt_index + 1)
    | some state =>
      if state ≠ JOB_STATE_LTR_RUNNING then
        if state = JOB_STATE_LTR_QUEUED then
          req_preemptjobs_loop env rest
            { preq with brp_ppj_list := ppj_set_order with_id preempt_index "Q" }
            (preempt_index + 1)
        else if state = JOB_STATE_LTR_EXPIRED ∨ state = JOB_STATE_LTR_FINISHED ∨
            state = JOB_STATE_LTR_MOVED then
          req_preemptjobs_loop env rest
            { preq with brp_ppj_list := ppj_set_order with_id preempt_index "D" }
            (preempt_index + 1)
        else
          req_preemptjobs_loop env rest
            (job_preempt_fail { preq with brp_ppj_list := with_id } ppj.job_id)
            (preempt_index + 1)
      else
        let failed := env.issue_preempt_request ppj.job_id
        let issued : List PreemptEvent :=
          [.issue_preempt_request ppj.job_id failed] ++
            (if failed then [PreemptEvent.reply_preempt_jobs_request ppj.job_id] else [])
        req_preemptjobs_loop env rest { preq with trace := preq.trace ++ issued } preempt_index

/-- The function `req_preemptjobs`. The reply list is the zeroed array that
`calloc` returns, one entry per requested job. -/
def req_preemptjobs (env : PreemptEnv) (preq : batch_request) : batch_request :=
  let preq0 := { preq with brp_code := 0 }
  let preempt_total := preq.rq_preempt.length
  let no_memory : List PreemptEvent :=
    [.req_reject PBSE_SYSTEM, .log_err "Unable to allocate memory"]
  if !env.find_sched_from_sock preq.rq_conn then
    { preq0 with trace := preq0.trace ++ [.req_reject PBSE_INTERNAL] }
  else if !env.calloc_ok then { preq0 with trace := preq0.trace ++ no_memory }
  else
    let zeroed : List preempt_job_info := List.replicate preempt_total ⟨"", ""⟩
    let preq1 := { preq0 with brp_ppj_list := zeroed, brp_count := 0 }
    let r := req_preemptjobs_loop env preq.rq_preempt preq1 0
    let preq2 := { r.1 with brp_count := r.2 }
    let sent : List PreemptEvent :=
      [.reply_send preq2.brp_code preq2.brp_count preq2.brp_ppj_list]
    if r.2 = preempt_total then { preq2 with trace := preq2.trace ++ sent }
    else preq2

/-- A job table with job `1.srv` queued, job `2.srv` held and no other job. -/
def preempt_env_queued_held : PreemptEnv :=
  { find_sched_from_sock := fun _ => true, calloc_ok := true,
    find_job := fun id => if id = "1.srv" then some 'Q' else if id = "2.srv" then some 'H'
      else none,
    issue_preempt_request := fun _ => false }

/-- A preempt request for the jobs `1.srv` and `2.srv`, in this order. -/
def preempt_req_two : batch_request :=
  { rq_conn := 3, rq_preempt := [⟨"1.srv", ""⟩, ⟨"2.srv", ""⟩], brp_code := 0, brp_count := 0,
    brp_ppj_list := [], trace := [] }

/-! ## Vnode pools (`mom_info.c`) -/

/-- `PBSE_NONE` of `pbs_error.h`. -/
def PBSE_NONE : Int := 0

/-- A Mom as the pool functions see her: the host name of her `mominfo_t`,
the pool number and the inventory flag of her `mom_svrinfo_t`, and whether
`INUSE_DOWN` is set in the state of her daemon info. -/
structure pool_mom where
  mi_host : String
  msr_vnode_pool : Int
  msr_has_inventory : Int
  down : Bool
deriving DecidableEq, Repr

/-- A vnode pool (`vnpool_mom_t`): its number, its inventory Mom and its Moms.
A Mom is named by her position in the table of Moms, which stands for the
pointer to her `mominfo_t`; `none` is the NULL pointer. The count
`vnpm_nummoms` is the length of `vnpm_moms`. -/
structure vnpool_mom_t where
  vnpm_vnode_pool : Int
  vnpm_inventory_mom : Option Nat
  vnpm_moms : List Nat
deriving DecidableEq, Repr

/-- The Moms of the server and the list `vnode_pool_mom_list`, head first. -/
structure PoolState where
  moms : List pool_mom
  vnode_pool_mom_list : List vnpool_mom_t
deriving DecidableEq, Repr

/-- Write to the fields of the Mom at `pmom`. -/
def update_mom (S : PoolState) (pmom : Nat) (f : pool_mom → pool_mom) : PoolState :=
  { S with moms := S.moms.modify f pmom }

/-- Write to the fields of the pool at position `k` of the list. -/
def update_pool (S : PoolState) (k : Nat) (f : vnpool_mom_t → vnpool_mom_t) : PoolState :=
  { S with vnode_pool_mom_list := S.vnode_pool_mom_list.modify f k }

/-- The function `find_vnode_pool`: the position of the first pool whose
number is the one set on the Mom; `none` when she is in no pool or no pool
has her number. -/
def find_vnode_pool (S : PoolState) (pmom : Nat) : Option Nat :=
  match S.moms.get? pmom with
  | none => none
  | some psvrmom =>
    if psvrmom.msr_vnode_pool ≠ 0 then
      S.vnode_pool_mom_list.findIdx? fun ppool =>
        ppool.vnpm_vnode_pool = psvrmom.msr_vnode_pool
    else none

/-- The loop of `reset_pool_inventory_mom` over the Moms of pool `k`: every
Mom that is not down is made the inventory Mom and gets the flag; the loop
does not stop at the first. -/
def reset_pool_inventory_loop (k : Nat) : List Nat → PoolState → PoolState
  | [], S => S
  | pxmom :: rest, S =>
    match S.moms.get? pxmom with
    | none => reset_pool_inventory_loop k rest S
    | some px =>
      if px.down = false then
        reset_pool_inventory_loop k rest
          (update_mom (update_pool S k fun p => { p with vnpm_inventory_mom := some pxmom })
            pxmom fun m => { m with msr_has_inventory := 1 })
      else reset_pool_inventory_loop k rest S

/-- The function `reset_pool_inventory_mom`. -/
def reset_pool_inventory_mom (S : PoolState) (pmom : Nat) : PoolState :=
  match S.moms.get? pmom with
  | none => S
  | some psvrmom =>
    if psvrmom.msr_vnode_pool ≠ 0 then
      match find_vnode_pool S pmom with
      | none => S
      | some k =>
        match S.vnode_pool_mom_list.get? k with
        | none => S
        | some ppool =>
          if ppool.vnpm_inventory_mom ≠ some pmom then S
          else
            let S1 := update_pool S k fun p => { p with vnpm_inventory_mom := none }
            let S2 := update_mom S1 pmom fun m => { m with msr_has_inventory := 0 }
            reset_pool_inventory_loop k ppool.vnpm_moms S2
    else S

/-- The function `add_mom_to_pool`; `calloc_ok` and `realloc_ok` tell whether
the two allocations succeed. A new pool goes to the head of the list. -/
def add_mom_to_pool (calloc_ok realloc_ok : Bool) (S : PoolState) (pmom : Nat) :
    PoolState × Int :=
  match S.moms.get? pmom with
  | none => (S, PBSE_NONE)
  | some psvrmom =>
    if psvrmom.msr_vnode_pool = 0 then (S, PBSE_NONE)
    else
      match find_vnode_pool S pmom with
      | some k =>
        match S.vnode_pool_mom_list.get? k with
        | none => (S, PBSE_NONE)
        | some ppool =>
          if pmom ∈ ppool.vnpm_moms then (S, PBSE_NONE)
          else if !realloc_ok then (S, PBSE_SYSTEM)
          else
            let S1 := update_pool S k fun p => { p with vnpm_moms := p.vnpm_moms ++ [pmom] }
            if ppool.vnpm_inventory_mom = none then
              (update_mom (update_pool S1 k fun p => { p with vnpm_inventory_mom := some pmom })
                pmom fun m => { m with msr_has_inventory := 1 }, PBSE_NONE)
            else (S1, PBSE_NONE)
      | none =>
        if !calloc_ok then (S, PBSE_SYSTEM)
        else if !realloc_ok then (S, PBSE_SYSTEM)
        else
          let ppool : vnpool_mom_t :=
            { vnpm_vnode_pool := psvrmom.msr_vnode_pool, vnpm_inventory_mom := some pmom,
              vnpm_moms := [pmom] }
          (update_mom { S with vnode_pool_mom_list := ppool :: S.vnode_pool_mom_list }
            pmom fun m => { m with msr_has_inventory := 1 }, PBSE_NONE)

/-- The loop of `remove_mom_from_pool` over the positions of pool `k`: where
the Mom stands she is taken out and the later Moms move up, the inventory Mom
is reset and the pool number of the Mom is cleared; the loop goes on with the
next position. -/
def remove_mom_loop (pmom k : Nat) : Nat → Nat → PoolState → PoolState
  | 0, _, S => S
  | fuel + 1, i, S =>
    match S.vnode_pool_mom_list.get? k with
    | none => S
    | some ppool =>
      if i < ppool.vnpm_moms.length then
        if ppool.vnpm_moms.get? i = some pmom then
          let S1 := update_pool S k fun p => { p with vnpm_moms := p.vnpm_moms.eraseIdx i }
          let S2 := reset_pool_inventory_mom S1 pmom
          let S3 := update_mom S2 pmom fun m => { m with msr_vnode_pool := 0 }
          remove_mom_loop pmom k fuel (i + 1) S3
        else remove_mom_loop pmom k fuel (i + 1) S
      else S

/-- The function `remove_mom_from_pool`. -/
def remove_mom_from_pool (S : PoolState) (pmom : Nat) : PoolState :=
  match S.moms.get? pmom with
  | none => S
  | some psvrmom =>
    if psvrmom.msr_vnode_pool = 0 then S
    else
      match find_vnode_pool S pmom with
      | none => S
      | some k =>
        match S.vnode_pool_mom_list.get? k with
        | none => S
        | some ppool => remove_mom_loop pmom k (ppool.vnpm_moms.length + 1) 0 S

/-- Three Moms that are up and set to vnode pool 1, none yet in a pool. -/
def pool_three_moms : PoolState :=
  { moms := [⟨"a", 1, 0, false⟩, ⟨"b", 1, 0, false⟩, ⟨"c", 1, 0, false⟩],
    vnode_pool_mom_list := [] }

/-- The three Moms added to their pool, in order. -/
def pool_three_added : PoolState :=
  (add_mom_to_pool true true
    (add_mom_to_pool true true (add_mom_to_pool true true pool_three_moms 0).1 1).1 2).1

/-- The Moms of the table whose inventory flag is set, by position. -/
def flagged_moms (S : PoolState) : List Nat :=
  (List.range S.moms.length).filter fun i =>
    match S.moms.get? i with
    | some m => m.msr_has_inventory = 1
    | none => false

/-- The commands freed with `free_sched_cmd`, in order. -/
def freed_cmds (t : List Event) : List sched_cmd :=
  t.filterMap fun e => match e with
    | .free_sched_cmd cmd => some cmd
    | _ => none

/-- The lookup of the dispatch loop finds a connection for the command: with
`servers` as the registry, `find_server` returns a connection for the socket
the command came from. -/
def served (servers : Option (List sched_svrconn)) (cmd : sched_cmd) : Bool :=
  match find_server servers cmd.from_sock with
  | some (some _) => true
  | _ => false

/-- An environment as `env_ok` in which the descriptors depend on the host: a
connection attempt for host `A` gives socket 4 (primary) or 5 (secondary), for
any other host 6 or 7. -/
def env_hosts : Env :=
  { env_ok with
    connect_attempt := fun _ host is_primary =>
      ⟨(if host = "A" then 4 else 6) + (if is_primary then 0 else 1), 0, 0, 0, 0, true, 0, none⟩ }

/-- The state after `connect_server` for host `A` from the empty registry. -/
def reg_one : State := (connect_server env_hosts 3 (state_of [] []) (some "A")).state

/-- The state after a further `connect_server`, for host `B`. -/
def reg_two : State := (connect_server env_hosts 3 reg_one (some "B")).state

/-- The state after `reconnect_server` for the connection to `A` in
`reg_two`. -/
def reg_three : State := (reconnect_server env_hosts 3 reg_two svrA).state

/-! ## Frame lemmas: connection management is silent and keeps the queue -/

theorem QuietExt.refl (t : List Event) : QuietExt t t :=
  ⟨[], by simp, by simp⟩

theorem QuietExt.trans {t1 t2 t3 : List Event} (h1 : QuietExt t1 t2) (h2 : QuietExt t2 t3) :
    QuietExt t1 t3 := by
  obtain ⟨e1, rfl, q1⟩ := h1
  obtain ⟨e2, rfl, q2⟩ := h2
  refine ⟨e1 ++ e2, by simp, ?_⟩
  intro e he
  rcases List.mem_append.1 he with h | h
  · exact q1 e h
  · exact q2 e h

theorem QuietExt.append (t ev : List Event) (h : ∀ e ∈ ev, e.quiet = true) :
    QuietExt t (t ++ ev) :=
  ⟨ev, rfl, h⟩

theorem log_quiet (s : State) (ev : List Event) (h : ∀ e ∈ ev, e.quiet = true) :
    QuietExt s.trace (s.log ev).trace :=
  QuietExt.append _ _ h

theorem Frame.ret_self {α : Type} (s : State) (a : α) : Frame s (Res.ret s a) :=
  ⟨QuietExt.refl _, by intro s1 a1 h; cases h; rfl⟩

theorem Frame.step {α : Type} {s s1 : State} {r : Res α} (hq : QuietExt s.trace s1.trace)
    (hc : s1.sched_cmds = s.sched_cmds) (h : Frame s1 r) : Frame s r :=
  ⟨hq.trans h.quiet, fun s2 a e => (h.cmds s2 a e).trans hc⟩

theorem Frame.after {α : Type} {s s1 : State} {r : Res α} (h : Frame s1 r)
    (hq : QuietExt s.trace s1.trace) (hc : s1.sched_cmds = s.sched_cmds) : Frame s r :=
  Frame.step hq hc h

theorem Frame.bind {α β : Type} {s : State} {r : Res α} {f : State → α → Res β}
    (h : Frame s r) (hf : ∀ s1 a, r = .ret s1 a → Frame s1 (f s1 a)) :
    Frame s (r.bind f) := by
  cases r with
  | ret s1 a =>
    have h1 := hf s1 a rfl
    exact Frame.step h.quiet (h.cmds s1 a rfl) h1
  | exited s1 n => exact ⟨h.quiet, by intro s2 a e; cases e⟩
  | fault s1 => exact ⟨h.quiet, by intro s2 a e; cases e⟩
  | out_of_fuel s1 => exact ⟨h.quiet, by intro s2 a e; cases e⟩

theorem close_server_quiet (s : State) (sconn : Option sched_svrconn) :
    QuietExt s.trace (close_server s sconn).trace := by
  cases sconn with
  | none => exact QuietExt.refl _
  | some c => exact QuietExt.append _ _ (by simp [Event.quiet])

theorem close_server_cmds (s : State) (sconn : Option sched_svrconn) :
    (close_server s sconn).sched_cmds = s.sched_cmds := by
  cases sconn <;> rfl

theorem close_servers_loop_quiet (fuel : Nat) (s : State) :
    QuietExt s.trace (close_servers_loop fuel s).state.trace := by
  induction fuel generalizing s with
  | zero => exact QuietExt.refl _
  | succ n ih =>
    unfold close_servers_loop
    split
    · split
      · exact (close_server_quiet s _).trans (ih _)
      · exact QuietExt.refl _
    · exact QuietExt.refl _

theorem drain_sched_cmds_quiet (q : List sched_cmd) :
    ∀ e ∈ drain_sched_cmds q, e.quiet = true := by
  induction q with
  | nil => simp [drain_sched_cmds]
  | cons c rest ih =>
    intro e he
    simp only [drain_sched_cmds, List.mem_cons] at he
    rcases he with h | h
    · subst h; rfl
    · exact ih e h

theorem quiet_bind {α β : Type} {t : List Event} {r : Res α} {f : State → α → Res β}
    (h : QuietExt t r.state.trace)
    (hf : ∀ s1 a, r = .ret s1 a → QuietExt s1.trace (f s1 a).state.trace) :
    QuietExt t (r.bind f).state.trace := by
  cases r with
  | ret s1 a => exact h.trans (hf s1 a rfl)
  | exited s1 n => exact h
  | fault s1 => exact h
  | out_of_fuel s1 => exact h

theorem close_servers_quiet (fuel : Nat) (s : State) :
    QuietExt s.trace (close_servers fuel s).state.trace := by
  refine quiet_bind (close_servers_loop_quiet fuel s) ?_
  intro s1 _ _
  have h2 : QuietExt s1.trace
      (if s1.poll_context.isSome then
        { s1 with poll_context := none, trace := s1.trace ++ [.tpp_em_destroy] } else s1).trace := by
    split
    · exact QuietExt.append _ _ (by simp [Event.quiet])
    · exact QuietExt.refl _
  refine h2.trans ?_
  generalize (if s1.poll_context.isSome then
        { s1 with poll_context := none, trace := s1.trace ++ [.tpp_em_destroy] } else s1) = s2
  exact (log_quiet s2 _ (drain_sched_cmds_quiet _)).trans
    (QuietExt.append _ _ (by simp [Event.quiet]))

theorem Res.bind_exited_ne_ret {α β : Type} (r : Res α) (g : State → α → State) (n : Int)
    (s1 : State) (b : β) : r.bind (fun s a => (.exited (g s a) n : Res β)) ≠ .ret s1 b := by
  cases r <;> simp [Res.bind]

theorem die_never_returns {α : Type} (fuel : Nat) (s : State) (sig : Int) (s1 : State) (a : α) :
    (die fuel s sig : Res α) ≠ .ret s1 a := by
  exact Res.bind_exited_ne_ret _ _ _ _ _

theorem die_frame {α : Type} (fuel : Nat) (s : State) (sig : Int) :
    Frame s (die fuel s sig : Res α) := by
  refine ⟨?_, fun s1 a e => absurd e (die_never_returns fuel s sig s1 a)⟩
  have h0 : QuietExt s.trace
      (s.log [.log_msg (if sig > 0 then "caught signal" else "abnormal termination")]).trace :=
    log_quiet _ _ (by simp [Event.quiet])
  exact h0.trans (quiet_bind (close_servers_quiet fuel _)
    (fun s1 _ _ => log_quiet s1 _ (by simp [Event.quiet])))

theorem Frame.log {α : Type} {s : State} {r : Res α} (ev : List Event)
    (hev : ∀ e ∈ ev, e.quiet = true) (h : Frame (s.log ev) r) : Frame s r :=
  Frame.step (log_quiet s ev hev) rfl h

theorem connect_server_helper_frame (env : Env) (fuel : Nat) (s : State) (host : String)
    (is_primary : Bool) : Frame s (connect_server_helper env fuel s host is_primary) := by
  unfold connect_server_helper
  dsimp only
  have hrerr : Frame s (Res.ret ((s.log [.pbs_connect host is_primary
      (env.connect_attempt s.trace host is_primary).sock]).log
      [.pbs_disconnect (env.connect_attempt s.trace host is_primary).sock]) (-1 : Int)) :=
    Frame.log _ (by simp [Event.quiet]) (Frame.log _ (by simp [Event.quiet]) (Frame.ret_self _ _))
  split_ifs
  any_goals exact hrerr
  · split
    · exact Frame.log _ (by simp [Event.quiet])
        (Frame.log _ (by simp [Event.quiet]) (die_frame _ _ _))
    · exact hrerr
  · exact Frame.log _ (by simp [Event.quiet]) (Frame.ret_self _ _)

theorem connect_server_loop_frame (env : Env) (fuel : Nat) (s : State) (host : String)
    (p q : Int) : Frame s (connect_server_loop env fuel s host p q) := by
  induction fuel generalizing s p q with
  | zero => exact ⟨QuietExt.refl _, by intro s1 a e; cases e⟩
  | succ n ih =>
    unfold connect_server_loop
    dsimp only
    have hsec : ∀ (s1 : State) (p1 : Int),
        Frame s1 ((connect_server_helper env n s1 host false).bind fun s2 q1 =>
          if q1 < 0 then connect_server_loop env n (s2.log [.sleep 2]) host p1 q1
          else connect_server_loop env n s2 host p1 q1) := by
      intro s1 p1
      refine Frame.bind (connect_server_helper_frame _ _ _ _ _) ?_
      intro s2 q1 _
      split
      · exact Frame.log _ (by simp [Event.quiet]) (ih _ _ _)
      · exact ih _ _ _
    split
    · split
      · refine Frame.bind (connect_server_helper_frame _ _ _ _ _) ?_
        intro s1 p1 _
        split
        · exact Frame.log _ (by simp [Event.quiet]) (ih _ _ _)
        · exact hsec _ _
      · exact hsec _ _
    · exact Frame.ret_self _ _

theorem connect_server_frame (env : Env) (fuel : Nat) (s : State) (svrhost : Option String) :
    Frame s (connect_server env fuel s svrhost) := by
  unfold connect_server
  split
  · exact Frame.ret_self _ _
  · refine Frame.bind (connect_server_loop_frame _ _ _ _ _ _) ?_
    intro s1 pq _
    dsimp only
    refine Frame.log [.tpp_em_add_fd pq.2 (env.tpp_em_add_fd s1.trace pq.2)]
      (by simp [Event.quiet]) ?_
    split_ifs
    · exact Frame.log _ (by simp [Event.quiet]) (die_frame _ _ _)
    · exact Frame.after (Frame.log [.log_msg "MEM_ERR_MSG"] (by simp [Event.quiet])
        (die_frame _ _ _)) (QuietExt.refl _) rfl
    · exact Frame.after (Frame.log [.log_msg "MEM_ERR_MSG"] (by simp [Event.quiet])
        (die_frame _ _ _)) (QuietExt.refl _) rfl
    · exact Frame.after (Frame.after (die_frame _ _ _) (close_server_quiet _ _)
        (close_server_cmds _ _)) (QuietExt.refl _) rfl
    · exact Frame.after (Frame.ret_self _ _) (QuietExt.append _ _ (by simp [Event.quiet])) rfl

theorem reconnect_server_frame (env : Env) (fuel : Nat) (s : State) (sconn : sched_svrconn) :
    Frame s (reconnect_server env fuel s sconn) :=
  Frame.after (connect_server_frame env fuel (close_server s (some sconn)) (some sconn.svrhost))
    (close_server_quiet _ _) (close_server_cmds _ _)

/-! ## Projections and quiet events -/

theorem filterMap_quiet {β : Type} (f : Event → Option β)
    (hf : ∀ e, e.quiet = true → f e = none) (ev : List Event)
    (h : ∀ e ∈ ev, e.quiet = true) : ev.filterMap f = [] := by
  induction ev with
  | nil => rfl
  | cons e rest ih =>
    rw [List.filterMap_cons, hf e (h e (List.mem_cons_self _ _))]
    exact ih (fun x hx => h x (List.mem_cons_of_mem _ hx))

theorem scheduled_cmds_quiet (ev : List Event) (h : ∀ e ∈ ev, e.quiet = true) :
    scheduled_cmds ev = [] :=
  filterMap_quiet _ (by intro e he; cases e <;> simp_all [Event.quiet]) ev h

theorem marker_writes_quiet (ev : List Event) (h : ∀ e ∈ ev, e.quiet = true) :
    marker_writes ev = [] :=
  filterMap_quiet _ (by intro e he; cases e <;> simp_all [Event.quiet]) ev h

theorem marker_writes_ok_quiet (ev : List Event) (h : ∀ e ∈ ev, e.quiet = true) :
    marker_writes_ok ev = [] :=
  filterMap_quiet _ (by intro e he; cases e <;> simp_all [Event.quiet]) ev h

theorem flushes_quiet (ev : List Event) (h : ∀ e ∈ ev, e.quiet = true) :
    flushes ev = [] :=
  filterMap_quiet _ (by intro e he; cases e <;> simp_all [Event.quiet]) ev h

theorem zero_cycles_quiet (ev : List Event) (h : ∀ e ∈ ev, e.quiet = true) :
    zero_cycles ev = [] :=
  filterMap_quiet _ (by intro e he; cases e <;> simp_all [Event.quiet]) ev h

theorem scheduled_cmds_append (a b : List Event) :
    scheduled_cmds (a ++ b) = scheduled_cmds a ++ scheduled_cmds b :=
  List.filterMap_append _ _ _

theorem marker_writes_append (a b : List Event) :
    marker_writes (a ++ b) = marker_writes a ++ marker_writes b :=
  List.filterMap_append _ _ _

theorem marker_writes_ok_append (a b : List Event) :
    marker_writes_ok (a ++ b) = marker_writes_ok a ++ marker_writes_ok b :=
  List.filterMap_append _ _ _

theorem flushes_append (a b : List Event) :
    flushes (a ++ b) = flushes a ++ flushes b :=
  List.filterMap_append _ _ _

theorem zero_cycles_append (a b : List Event) :
    zero_cycles (a ++ b) = zero_cycles a ++ zero_cycles b :=
  List.filterMap_append _ _ _

theorem MarkersPaired.of_quiet (ev : List Event) (h : ∀ e ∈ ev, e.quiet = true) :
    MarkersPaired ev :=
  ⟨by rw [marker_writes_quiet ev h, zero_cycles_quiet ev h],
   by rw [flushes_quiet ev h, marker_writes_ok_quiet ev h]⟩

theorem MarkersPaired.paired_append {a b : List Event} (ha : MarkersPaired a) (hb : MarkersPaired b) :
    MarkersPaired (a ++ b) :=
  ⟨by rw [marker_writes_append, zero_cycles_append, ha.writes, hb.writes],
   by rw [flushes_append, marker_writes_ok_append, ha.flushed, hb.flushed]⟩

theorem find_server_some {servers : Option (List sched_svrconn)} {sock : Int}
    {c : sched_svrconn} (h : find_server servers sock = some (some c)) :
    c.secondary_sock = sock ∧ ∃ rest, servers = some (c :: rest) := by
  unfold find_server at h
  cases servers with
  | none => simp at h
  | some arr =>
    cases arr with
    | nil => simp at h
    | cons d rest =>
      simp only [List.getElem?_cons_zero] at h
      split_ifs at h with hd
      · simp only [Option.some.injEq] at h
        subst h
        exact ⟨hd, rest, rfl⟩
      · simp at h

/-- Shape of what `send_cycle_end` appends: no `schedule` call, one marker
write on the secondary socket, and a flush exactly after a successful write. -/
theorem send_cycle_end_shape (env : Env) (fuel : Nat) (s : State) (sconn : sched_svrconn) :
    ∃ ev, (send_cycle_end env fuel s sconn).state.trace = s.trace ++ ev ∧
      scheduled_cmds ev = [] ∧ zero_cycles ev = [] ∧
      marker_writes ev = [(sconn.secondary_sock, cycle_end_marker)] ∧
      flushes ev = marker_writes_ok ev := by
  unfold send_cycle_end
  dsimp only
  split_ifs with h1 h2
  · obtain ⟨ev2, he, hq⟩ := (reconnect_server_frame env fuel
      ((s.log [.diswsi sconn.secondary_sock cycle_end_marker
        (env.diswsi s.trace sconn.secondary_sock cycle_end_marker)]).log
        [.log_msg "Not able to send end of cycle"]) sconn).quiet
    refine ⟨[.diswsi sconn.secondary_sock cycle_end_marker
        (env.diswsi s.trace sconn.secondary_sock cycle_end_marker),
        .log_msg "Not able to send end of cycle"] ++ ev2, ?_, ?_, ?_, ?_, ?_⟩
    · rw [he]; simp [State.log]
    · rw [scheduled_cmds_append, scheduled_cmds_quiet ev2 hq]; rfl
    · rw [zero_cycles_append, zero_cycles_quiet ev2 hq]; rfl
    · rw [marker_writes_append, marker_writes_quiet ev2 hq]; rfl
    · rw [flushes_append, marker_writes_ok_append, flushes_quiet ev2 hq,
        marker_writes_ok_quiet ev2 hq]
      simp [flushes, marker_writes_ok, h1]
  · have h1eq : env.diswsi s.trace sconn.secondary_sock cycle_end_marker = DIS_SUCCESS := by
      by_contra hc; exact h1 hc
    obtain ⟨ev2, he, hq⟩ := (reconnect_server_frame env fuel
      ((s.log [.diswsi sconn.secondary_sock cycle_end_marker
        (env.diswsi s.trace sconn.secondary_sock cycle_end_marker)]).log
        [.dis_flush sconn.secondary_sock (env.dis_flush (s.log [.diswsi sconn.secondary_sock
          cycle_end_marker (env.diswsi s.trace sconn.secondary_sock cycle_end_marker)]).trace
          sconn.secondary_sock)]) sconn).quiet
    refine ⟨[.diswsi sconn.secondary_sock cycle_end_marker
        (env.diswsi s.trace sconn.secondary_sock cycle_end_marker),
        .dis_flush sconn.secondary_sock (env.dis_flush (s.log [.diswsi sconn.secondary_sock
          cycle_end_marker (env.diswsi s.trace sconn.secondary_sock cycle_end_marker)]).trace
          sconn.secondary_sock)] ++ ev2, ?_, ?_, ?_, ?_, ?_⟩
    · rw [he]; simp [State.log]
    · rw [scheduled_cmds_append, scheduled_cmds_quiet ev2 hq]; rfl
    · rw [zero_cycles_append, zero_cycles_quiet ev2 hq]; rfl
    · rw [marker_writes_append, marker_writes_quiet ev2 hq]; rfl
    · rw [flushes_append, marker_writes_ok_append, flushes_quiet ev2 hq,
        marker_writes_ok_quiet ev2 hq]
      simp [flushes, marker_writes_ok, h1eq]
  · have h1eq : env.diswsi s.trace sconn.secondary_sock cycle_end_marker = DIS_SUCCESS := by
      by_contra hc; exact h1 hc
    refine ⟨[.diswsi sconn.secondary_sock cycle_end_marker
        (env.diswsi s.trace sconn.secondary_sock cycle_end_marker),
        .dis_flush sconn.secondary_sock (env.dis_flush (s.log [.diswsi sconn.secondary_sock
          cycle_end_marker (env.diswsi s.trace sconn.secondary_sock cycle_end_marker)]).trace
          sconn.secondary_sock)], ?_, rfl, rfl, rfl, ?_⟩
    · simp [State.log, Res.state]
    · simp [flushes, marker_writes_ok, h1eq]

theorem send_cycle_end_cmds (env : Env) (fuel : Nat) (s : State) (sconn : sched_svrconn)
    (s1 : State) (a : Unit) (h : send_cycle_end env fuel s sconn = .ret s1 a) :
    s1.sched_cmds = s.sched_cmds := by
  unfold send_cycle_end at h
  dsimp only at h
  split_ifs at h
  · have h2 := Frame.cmds (reconnect_server_frame _ _ _ _) s1 a h
    exact h2
  · have h2 := Frame.cmds (reconnect_server_frame _ _ _ _) s1 a h
    exact h2
  · cases h; rfl


theorem set_segv_last_time_trace (s : State) (now : Int) :
    (set_segv_last_time s now).trace = s.trace := by
  unfold set_segv_last_time; split <;> rfl

theorem set_segv_last_time_sched_cmds (s : State) (now : Int) :
    (set_segv_last_time s now).sched_cmds = s.sched_cmds := by
  unfold set_segv_last_time; split <;> rfl

/-- A cycle that returned 0 followed by what `send_cycle_end` appended and by
quiet events keeps markers paired and shows one scheduled command. -/
theorem zero_cycle_paired (sconn : sched_svrconn) (cmd : sched_cmd) (m : List Int)
    (ev2 tail : List Event) (hsock : sconn.secondary_sock = cmd.from_sock)
    (hs : scheduled_cmds ev2 = []) (hz : zero_cycles ev2 = [])
    (hm : marker_writes ev2 = [(sconn.secondary_sock, cycle_end_marker)])
    (hfl : flushes ev2 = marker_writes_ok ev2) (ht : ∀ e ∈ tail, e.quiet = true) :
    scheduled_cmds ([.sigprocmask m, .schedule sconn cmd 0] ++ (ev2 ++ tail)) = [cmd] ∧
    MarkersPaired ([.sigprocmask m, .schedule sconn cmd 0] ++ (ev2 ++ tail)) := by
  refine ⟨?_, ⟨?_, ?_⟩⟩
  · rw [scheduled_cmds_append, scheduled_cmds_append, hs, scheduled_cmds_quiet tail ht]
    rfl
  · rw [marker_writes_append, marker_writes_append, zero_cycles_append, zero_cycles_append, hm,
      hz, marker_writes_quiet tail ht, zero_cycles_quiet tail ht, hsock]
    rfl
  · rw [flushes_append, flushes_append, marker_writes_ok_append, marker_writes_ok_append, hfl,
      flushes_quiet tail ht, marker_writes_ok_quiet tail ht]
    rfl

theorem dispatch_body_shape (env : Env) (fuel : Nat) (s : State) (cmd : sched_cmd)
    (rest : List sched_cmd) (hq : s.sched_cmds = cmd :: rest) :
    (∃ ev, (dispatch_body env fuel s).state.trace = s.trace ++ ev ∧
      (scheduled_cmds ev = [] ∨ scheduled_cmds ev = [cmd]) ∧ MarkersPaired ev) ∧
    ∀ s1 go, dispatch_body env fuel s = .ret s1 go → s1.sched_cmds = rest := by
  unfold dispatch_body
  rw [hq]
  simp only [ds_dequeue]
  cases hf : find_server s.servers cmd.from_sock with
  | none =>
    simp only []
    exact ⟨⟨[], by simp [Res.state], Or.inl rfl, MarkersPaired.of_quiet _ (by simp)⟩,
      by intro s1 go h; cases h⟩
  | some o =>
    cases o with
    | none =>
      simp only []
      exact ⟨⟨[.free_sched_cmd cmd], rfl, Or.inl rfl,
        MarkersPaired.of_quiet _ (by simp [Event.quiet])⟩, by intro s1 go h; cases h; rfl⟩
    | some sconn =>
      obtain ⟨hsock, -⟩ := find_server_some hf
      simp only []
      split_ifs with hr
      · simp only [set_segv_last_time_trace, sigprocmask_block] at hr
        constructor
        · simp only [Res.state, sigprocmask_setmask, State.log, sigprocmask_block,
            set_segv_last_time_trace, List.append_assoc]
          refine ⟨_, rfl, Or.inr ?_, ?_, ?_⟩
          · simp [scheduled_cmds]
          · simp [marker_writes, zero_cycles]
            simpa using hr
          · simp [flushes, marker_writes_ok]
        · intro s1 go h
          cases h
          simp [sigprocmask_setmask, State.log, sigprocmask_block, set_segv_last_time_sched_cmds]
      · have hr0 := not_not.1 hr
        rw [hr0]
        generalize hs3 : (set_segv_last_time (sigprocmask_block { s with sched_cmds := rest })
          (env.time (sigprocmask_block { s with sched_cmds := rest }).trace)).log
          [.schedule sconn cmd 0] = s3
        have ht3 : s3.trace = s.trace ++ [.sigprocmask (block_mask s.sigmask), .schedule sconn cmd 0] := by
          rw [← hs3]
          simp [State.log, set_segv_last_time_trace, sigprocmask_block]
        have hc3 : s3.sched_cmds = rest := by
          rw [← hs3]
          simp [State.log, set_segv_last_time_sched_cmds, sigprocmask_block]
        obtain ⟨ev2, he, hs, hz, hm, hfl⟩ := send_cycle_end_shape env fuel s3 sconn
        have hc := send_cycle_end_cmds env fuel s3 sconn
        cases hres : send_cycle_end env fuel s3 sconn with
        | ret s4 a =>
          rw [hres] at he
          simp only [Res.state] at he
          have hk := zero_cycle_paired sconn cmd (block_mask s.sigmask) ev2
            [.free_sched_cmd cmd, .sigprocmask s.sigmask] hsock hs hz hm hfl
            (by simp [Event.quiet])
          refine ⟨⟨_, ?_, Or.inr hk.1, hk.2⟩, ?_⟩
          · simp [Res.bind, Res.state, sigprocmask_setmask, State.log, he, ht3]
          · intro s1 go h
            simp only [Res.bind] at h
            cases h
            simp only [sigprocmask_setmask, State.log]
            rw [hc s4 a hres, hc3]
        | exited s4 n =>
          rw [hres] at he
          simp only [Res.state] at he
          have hk := zero_cycle_paired sconn cmd (block_mask s.sigmask) ev2 [] hsock hs hz hm hfl (by simp)
          refine ⟨⟨_, ?_, Or.inr hk.1, hk.2⟩, ?_⟩
          · simp [Res.bind, Res.state, he, ht3]
          · intro s1 go h; simp [Res.bind] at h
        | fault s4 =>
          rw [hres] at he
          simp only [Res.state] at he
          have hk := zero_cycle_paired sconn cmd (block_mask s.sigmask) ev2 [] hsock hs hz hm hfl (by simp)
          refine ⟨⟨_, ?_, Or.inr hk.1, hk.2⟩, ?_⟩
          · simp [Res.bind, Res.state, he, ht3]
          · intro s1 go h; simp [Res.bind] at h
        | out_of_fuel s4 =>
          rw [hres] at he
          simp only [Res.state] at he
          have hk := zero_cycle_paired sconn cmd (block_mask s.sigmask) ev2 [] hsock hs hz hm hfl (by simp)
          refine ⟨⟨_, ?_, Or.inr hk.1, hk.2⟩, ?_⟩
          · simp [Res.bind, Res.state, he, ht3]
          · intro s1 go h; simp [Res.bind] at h

/-- Shape of a run of the inner loop of `main`: the queue splits into the
commands that were dequeued and those left; the commands given to `schedule`
are, in order, among the dequeued ones; the markers stay paired. -/
theorem dispatch_loop_shape (env : Env) (fuel : Nat) (s : State) (go : Bool) :
    ∃ ev done left, (dispatch_loop env fuel s go).state.trace = s.trace ++ ev ∧
      s.sched_cmds = done ++ left ∧ (scheduled_cmds ev).Sublist done ∧ MarkersPaired ev ∧
      ∀ s1 g, dispatch_loop env fuel s go = .ret s1 g → s1.sched_cmds = left := by
  induction fuel generalizing s go with
  | zero =>
    exact ⟨[], [], s.sched_cmds, by simp [dispatch_loop, Res.state], rfl, List.Sublist.slnil,
      MarkersPaired.of_quiet _ (by simp), by intro s1 g h; simp [dispatch_loop] at h⟩
  | succ n ih =>
    unfold dispatch_loop
    split
    · rename_i hcond
      cases hq : s.sched_cmds with
      | nil => simp [hq, ds_queue_is_empty] at hcond
      | cons cmd rest =>
        obtain ⟨⟨ev1, he1, hs1, hm1⟩, hc1⟩ := dispatch_body_shape env n s cmd rest hq
        cases hb : dispatch_body env n s with
        | ret s1 go1 =>
          rw [hb] at he1
          simp only [Res.state] at he1
          obtain ⟨ev2, done2, left2, he2, hq2, hs2, hm2, hr2⟩ := ih s1 go1
          rw [hc1 s1 go1 hb] at hq2
          refine ⟨ev1 ++ ev2, cmd :: done2, left2, ?_, by rw [hq2]; rfl, ?_,
            hm1.paired_append hm2, ?_⟩
          · simp only [Res.bind]
            rw [he2, he1, List.append_assoc]
          · rw [scheduled_cmds_append]
            rcases hs1 with h | h
            · rw [h]; exact List.Sublist.cons _ hs2
            · rw [h]; exact List.Sublist.cons₂ _ hs2
          · intro s2 g h
            exact hr2 s2 g h
        | exited s1 k =>
          rw [hb] at he1
          refine ⟨ev1, [cmd], rest, he1, rfl, ?_, hm1, by intro s2 g h; simp [Res.bind] at h⟩
          rcases hs1 with h | h <;> simp [h]
        | fault s1 =>
          rw [hb] at he1
          refine ⟨ev1, [cmd], rest, he1, rfl, ?_, hm1, by intro s2 g h; simp [Res.bind] at h⟩
          rcases hs1 with h | h <;> simp [h]
        | out_of_fuel s1 =>
          rw [hb] at he1
          refine ⟨ev1, [cmd], rest, he1, rfl, ?_, hm1, by intro s2 g h; simp [Res.bind] at h⟩
          rcases hs1 with h | h <;> simp [h]
    · exact ⟨[], [], s.sched_cmds, by simp [Res.state], rfl, List.Sublist.slnil,
        MarkersPaired.of_quiet _ (by simp), by intro s1 g h; cases h; rfl⟩

/-! ## The lookup `find_server` -/

/-- What `find_server` computes on an allocated array: the first entry when
its secondary socket is `sock`, NULL in every other case. -/
theorem find_server_first_only (arr : List sched_svrconn) (sock : Int) :
    find_server (some arr) sock =
      match arr with
      | [] => some none
      | c :: _ => if c.secondary_sock = sock then some (some c) else some none := by
  cases arr with
  | nil => rfl
  | cons c rest =>
    simp only [find_server, List.getElem?_cons_zero]

/-- C2 (code at the failing input): with A and B registered, the lookup of
the secondary socket of B returns NULL although B is in the registry. -/
theorem find_server_misses_second :
    svrB ∈ [svrA, svrB] ∧ svrB.secondary_sock = 7 ∧
      find_server (some [svrA, svrB]) 7 = some none := by
  decide

/-- C3 (code at the failing input): with A and B registered and the queue
holding "1.srv" from A and "2.srv" from B, only "1.srv" reaches `schedule`;
"2.srv" is dequeued and freed without a cycle. -/
theorem dispatch_drops_second_server :
    (dispatch_loop env_ok 3 (state_of [svrA, svrB] [cmd1, cmd2]) true).state.trace =
      [.sigprocmask [1, 2, 15, 10], .schedule svrA cmd1 0, .diswsi 5 0 0, .dis_flush 5 0,
       .free_sched_cmd cmd1, .sigprocmask [], .free_sched_cmd cmd2] ∧
    (dispatch_loop env_ok 3 (state_of [svrA, svrB] [cmd1, cmd2]) true).state.servers =
      some [svrA, svrB] := by
  decide

/-! ## Dropping a command without a connection -/

theorem find_server_none_of_no_match (l : List sched_svrconn) (sock : Int)
    (h : ∀ c ∈ l, c.secondary_sock ≠ sock) : find_server (some l) sock = some none := by
  rw [find_server_first_only]
  cases l with
  | nil => rfl
  | cons c rest =>
    simp only
    rw [if_neg (h c (List.mem_cons_self _ _))]

/-- C4: when the command at the head of the queue comes from a socket that
no registered connection has as its secondary socket, one pass of the
dispatch loop only dequeues and frees it (no `schedule` call, no marker, the
registry and every other global unchanged) and leaves `go` set, and the loop
goes on with the rest of the queue. -/
theorem dispatch_body_drops_unmatched (env : Env) (fuel : Nat) (s : State) (cmd : sched_cmd)
    (rest : List sched_cmd) (l : List sched_svrconn) (hq : s.sched_cmds = cmd :: rest)
    (hs : s.servers = some l) (hno : ∀ c ∈ l, c.secondary_sock ≠ cmd.from_sock) :
    dispatch_body env fuel s =
        .ret { s with sched_cmds := rest, trace := s.trace ++ [.free_sched_cmd cmd] } true ∧
      dispatch_loop env (fuel + 1) s true =
        dispatch_loop env fuel
          { s with sched_cmds := rest, trace := s.trace ++ [.free_sched_cmd cmd] } true := by
  have hb : dispatch_body env fuel s =
      .ret { s with sched_cmds := rest, trace := s.trace ++ [.free_sched_cmd cmd] } true := by
    unfold dispatch_body
    rw [hq]
    simp only [ds_dequeue, hs, find_server_none_of_no_match l cmd.from_sock hno]
    rfl
  refine ⟨hb, ?_⟩
  rw [dispatch_loop, hb, hq]
  simp [ds_queue_is_empty, Res.bind]

/-- Witness of C4: only A is registered and the queue holds a command read
from socket 7. -/
theorem dispatch_body_drops_unmatched_witness :
    (state_of [svrA] [cmd2, cmd1]).sched_cmds = cmd2 :: [cmd1] ∧
    (state_of [svrA] [cmd2, cmd1]).servers = some [svrA] ∧
    (∀ c ∈ [svrA], c.secondary_sock ≠ cmd2.from_sock) ∧
    dispatch_body env_ok 1 (state_of [svrA] [cmd2, cmd1]) =
      .ret { state_of [svrA] [cmd2, cmd1] with
        sched_cmds := [cmd1],
        trace := (state_of [svrA] [cmd2, cmd1]).trace ++ [.free_sched_cmd cmd2] } true :=
  ⟨rfl, rfl, by decide,
    (dispatch_body_drops_unmatched env_ok 1 (state_of [svrA] [cmd2, cmd1]) cmd2 [cmd1] [svrA]
      rfl rfl (by decide)).1⟩

/-! ## Exit requested by `schedule` -/

theorem drain_sched_cmds_eq_map (q : List sched_cmd) :
    drain_sched_cmds q = q.map Event.free_sched_cmd := by
  induction q with
  | nil => rfl
  | cons c rest ih => simp [drain_sched_cmds, ih]

theorem close_servers_loop_null (fuel : Nat) (s : State) (h : s.servers = none) :
    close_servers_loop (fuel + 1) s = .ret s () := by
  simp [close_servers_loop, h, count_array]

/-- With fuel beyond the number of entries, the first loop of `close_servers`
closes the entries of a non-empty registry from the front and returns with
`servers` NULL. -/
theorem close_servers_loop_run (l : List sched_svrconn) :
    ∀ (s : State) (fuel : Nat), s.servers = some l → l ≠ [] → l.length < fuel →
      ∃ s1, close_servers_loop fuel s = .ret s1 () ∧ s1.servers = none ∧
        s1.trace = s.trace ++ l.flatMap close_events ∧ s1.sched_cmds = s.sched_cmds ∧
        s1.poll_context.isSome = s.poll_context.isSome := by
  induction l with
  | nil => intro s fuel _ h; exact absurd rfl h
  | cons c rest ih =>
    intro s fuel hs _ hfuel
    obtain ⟨f, rfl⟩ : ∃ f, fuel = f + 1 := ⟨fuel - 1, by simp at hfuel; omega⟩
    have hstep : close_servers_loop (f + 1) s = close_servers_loop f (close_server s (some c)) := by
      rw [close_servers_loop]
      simp [hs, count_array]
    rw [hstep]
    have hpoll : (close_server s (some c)).poll_context.isSome = s.poll_context.isSome := by
      simp [close_server, tpp_em_del_fd]
    have htr : (close_server s (some c)).trace = s.trace ++ close_events c := rfl
    by_cases hrest : rest = []
    · subst hrest
      have hnull : (close_server s (some c)).servers = none := by
        simp [close_server, remove_ptr_from_array, hs, count_array]
      obtain ⟨g, rfl⟩ : ∃ g, f = g + 1 := ⟨f - 1, by simp at hfuel; omega⟩
      refine ⟨close_server s (some c), close_servers_loop_null g _ hnull, hnull, ?_,
        close_server_cmds _ _, hpoll⟩
      simp [htr]
    · have hsome : (close_server s (some c)).servers = some rest := by
        have : rest.length ≠ 0 := fun h => hrest (List.length_eq_zero.1 h)
        simp [close_server, remove_ptr_from_array, hs, count_array, this]
      obtain ⟨s1, h1, h2, h3, h4, h5⟩ := ih (close_server s (some c)) f hsome hrest
        (by simp at hfuel; omega)
      refine ⟨s1, h1, h2, ?_, h4.trans (close_server_cmds _ _), h5.trans hpoll⟩
      rw [h3, htr]
      simp

/-- C6 (counterexample): `schedule` returns 0 for a command of A, the write
of the marker fails; nothing is written successfully and nothing is flushed
on socket 5, although a cycle for a command from socket 5 ended with 0. -/
theorem marker_not_flushed_when_write_fails :
    zero_cycles (dispatch_loop env_write_fails 4 (state_of [svrA] [cmd1]) true).state.trace =
        [(5, 0)] ∧
      marker_writes_ok
        (dispatch_loop env_write_fails 4 (state_of [svrA] [cmd1]) true).state.trace = [] ∧
      flushes (dispatch_loop env_write_fails 4 (state_of [svrA] [cmd1]) true).state.trace = [] := by
  decide

/-- C6 (amended): over any run of the dispatch loop, the marker writes that
were attempted are, in order, one per `schedule` call that returned 0, each
with value 0 and on the socket equal to the `from_sock` of that command; and
the flushes are, in order, one per marker write that succeeded, on the same
socket. -/
theorem dispatch_loop_markers (env : Env) (fuel : Nat) (s : State) (go : Bool) :
    ∃ ev, (dispatch_loop env fuel s go).state.trace = s.trace ++ ev ∧
      marker_writes ev = zero_cycles ev ∧ flushes ev = marker_writes_ok ev := by
  obtain ⟨ev, -, -, h1, -, -, h4, -⟩ := dispatch_loop_shape env fuel s go
  exact ⟨ev, h1, h4.writes, h4.flushed⟩

/-! ## Reading one command -/

/-- C7 (counterexample): the blocking decode returns 1 and the look-ahead
returns -2; `read_sched_cmd` returns 0 and the queue stays empty. -/
theorem read_sched_cmd_eof_lookahead_discards :
    (env_eof_lookahead.decode (state_of [svrA] []).trace 5).1 = 1 ∧
      (read_sched_cmd env_eof_lookahead (state_of [svrA] []) 5).2 = 0 ∧
      (read_sched_cmd env_eof_lookahead (state_of [svrA] []) 5).1.sched_cmds = [] := by
  decide

/-- C7 (amended): when the blocking decode returns 1, the look-ahead does not
return -2 (it may fail with -1, find nothing, decode a command or be skipped
for lack of memory) and the enqueue succeeds, `read_sched_cmd` returns 1 and
the decoded command stands at the tail of the queue. -/
theorem read_sched_cmd_keeps_first (env : Env) (s : State) (sock : Int)
    (ha : env.alloc s.trace .new_sched_cmd = true)
    (hd : (get_sched_cmd env s sock).2.1 = 1)
    (hla : (read_lookahead env (get_sched_cmd env s sock).1 sock).2 ≠ some (-2))
    (henq : env.alloc (read_lookahead env (get_sched_cmd env s sock).1 sock).1.trace
      .ds_enqueue = true) :
    (read_sched_cmd env s sock).2 = 1 ∧
      (read_sched_cmd env s sock).1.sched_cmds =
        s.sched_cmds ++ [(get_sched_cmd env s sock).2.2] := by
  unfold read_sched_cmd
  simp only [ha, Bool.not_true, Bool.false_eq_true, if_false, hd, ne_eq, not_true_eq_false]
  unfold read_lookahead at hla henq
  by_cases hp : env.alloc (get_sched_cmd env s sock).1.trace .new_sched_cmd_prio = true
  · simp only [hp, if_true] at hla henq ⊢
    have hne : ¬ (get_sched_cmd_noblk env (get_sched_cmd env s sock).1 sock).2.1 = -2 := by
      intro h; exact hla (by rw [h])
    simp only [hne, if_false, henq, Bool.not_true, Bool.false_eq_true]
    exact ⟨trivial, by simp [ds_enqueue, State.log, get_sched_cmd_noblk, get_sched_cmd]⟩
  · have hpf : env.alloc (get_sched_cmd env s sock).1.trace .new_sched_cmd_prio = false := by
      simpa using hp
    simp only [hpf, Bool.false_eq_true, if_false] at hla henq ⊢
    simp only [henq, Bool.not_true, Bool.false_eq_true, if_false]
    exact ⟨trivial, by simp [ds_enqueue, State.log, get_sched_cmd]⟩

/-- Witness of C7 (amended): every call succeeds and the look-ahead finds
nothing. -/
theorem read_sched_cmd_keeps_first_witness :
    (read_sched_cmd env_ok (state_of [svrA] [cmd3]) 5).2 = 1 ∧
      (read_sched_cmd env_ok (state_of [svrA] [cmd3]) 5).1.sched_cmds =
        [cmd3] ++ [⟨1, none, 5⟩] :=
  read_sched_cmd_keeps_first env_ok (state_of [svrA] [cmd3]) 5 rfl rfl (by decide) rfl

/-- C8: after `read_sched_cmd` the queue is the old queue, or the old queue
with one command added at its tail; in the second case the call returned 1
and the added command is the one the blocking decode produced. Nothing else,
in particular no command of the look-ahead, enters the queue. -/
theorem read_sched_cmd_queue (env : Env) (s : State) (sock : Int) :
    (read_sched_cmd env s sock).1.sched_cmds = s.sched_cmds ∨
      ((read_sched_cmd env s sock).2 = 1 ∧ (get_sched_cmd env s sock).2.1 = 1 ∧
        (read_sched_cmd env s sock).1.sched_cmds =
          s.sched_cmds ++ [(get_sched_cmd env s sock).2.2]) := by
  simp only [read_sched_cmd, get_sched_cmd, get_sched_cmd_noblk, State.log, ds_enqueue]
  split_ifs <;> simp_all

/-! ## What a returning connection attempt leaves behind -/

theorem ConnStep.same (s : State) : ConnStep s s :=
  ⟨rfl, rfl, rfl, [], by simp, by simp⟩

theorem ConnStep.andThen {s s1 s2 : State} (h1 : ConnStep s s1) (h2 : ConnStep s1 s2) :
    ConnStep s s2 := by
  obtain ⟨e1, t1, q1⟩ := h1.trace
  obtain ⟨e2, t2, q2⟩ := h2.trace
  refine ⟨h2.servers.trans h1.servers, h2.poll.trans h1.poll, h2.cmds.trans h1.cmds,
    e1 ++ e2, by rw [t2, t1, List.append_assoc], ?_⟩
  intro e he
  rcases List.mem_append.1 he with h | h
  · exact q1 e h
  · exact q2 e h

theorem ConnStep.logged (s : State) (ev : List Event) (h : ∀ e ∈ ev, e.connecting = true) :
    ConnStep s (s.log ev) :=
  ⟨rfl, rfl, rfl, ev, rfl, h⟩

theorem Res.bind_eq_ret {α β : Type} {r : Res α} {f : State → α → Res β} {s2 : State} {b : β}
    (h : r.bind f = .ret s2 b) : ∃ s1 a, r = .ret s1 a ∧ f s1 a = .ret s2 b := by
  cases r with
  | ret s1 a => exact ⟨s1, a, rfl, h⟩
  | exited s1 n => simp [Res.bind] at h
  | fault s1 => simp [Res.bind] at h
  | out_of_fuel s1 => simp [Res.bind] at h

theorem connect_server_helper_ret (env : Env) (fuel : Nat) (s : State) (host : String)
    (is_primary : Bool) (s1 : State) (sock : Int)
    (h : connect_server_helper env fuel s host is_primary = .ret s1 sock) : ConnStep s s1 := by
  unfold connect_server_helper at h
  dsimp only at h
  have hrerr : ∀ (x : Int), Res.ret ((s.log [.pbs_connect host is_primary
      (env.connect_attempt s.trace host is_primary).sock]).log
      [.pbs_disconnect (env.connect_attempt s.trace host is_primary).sock]) x = .ret s1 sock →
      ConnStep s s1 := by
    intro x hx
    cases hx
    exact (ConnStep.logged _ _ (by simp [Event.connecting])).andThen
      (ConnStep.logged _ _ (by simp [Event.connecting]))
  split_ifs at h
  any_goals exact hrerr _ h
  · split at h
    · exact absurd h (die_never_returns _ _ _ _ _)
    · exact hrerr _ h
  · cases h
    exact ConnStep.logged _ _ (by simp [Event.connecting])

theorem connect_server_loop_ret (env : Env) (fuel : Nat) :
    ∀ (s : State) (host : String) (p q : Int) (s1 : State) (pq : Int × Int),
      connect_server_loop env fuel s host p q = .ret s1 pq →
        ConnStep s s1 ∧ 0 ≤ pq.1 ∧ 0 ≤ pq.2 := by
  induction fuel with
  | zero => intro s host p q s1 pq h; simp [connect_server_loop] at h
  | succ n ih =>
    intro s host p q s1 pq h
    unfold connect_server_loop at h
    dsimp only at h
    have hsec : ∀ (sa : State) (pa : Int),
        ((connect_server_helper env n sa host false).bind fun s2 q1 =>
          if q1 < 0 then connect_server_loop env n (s2.log [.sleep 2]) host pa q1
          else connect_server_loop env n s2 host pa q1) = .ret s1 pq →
        ConnStep sa s1 ∧ 0 ≤ pq.1 ∧ 0 ≤ pq.2 := by
      intro sa pa hb
      obtain ⟨s2, q1, hh, hk⟩ := Res.bind_eq_ret hb
      have c1 := connect_server_helper_ret _ _ _ _ _ _ _ hh
      split_ifs at hk
      · obtain ⟨c2, hp, hq⟩ := ih _ _ _ _ _ _ hk
        exact ⟨(c1.andThen (ConnStep.logged _ _ (by simp [Event.connecting]))).andThen c2, hp, hq⟩
      · obtain ⟨c2, hp, hq⟩ := ih _ _ _ _ _ _ hk
        exact ⟨c1.andThen c2, hp, hq⟩
    split_ifs at h with hcond hprim
    · obtain ⟨sa, p1, hh, hk⟩ := Res.bind_eq_ret h
      have c1 := connect_server_helper_ret _ _ _ _ _ _ _ hh
      split_ifs at hk
      · obtain ⟨c2, hp, hq⟩ := ih _ _ _ _ _ _ hk
        exact ⟨(c1.andThen (ConnStep.logged _ _ (by simp [Event.connecting]))).andThen c2, hp, hq⟩
      · obtain ⟨c2, hp, hq⟩ := hsec _ _ hk
        exact ⟨c1.andThen c2, hp, hq⟩
    · exact hsec _ _ h
    · cases h
      exact ⟨ConnStep.same _, by omega, by omega⟩

/-- A `connect_server` that returns has added one connection with the given
host and two valid sockets at the end of the registry, its secondary socket
to the poll set, and has closed nothing. -/
theorem connect_server_ret (env : Env) (fuel : Nat) (s : State) (host : String) (s2 : State)
    (h : connect_server env fuel s (some host) = .ret s2 ()) :
    ∃ p q ev, 0 ≤ p ∧ 0 ≤ q ∧
      s2.servers = add_ptr_to_array s.servers ⟨host, p, q⟩ ∧
      s2.poll_context = tpp_em_add_fd s.poll_context q ∧
      s2.sched_cmds = s.sched_cmds ∧
      s2.trace = s.trace ++ ev ∧ ∀ e ∈ ev, e.connecting = true := by
  unfold connect_server at h
  simp only at h
  obtain ⟨s1, pq, hl, hk⟩ := Res.bind_eq_ret h
  obtain ⟨c1, hp, hq⟩ := connect_server_loop_ret _ _ _ _ _ _ _ _ hl
  obtain ⟨ev1, ht1, hc1⟩ := c1.trace
  split_ifs at hk
  · exact absurd hk (die_never_returns _ _ _ _ _)
  · exact absurd hk (die_never_returns _ _ _ _ _)
  · exact absurd hk (die_never_returns _ _ _ _ _)
  · exact absurd hk (die_never_returns _ _ _ _ _)
  · cases hk
    refine ⟨pq.1, pq.2, ev1 ++ [.tpp_em_add_fd pq.2 (env.tpp_em_add_fd s1.trace pq.2),
      .log_connected host], hp, hq, ?_, ?_, ?_, ?_, ?_⟩
    · simp [State.log, c1.servers]
    · simp [State.log, c1.poll]
    · simp [State.log, c1.cmds]
    · simp [State.log, ht1]
    · intro e he
      rcases List.mem_append.1 he with h1 | h1
      · exact hc1 e h1
      · simp only [List.mem_cons, List.mem_singleton, List.not_mem_nil, or_false] at h1
        rcases h1 with h1 | h1 <;> subst h1 <;> rfl

theorem disconnect_logs_connecting (ev : List Event) (h : ∀ e ∈ ev, e.connecting = true) :
    disconnect_logs ev = [] := by
  induction ev with
  | nil => rfl
  | cons e rest ih =>
    have he := h e (List.mem_cons_self _ _)
    have hr := ih (fun x hx => h x (List.mem_cons_of_mem _ hx))
    unfold disconnect_logs at hr ⊢
    rw [List.filterMap_cons]
    cases e <;> first | exact hr | exact absurd he (by simp [Event.connecting])

theorem disconnect_logs_append (a b : List Event) :
    disconnect_logs (a ++ b) = disconnect_logs a ++ disconnect_logs b :=
  List.filterMap_append _ _ _

/-- A `reconnect_server` that returns has closed the given connection, and
only it, and has added a connection with the same host string and two valid
sockets at the end of the registry. -/
theorem reconnect_server_ret (env : Env) (fuel : Nat) (s : State) (sconn : sched_svrconn)
    (s2 : State) (h : reconnect_server env fuel s sconn = .ret s2 ()) :
    ∃ p q ev, 0 ≤ p ∧ 0 ≤ q ∧
      s2.servers = add_ptr_to_array (close_server s (some sconn)).servers
        ⟨sconn.svrhost, p, q⟩ ∧
      s2.poll_context = tpp_em_add_fd (tpp_em_del_fd s.poll_context sconn.secondary_sock) q ∧
      s2.sched_cmds = s.sched_cmds ∧
      s2.trace = s.trace ++ close_events sconn ++ ev ∧ ∀ e ∈ ev, e.connecting = true := by
  obtain ⟨p, q, ev, hp, hq, h1, h2, h3, h4, h5⟩ := connect_server_ret env fuel _ _ s2 h
  exact ⟨p, q, ev, hp, hq, h1, h2, h3, h4, h5⟩

theorem read_sched_cmd_servers (env : Env) (s : State) (sock : Int) :
    (read_sched_cmd env s sock).1.servers = s.servers := by
  simp only [read_sched_cmd, get_sched_cmd, get_sched_cmd_noblk, State.log, ds_enqueue]
  split_ifs <;> rfl

/-! ## The dispatch loop takes the queue in order -/

theorem freed_cmds_append (a b : List Event) :
    freed_cmds (a ++ b) = freed_cmds a ++ freed_cmds b :=
  List.filterMap_append _ _ _

theorem freed_cmds_connecting (ev : List Event) (h : ∀ e ∈ ev, e.connecting = true) :
    freed_cmds ev = [] := by
  induction ev with
  | nil => rfl
  | cons e rest ih =>
    have he := h e (List.mem_cons_self _ _)
    have hr := ih (fun x hx => h x (List.mem_cons_of_mem _ hx))
    unfold freed_cmds at hr ⊢
    rw [List.filterMap_cons]
    cases e <;> first | exact hr | exact absurd he (by simp [Event.connecting])

theorem scheduled_cmds_connecting (ev : List Event) (h : ∀ e ∈ ev, e.connecting = true) :
    scheduled_cmds ev = [] := by
  induction ev with
  | nil => rfl
  | cons e rest ih =>
    have he := h e (List.mem_cons_self _ _)
    have hr := ih (fun x hx => h x (List.mem_cons_of_mem _ hx))
    unfold scheduled_cmds at hr ⊢
    rw [List.filterMap_cons]
    cases e <;> first | exact hr | exact absurd he (by simp [Event.connecting])

/-- A `send_cycle_end` that returns has freed no command and called no
`schedule`; unless it logged a disconnection the registry is as before. -/
theorem send_cycle_end_ret_run (env : Env) (fuel : Nat) (s : State) (sconn : sched_svrconn)
    (s4 : State) (h : send_cycle_end env fuel s sconn = .ret s4 ()) :
    ∃ ev, s4.trace = s.trace ++ ev ∧ freed_cmds ev = [] ∧ scheduled_cmds ev = [] ∧
      (disconnect_logs ev = [] → s4.servers = s.servers) := by
  unfold send_cycle_end at h
  dsimp only at h
  split_ifs at h with h1 h2
  · obtain ⟨p, q, ev, -, -, -, -, -, ht, hc⟩ := reconnect_server_ret env fuel _ sconn s4 h
    refine ⟨[.diswsi sconn.secondary_sock cycle_end_marker
        (env.diswsi s.trace sconn.secondary_sock cycle_end_marker),
      .log_msg "Not able to send end of cycle"] ++ close_events sconn ++ ev, ?_, ?_, ?_, ?_⟩
    · rw [ht]; simp [State.log]
    · rw [freed_cmds_append, freed_cmds_connecting ev hc]
      simp [freed_cmds, close_events]
    · rw [scheduled_cmds_append, scheduled_cmds_connecting ev hc]
      simp [scheduled_cmds, close_events]
    · intro hd
      rw [disconnect_logs_append, disconnect_logs_append] at hd
      simp [disconnect_logs, close_events] at hd
  · obtain ⟨p, q, ev, -, -, -, -, -, ht, hc⟩ := reconnect_server_ret env fuel _ sconn s4 h
    refine ⟨[.diswsi sconn.secondary_sock cycle_end_marker
        (env.diswsi s.trace sconn.secondary_sock cycle_end_marker),
      .dis_flush sconn.secondary_sock (env.dis_flush (s.log [.diswsi sconn.secondary_sock
        cycle_end_marker (env.diswsi s.trace sconn.secondary_sock cycle_end_marker)]).trace
        sconn.secondary_sock)] ++ close_events sconn ++ ev, ?_, ?_, ?_, ?_⟩
    · rw [ht]; simp [State.log]
    · rw [freed_cmds_append, freed_cmds_connecting ev hc]
      simp [freed_cmds, close_events]
    · rw [scheduled_cmds_append, scheduled_cmds_connecting ev hc]
      simp [scheduled_cmds, close_events]
    · intro hd
      rw [disconnect_logs_append, disconnect_logs_append] at hd
      simp [disconnect_logs, close_events] at hd
  · cases h
    refine ⟨[.diswsi sconn.secondary_sock cycle_end_marker
        (env.diswsi s.trace sconn.secondary_sock cycle_end_marker),
      .dis_flush sconn.secondary_sock (env.dis_flush (s.log [.diswsi sconn.secondary_sock
        cycle_end_marker (env.diswsi s.trace sconn.secondary_sock cycle_end_marker)]).trace
        sconn.secondary_sock)], ?_, ?_, ?_, ?_⟩
    · simp [State.log]
    · simp [freed_cmds]
    · simp [scheduled_cmds]
    · intro _; rfl

/-- One returning pass of the loop body on a queue `cmd :: rest`: the command
is dequeued and freed, and nothing else is; it was handed to `schedule`, once,
exactly when the lookup found its connection, and always when the pass clears
`go`; unless a disconnection was logged the registry is as before. -/
theorem dispatch_body_run (env : Env) (fuel : Nat) (s : State) (cmd : sched_cmd)
    (rest : List sched_cmd) (hq : s.sched_cmds = cmd :: rest) :
    ∀ s1 go1, dispatch_body env fuel s = .ret s1 go1 →
      ∃ ev, s1.trace = s.trace ++ ev ∧ s1.sched_cmds = rest ∧ freed_cmds ev = [cmd] ∧
        (go1 = false → scheduled_cmds ev = [cmd]) ∧
        scheduled_cmds ev = [cmd].filter (served s.servers) ∧
        (disconnect_logs ev = [] → s1.servers = s.servers) := by
  unfold dispatch_body
  rw [hq]
  simp only [ds_dequeue]
  cases hf : find_server s.servers cmd.from_sock with
  | none =>
    simp only []
    intro s1 go1 h
    cases h
  | some o =>
    cases o with
    | none =>
      simp only []
      intro s1 go1 h
      cases h
      refine ⟨[.free_sched_cmd cmd], rfl, rfl, rfl, ?_, ?_, ?_⟩
      · intro h; cases h
      · simp [served, hf, scheduled_cmds, List.filter]
      · intro _; rfl
    | some sconn =>
      simp only []
      split_ifs with hr
      · intro s1 go1 h
        cases h
        refine ⟨[.sigprocmask (block_mask s.sigmask), .schedule sconn cmd
          (env.schedule (set_segv_last_time (sigprocmask_block { s with sched_cmds := rest })
            (env.time (sigprocmask_block { s with sched_cmds := rest }).trace)).trace sconn cmd),
          .free_sched_cmd cmd, .sigprocmask s.sigmask], ?_, ?_, ?_, ?_, ?_, ?_⟩
        · simp [sigprocmask_setmask, State.log, sigprocmask_block, set_segv_last_time_trace]
        · simp [sigprocmask_setmask, State.log, sigprocmask_block, set_segv_last_time_sched_cmds]
        · simp [freed_cmds]
        · intro _; simp [scheduled_cmds]
        · simp [served, hf, scheduled_cmds, List.filter]
        · intro _
          simp only [sigprocmask_setmask, State.log, sigprocmask_block, set_segv_last_time]
          split_ifs <;> rfl
      · intro s1 go1 h
        obtain ⟨s4, a, hs, hk⟩ := Res.bind_eq_ret h
        cases hk
        obtain ⟨ev2, he2, hf2, hs2, hd2⟩ := send_cycle_end_ret_run env fuel _ sconn s4 hs
        have hc := send_cycle_end_cmds env fuel _ sconn s4 a hs
        refine ⟨[.sigprocmask (block_mask s.sigmask), .schedule sconn cmd
          (env.schedule (set_segv_last_time (sigprocmask_block { s with sched_cmds := rest })
            (env.time (sigprocmask_block { s with sched_cmds := rest }).trace)).trace sconn cmd)] ++ ev2 ++
          [.free_sched_cmd cmd, .sigprocmask s.sigmask], ?_, ?_, ?_, ?_, ?_, ?_⟩
        · simp only [sigprocmask_setmask, State.log]
          rw [he2]
          simp [State.log, sigprocmask_block, set_segv_last_time_trace]
        · simp only [sigprocmask_setmask, State.log]
          rw [hc]
          simp [State.log, sigprocmask_block, set_segv_last_time_sched_cmds]
        · rw [freed_cmds_append, freed_cmds_append, hf2]
          simp [freed_cmds]
        · intro h; cases h
        · rw [scheduled_cmds_append, scheduled_cmds_append, hs2]
          simp [served, hf, scheduled_cmds, List.filter]
        · intro hd
          rw [disconnect_logs_append, disconnect_logs_append] at hd
          have hd' : disconnect_logs ev2 = [] := by
            have := List.append_eq_nil.1 hd
            exact (List.append_eq_nil.1 this.1).2
          simp only [sigprocmask_setmask, State.log]
          rw [hd2 hd']
          simp only [State.log, sigprocmask_block, set_segv_last_time]
          split_ifs <;> rfl

/-- A returning run of the inner loop of `main`: the commands it freed are, in
order, the initial stretch of the queue that it dequeued; entered with `go`
set it returns with `go` set only on an empty queue, and with `go` cleared
only after handing the last dequeued command to `schedule`; entered with `go`
cleared it does nothing. Entered with `go` set on a queue `cmd :: rest`, it
dequeues `cmd` first and hands it to `schedule` exactly when the lookup finds
its connection, before any later command. Unless a disconnection was logged
the registry is as before and the commands handed to `schedule` are exactly
the dequeued ones for which the lookup finds a connection. -/
theorem dispatch_loop_ret_run (env : Env) (fuel : Nat) :
    ∀ (s : State) (go : Bool) (s1 : State) (g : Bool),
      dispatch_loop env fuel s go = .ret s1 g →
      ∃ ev done, s1.trace = s.trace ++ ev ∧ s.sched_cmds = done ++ s1.sched_cmds ∧
        freed_cmds ev = done ∧
        (go = true → g = true → s1.sched_cmds = []) ∧
        (go = true → g = false →
          ∃ pre c spre, done = pre ++ [c] ∧ scheduled_cmds ev = spre ++ [c]) ∧
        (go = false → g = false ∧ ev = [] ∧ done = []) ∧
        (go = true → ∀ cmd rest, s.sched_cmds = cmd :: rest →
          ∃ done' sch', done = cmd :: done' ∧
            scheduled_cmds ev = [cmd].filter (served s.servers) ++ sch' ∧
            sch'.Sublist done') ∧
        (scheduled_cmds ev).Sublist done ∧
        (disconnect_logs ev = [] → s1.servers = s.servers ∧
          scheduled_cmds ev = done.filter (served s.servers)) := by
  induction fuel with
  | zero => intro s go s1 g h; simp [dispatch_loop] at h
  | succ n ih =>
    intro s go s1 g h
    unfold dispatch_loop at h
    split at h
    · rename_i hcond
      have hgo : go = true := by
        cases go with
        | true => rfl
        | false => simp at hcond
      cases hq : s.sched_cmds with
      | nil => simp [hq, ds_queue_is_empty] at hcond
      | cons cmd rest =>
        obtain ⟨sa, go1, hb, hk⟩ := Res.bind_eq_ret h
        obtain ⟨ev1, e1, c1, f1, g1, k1, d1⟩ := dispatch_body_run env n s cmd rest hq sa go1 hb
        obtain ⟨ev2, done2, e2, c2, f2, t2, x2, z2, -, u2, d2⟩ := ih sa go1 s1 g hk
        have hsub : (scheduled_cmds (ev1 ++ ev2)).Sublist (cmd :: done2) := by
          rw [scheduled_cmds_append, k1]
          by_cases hsv : served s.servers cmd = true
          · simp only [List.filter, hsv]
            exact List.Sublist.cons₂ _ u2
          · have hsv' : served s.servers cmd = false := by simpa using hsv
            simp only [List.filter, hsv']
            exact List.Sublist.cons _ u2
        refine ⟨ev1 ++ ev2, cmd :: done2, ?_, ?_, ?_, ?_, ?_, ?_, ?_, hsub, ?_⟩
        · rw [e2, e1, List.append_assoc]
        · rw [← c1, c2]; rfl
        · rw [freed_cmds_append, f1, f2]; rfl
        · intro _ hg
          cases go1 with
          | true => exact t2 rfl hg
          | false =>
            have := (z2 rfl).1
            rw [this] at hg
            cases hg
        · intro _ hg
          cases go1 with
          | true =>
            obtain ⟨pre, c, spre, hp, hsp⟩ := x2 rfl hg
            exact ⟨cmd :: pre, c, scheduled_cmds ev1 ++ spre, by rw [hp]; rfl,
              by rw [scheduled_cmds_append, hsp, List.append_assoc]⟩
          | false =>
            obtain ⟨-, hev, hdn⟩ := z2 rfl
            exact ⟨[], cmd, [], by rw [hdn]; rfl,
              by rw [hev, List.append_nil, g1 rfl]; rfl⟩
        · intro hgf
          rw [hgo] at hgf
          cases hgf
        · intro _ cmd' rest' hq'
          cases hq'
          exact ⟨done2, scheduled_cmds ev2, rfl, by rw [scheduled_cmds_append, k1], u2⟩
        · intro hd
          rw [disconnect_logs_append] at hd
          obtain ⟨hd1, hd2⟩ := List.append_eq_nil.1 hd
          have sv1 := d1 hd1
          obtain ⟨sv2, sc2⟩ := d2 hd2
          refine ⟨sv2.trans sv1, ?_⟩
          rw [scheduled_cmds_append, k1, sc2, sv1, ← List.filter_append]
          rfl
    · rename_i hcond
      cases h
      refine ⟨[], [], by simp, by simp, rfl, ?_, ?_, ?_, ?_, List.Sublist.slnil, ?_⟩
      · intro hg _
        rw [hg] at hcond
        cases hq : s.sched_cmds with
        | nil => rfl
        | cons c r => simp [hq, ds_queue_is_empty] at hcond
      · intro hg hg2
        rw [hg] at hg2
        cases hg2
      · intro hg
        exact ⟨hg, rfl, rfl⟩
      · intro hg cmd rest hq
        rw [hg] at hcond
        simp [hq, ds_queue_is_empty] at hcond
      · intro _
        exact ⟨rfl, rfl⟩

/-- The lookup dereferences a NULL array only when `servers` is NULL. -/
theorem find_server_none {servers : Option (List sched_svrconn)} {sock : Int}
    (h : find_server servers sock = none) : servers = none := by
  unfold find_server at h
  cases servers with
  | none => rfl
  | some arr =>
    simp only at h
    split at h
    · split_ifs at h
    · cases h

/-- With marker writes and flushes that succeed and an allocated registry,
one pass of the loop body returns, with the registry as before. -/
theorem dispatch_body_returns (env : Env) (fuel : Nat) (s : State) (cmd : sched_cmd)
    (rest : List sched_cmd) (hq : s.sched_cmds = cmd :: rest)
    (hm : ∀ t sock v, env.diswsi t sock v = DIS_SUCCESS)
    (hfl : ∀ t sock, env.dis_flush t sock = 0) (hs : s.servers ≠ none) :
    ∃ s1 go1, dispatch_body env fuel s = .ret s1 go1 ∧ s1.servers = s.servers ∧
      s1.sched_cmds = rest := by
  unfold dispatch_body
  rw [hq]
  simp only [ds_dequeue]
  cases hf : find_server s.servers cmd.from_sock with
  | none => exact absurd (find_server_none hf) hs
  | some o =>
    cases o with
    | none =>
      simp only []
      exact ⟨_, true, rfl, rfl, rfl⟩
    | some sconn =>
      simp only []
      split_ifs with hr
      · refine ⟨_, false, rfl, ?_, ?_⟩
        · simp only [sigprocmask_setmask, State.log, sigprocmask_block, set_segv_last_time]
          split_ifs <;> rfl
        · simp [sigprocmask_setmask, State.log, sigprocmask_block, set_segv_last_time_sched_cmds]
      · simp only [send_cycle_end, hm, hfl, ne_eq, not_true_eq_false, if_false, Res.bind]
        refine ⟨_, true, rfl, ?_, ?_⟩
        · simp only [sigprocmask_setmask, State.log, sigprocmask_block, set_segv_last_time]
          split_ifs <;> rfl
        · simp [sigprocmask_setmask, State.log, sigprocmask_block, set_segv_last_time_sched_cmds]

/-- With marker writes and flushes that succeed, an allocated registry and
fuel beyond the length of the queue, the inner loop of `main` returns. -/
theorem dispatch_loop_returns (env : Env)
    (hm : ∀ t sock v, env.diswsi t sock v = DIS_SUCCESS)
    (hfl : ∀ t sock, env.dis_flush t sock = 0) (fuel : Nat) :
    ∀ (s : State) (go : Bool), s.servers ≠ none → s.sched_cmds.length < fuel →
      ∃ s1 g, dispatch_loop env fuel s go = .ret s1 g := by
  induction fuel with
  | zero => intro s go _ h; exact absurd h (Nat.not_lt_zero _)
  | succ n ih =>
    intro s go hs hl
    unfold dispatch_loop
    split
    · rename_i hcond
      cases hq : s.sched_cmds with
      | nil => simp [hq, ds_queue_is_empty] at hcond
      | cons cmd rest =>
        obtain ⟨sa, go1, hb, hsv, hc⟩ := dispatch_body_returns env n s cmd rest hq hm hfl hs
        rw [hb]
        simp only [Res.bind]
        apply ih sa go1
        · rw [hsv]; exact hs
        · rw [hc]
          rw [hq] at hl
          simpa using hl
    · exact ⟨s, go, rfl⟩

/-- C1: the dispatch loop of `main` consumes the queue from its head. The
commands it dequeued are an initial stretch `done` of the queue and the
commands it handed to `schedule` are, in call order, a sublist of `done`:
queue order, each at most once, dropped commands leaving the order of the
others alone. When the loop returns, the queue holds exactly the commands not
yet reached and every dequeued command has been freed, in queue order; entered
with `go` set, it returns with `go` set only with the queue empty, and with
`go` cleared only after handing the last dequeued command to `schedule`.
Entered with `go` set on a queue `cmd :: rest`, it dequeues `cmd` first and
hands it to `schedule`, before any later command, exactly when `find_server`
finds a connection for it. As long as no server was disconnected during the
run, so that the registry stays as it was, the commands handed to `schedule`
are exactly the dequeued commands for which `find_server` finds a connection.
With marker writes and flushes that succeed, an allocated registry and fuel
beyond the length of the queue, the loop returns. -/
theorem dispatch_loop_fifo (env : Env) (fuel : Nat) (s : State) (go : Bool) :
    (∃ ev done left, (dispatch_loop env fuel s go).state.trace = s.trace ++ ev ∧
      s.sched_cmds = done ++ left ∧ (scheduled_cmds ev).Sublist done ∧
      ∀ s1 g, dispatch_loop env fuel s go = .ret s1 g →
        s1.sched_cmds = left ∧ freed_cmds ev = done ∧
        (go = true → g = true → left = []) ∧
        (go = true → g = false →
          ∃ pre c spre, done = pre ++ [c] ∧ scheduled_cmds ev = spre ++ [c]) ∧
        (go = true → ∀ cmd rest, s.sched_cmds = cmd :: rest →
          ∃ done' sch', done = cmd :: done' ∧
            scheduled_cmds ev = [cmd].filter (served s.servers) ++ sch' ∧
            sch'.Sublist done') ∧
        (disconnect_logs ev = [] → s1.servers = s.servers ∧
          scheduled_cmds ev = done.filter (served s.servers))) ∧
    ((∀ t sock v, env.diswsi t sock v = DIS_SUCCESS) → (∀ t sock, env.dis_flush t sock = 0) →
      s.servers ≠ none → s.sched_cmds.length < fuel →
      ∃ s1 g, dispatch_loop env fuel s go = .ret s1 g) := by
  constructor
  · obtain ⟨ev, done, left, h1, h2, h3, -, h5⟩ := dispatch_loop_shape env fuel s go
    refine ⟨ev, done, left, h1, h2, h3, ?_⟩
    intro s1 g hret
    obtain ⟨ev', done', e1, e2, e3, e4, e5, -, e6, -, e7⟩ :=
      dispatch_loop_ret_run env fuel s go s1 g hret
    have hleft := h5 s1 g hret
    have hev : ev' = ev := by
      rw [hret] at h1
      simp only [Res.state] at h1
      rw [e1] at h1
      exact List.append_cancel_left h1
    have hdone : done' = done := by
      rw [h2, hleft] at e2
      exact (List.append_cancel_right e2).symm
    subst hev
    subst hdone
    refine ⟨hleft, e3, ?_, e5, e6, e7⟩
    intro hg1 hg2
    rw [← hleft]
    exact e4 hg1 hg2
  · intro hm hfl hs hl
    exact dispatch_loop_returns env hm hfl fuel s go hs hl

/-- Witness of C1: with server A registered and the queue holding a command
from A, one from socket 7 (no registered server) and another from A, the loop
returns with `go` set and the queue empty; the two commands from A were
handed to `schedule`, in queue order, and the one from socket 7 was dropped. -/
theorem dispatch_loop_fifo_witness :
    scheduled_cmds (dispatch_loop env_ok 5 (state_of [svrA] [cmd1, cmd2, cmd3]) true).state.trace =
        [cmd1, cmd3] ∧
      freed_cmds (dispatch_loop env_ok 5 (state_of [svrA] [cmd1, cmd2, cmd3]) true).state.trace =
        [cmd1, cmd2, cmd3] ∧
      dispatch_loop env_ok 5 (state_of [svrA] [cmd1, cmd2, cmd3]) true =
        .ret (dispatch_loop env_ok 5 (state_of [svrA] [cmd1, cmd2, cmd3]) true).state true ∧
      (dispatch_loop env_ok 5 (state_of [svrA] [cmd1, cmd2, cmd3]) true).state.sched_cmds = [] ∧
      ∃ s1 g, dispatch_loop env_ok 5 (state_of [svrA] [cmd1, cmd2, cmd3]) true = .ret s1 g :=
  ⟨by decide, by decide, rfl, by decide,
    (dispatch_loop_fifo env_ok 5 (state_of [svrA] [cmd1, cmd2, cmd3]) true).2
      (fun _ _ _ => rfl) (fun _ _ => rfl) (by decide) (by decide)⟩

/-! ## Read failure in `wait_for_cmds` -/

/-- C9 (counterexample): descriptor 5 of the first server A is ready, the
read fails with -1 and the server rejects the new registration; the process
ends with exit status 1 and B has been closed as well. -/
theorem wait_for_cmds_read_failure_can_exit :
    (wait_for_cmds env_reject 5 (state_of [svrA, svrB] [])).exit_status = some 1 ∧
      disconnect_logs (wait_for_cmds env_reject 5 (state_of [svrA, svrB] [])).state.trace =
        ["A", "B"] := by
  decide

/-- C9 (amended): in the loop of `wait_for_cmds` over the ready descriptors,
when `read_sched_cmd` gives a result other than 1 and -2 on the secondary
socket of the first registered server, that server is reconnected and the loop
goes on with the next descriptor once `reconnect_server` returns; a returning
`reconnect_server` has closed that server only and the registry then holds the
other servers, unchanged and in order, followed by a connection with the same
host string and two valid sockets. -/
theorem wait_for_cmds_events_reconnects_first (env : Env) (fuel : Nat) (s : State) (sock : Int)
    (fds : List Int) (hascmd : Bool) (c : sched_svrconn) (more : List sched_svrconn)
    (hs : s.servers = some (c :: more)) (hc : c.secondary_sock = sock)
    (h1 : (read_sched_cmd env s sock).2 ≠ 1) (h2 : (read_sched_cmd env s sock).2 ≠ -2) :
    wait_for_cmds_events env fuel (sock :: fds) s hascmd =
        (reconnect_server env fuel (read_sched_cmd env s sock).1 c).bind
          (fun s2 _ => wait_for_cmds_events env fuel fds s2 hascmd) ∧
      ∀ s2, reconnect_server env fuel (read_sched_cmd env s sock).1 c = .ret s2 () →
        ∃ p q ev, 0 ≤ p ∧ 0 ≤ q ∧ s2.servers = some (more ++ [⟨c.svrhost, p, q⟩]) ∧
          s2.sched_cmds = (read_sched_cmd env s sock).1.sched_cmds ∧
          s2.trace = (read_sched_cmd env s sock).1.trace ++ close_events c ++ ev ∧
          ∀ e ∈ ev, e.connecting = true := by
  have hsv : (read_sched_cmd env s sock).1.servers = some (c :: more) :=
    (read_sched_cmd_servers env s sock).trans hs
  constructor
  · rw [wait_for_cmds_events]
    simp only [h1, h2, ne_eq, not_false_eq_true, if_true, hsv, find_server_first_only, hc]
  · intro s2 h
    obtain ⟨p, q, ev, hp, hq, e1, -, e3, e4, e5⟩ := reconnect_server_ret env fuel _ c s2 h
    refine ⟨p, q, ev, hp, hq, ?_, e3, e4, e5⟩
    rw [e1]
    by_cases hm : more = []
    · subst hm
      simp [close_server, remove_ptr_from_array, hsv, count_array, add_ptr_to_array]
    · have : more.length ≠ 0 := fun h => hm (List.length_eq_zero.1 h)
      simp [close_server, remove_ptr_from_array, hsv, count_array, add_ptr_to_array, this]

/-- Witness of C9 (amended): A is first in the registry, its descriptor 5 is
ready and the read fails with -1. -/
theorem wait_for_cmds_events_reconnects_first_witness :
    wait_for_cmds_events env_read_fails 3 (5 :: []) (state_of [svrA, svrB] []) false =
        (reconnect_server env_read_fails 3
          (read_sched_cmd env_read_fails (state_of [svrA, svrB] []) 5).1 svrA).bind
          (fun s2 _ => wait_for_cmds_events env_read_fails 3 [] s2 false) ∧
      ∀ s2, reconnect_server env_read_fails 3
          (read_sched_cmd env_read_fails (state_of [svrA, svrB] []) 5).1 svrA = .ret s2 () →
        ∃ p q ev, 0 ≤ p ∧ 0 ≤ q ∧ s2.servers = some ([svrB] ++ [⟨svrA.svrhost, p, q⟩]) ∧
          s2.sched_cmds = (read_sched_cmd env_read_fails (state_of [svrA, svrB] []) 5).1.sched_cmds ∧
          s2.trace = (read_sched_cmd env_read_fails (state_of [svrA, svrB] []) 5).1.trace ++
            close_events svrA ++ ev ∧
          ∀ e ∈ ev, e.connecting = true :=
  wait_for_cmds_events_reconnects_first env_read_fails 3 (state_of [svrA, svrB] []) 5 [] false
    svrA [svrB] rfl rfl (by decide) (by decide)

/-! ## Failure of the cycle-end marker -/

/-- C10 (counterexample): the marker write fails and the server rejects the
new registration; `send_cycle_end` does not return, the process ends with
exit status 1. -/
theorem send_cycle_end_can_exit :
    (send_cycle_end env_reject_write 4 (state_of [svrA] [cmd3]) svrA).exit_status = some 1 := by
  decide

/-- C10 (amended): if the marker write and the flush succeed, `send_cycle_end`
returns with the registry and the poll set unchanged; if the write fails or
the flush fails, its outcome is that of one `reconnect_server` call for that
connection, and whenever that call returns, control is back in the dispatch
loop with the queue unchanged and exactly one server, this one, closed. -/
theorem send_cycle_end_cases (env : Env) (fuel : Nat) (s : State) (sconn : sched_svrconn) :
    (marker_write_rc env s sconn = DIS_SUCCESS → marker_flush_rc env s sconn = 0 →
        send_cycle_end env fuel s sconn = .ret (after_marker_flush env s sconn) () ∧
        (after_marker_flush env s sconn).servers = s.servers ∧
        (after_marker_flush env s sconn).poll_context = s.poll_context) ∧
      (marker_write_rc env s sconn ≠ DIS_SUCCESS →
        send_cycle_end env fuel s sconn =
          reconnect_server env fuel ((after_marker_write env s sconn).log
            [.log_msg "Not able to send end of cycle"]) sconn) ∧
      (marker_write_rc env s sconn = DIS_SUCCESS → marker_flush_rc env s sconn ≠ 0 →
        send_cycle_end env fuel s sconn =
          reconnect_server env fuel (after_marker_flush env s sconn) sconn) ∧
      ∀ s3, send_cycle_end env fuel s sconn = .ret s3 () →
        s3.sched_cmds = s.sched_cmds ∧
        disconnect_logs s3.trace = disconnect_logs s.trace ++
          (if marker_write_rc env s sconn = DIS_SUCCESS ∧ marker_flush_rc env s sconn = 0
            then [] else [sconn.svrhost]) := by
  have hw : marker_write_rc env s sconn ≠ DIS_SUCCESS →
      send_cycle_end env fuel s sconn =
        reconnect_server env fuel ((after_marker_write env s sconn).log
          [.log_msg "Not able to send end of cycle"]) sconn := by
    intro h
    unfold send_cycle_end
    unfold marker_write_rc at h
    simp only [h, ne_eq, not_false_eq_true, if_true]
    rfl
  have hfl : marker_write_rc env s sconn = DIS_SUCCESS → marker_flush_rc env s sconn ≠ 0 →
      send_cycle_end env fuel s sconn =
        reconnect_server env fuel (after_marker_flush env s sconn) sconn := by
    intro h h0
    unfold send_cycle_end
    unfold marker_flush_rc after_marker_write at h0
    unfold marker_write_rc at h h0
    simp only [h, ne_eq, not_true_eq_false, if_false] at h0 ⊢
    simp only [h0, not_false_eq_true, if_true]
    simp only [after_marker_flush, after_marker_write, marker_flush_rc, marker_write_rc, h]
  have hok : marker_write_rc env s sconn = DIS_SUCCESS → marker_flush_rc env s sconn = 0 →
      send_cycle_end env fuel s sconn = .ret (after_marker_flush env s sconn) () := by
    intro h h0
    unfold send_cycle_end
    unfold marker_flush_rc after_marker_write at h0
    unfold marker_write_rc at h h0
    simp only [h, ne_eq, not_true_eq_false, if_false] at h0 ⊢
    simp only [h0, not_true_eq_false, if_false]
    simp only [after_marker_flush, after_marker_write, marker_flush_rc, marker_write_rc, h]
    rw [h0]
  refine ⟨fun h h0 => ⟨hok h h0, rfl, rfl⟩, hw, hfl, ?_⟩
  intro s3 hret
  by_cases h : marker_write_rc env s sconn = DIS_SUCCESS
  · by_cases h0 : marker_flush_rc env s sconn = 0
    · rw [hok h h0] at hret
      cases hret
      simp [h, h0, after_marker_flush, after_marker_write, State.log, disconnect_logs]
    · rw [hfl h h0] at hret
      obtain ⟨p, q, ev, -, -, -, -, e3, e4, e5⟩ := reconnect_server_ret env fuel _ sconn s3 hret
      refine ⟨e3, ?_⟩
      rw [e4, disconnect_logs_append, disconnect_logs_append, disconnect_logs_connecting ev e5]
      simp [h, h0, after_marker_flush, after_marker_write, State.log, disconnect_logs,
        close_events]
  · rw [hw h] at hret
    obtain ⟨p, q, ev, -, -, -, -, e3, e4, e5⟩ := reconnect_server_ret env fuel _ sconn s3 hret
    refine ⟨e3, ?_⟩
    rw [e4, disconnect_logs_append, disconnect_logs_append, disconnect_logs_connecting ev e5]
    simp [h, after_marker_write, State.log, disconnect_logs, close_events]

/-- Witness of C10 (amended): the marker write fails and the reconnection
succeeds. -/
theorem send_cycle_end_cases_witness :
    marker_write_rc env_write_fails (state_of [svrA] [cmd3]) svrA ≠ DIS_SUCCESS ∧
      send_cycle_end env_write_fails 3 (state_of [svrA] [cmd3]) svrA =
        reconnect_server env_write_fails 3
          ((after_marker_write env_write_fails (state_of [svrA] [cmd3]) svrA).log
            [.log_msg "Not able to send end of cycle"]) svrA :=
  ⟨by decide, (send_cycle_end_cases env_write_fails 3 (state_of [svrA] [cmd3]) svrA).2.1
    (by decide)⟩

/-! ## Termination and effect of `close_servers` -/

/-- With fuel beyond the number of entries, the first loop of `close_servers`
returns with an empty registry, having closed the entries from the front. -/
theorem close_servers_loop_total (s : State) (fuel : Nat) (h : count_array s.servers < fuel) :
    ∃ s1, close_servers_loop fuel s = .ret s1 () ∧ count_array s1.servers = 0 ∧
      s1.trace = s.trace ++ (s.servers.getD []).flatMap close_events ∧
      s1.sched_cmds = s.sched_cmds ∧ s1.poll_context.isSome = s.poll_context.isSome := by
  obtain ⟨f, rfl⟩ : ∃ f, fuel = f + 1 := ⟨fuel - 1, by omega⟩
  cases hs : s.servers with
  | none =>
    exact ⟨s, close_servers_loop_null f s hs, by simp [hs, count_array], by simp, rfl, rfl⟩
  | some l =>
    cases l with
    | nil =>
      refine ⟨s, ?_, by simp [hs, count_array], by simp, rfl, rfl⟩
      simp [close_servers_loop, hs, count_array]
    | cons c rest =>
      obtain ⟨s1, h1, h2, h3, h4, h5⟩ := close_servers_loop_run (c :: rest) s (f + 1) hs
        (by simp) (by simpa [hs, count_array] using h)
      exact ⟨s1, h1, by simp [h2, count_array], by simpa using h3, h4, h5⟩

/-- With fuel beyond the number of entries `close_servers` returns: the
registry is empty, the poll context NULL, the queue empty, and the trace
shows, in this order, the close of every server, the destroy of the poll
context if there was one, the free of every queued command and the free of
the queue. -/
theorem close_servers_run (s : State) (fuel : Nat) (h : count_array s.servers < fuel) :
    ∃ s1, close_servers fuel s = .ret s1 () ∧ count_array s1.servers = 0 ∧
      s1.poll_context = none ∧ s1.sched_cmds = [] ∧
      s1.trace = s.trace ++ (s.servers.getD []).flatMap close_events ++
        (if s.poll_context.isSome then [.tpp_em_destroy] else []) ++
        s.sched_cmds.map Event.free_sched_cmd ++ [.free_ds_queue] := by
  obtain ⟨s1, h1, h2, h3, h4, h5⟩ := close_servers_loop_total s fuel h
  simp only [close_servers, h1, Res.bind]
  refine ⟨_, rfl, ?_, ?_, rfl, ?_⟩
  · simp only [State.log]
    split <;> exact h2
  · simp only [State.log]
    split
    · rfl
    · rename_i hn
      cases hp : s1.poll_context with
      | none => rfl
      | some x => simp [hp] at hn
  · simp only [State.log]
    rw [← h5]
    split <;> simp [h3, h4, drain_sched_cmds_eq_map]

/-- With fuel beyond the number of entries `die` ends the process with exit
status 1, after `close_servers` and `schedexit`. -/
theorem die_exits {α : Type} (s : State) (fuel : Nat) (sig : Int)
    (h : count_array s.servers < fuel) :
    ∃ sfin, (die fuel s sig : Res α) = .exited sfin 1 ∧
      sfin.trace = s.trace ++
        [.log_msg (if sig > 0 then "caught signal" else "abnormal termination")] ++
        (s.servers.getD []).flatMap close_events ++
        (if s.poll_context.isSome then [.tpp_em_destroy] else []) ++
        s.sched_cmds.map Event.free_sched_cmd ++ [.free_ds_queue, .schedexit, .exit 1] := by
  obtain ⟨s1, h1, -, -, -, h5⟩ := close_servers_run
    (s.log [.log_msg (if sig > 0 then "caught signal" else "abnormal termination")]) fuel h
  refine ⟨s1.log [.schedexit, .exit 1], ?_, ?_⟩
  · show Res.bind (close_servers fuel _) _ = _
    rw [h1]
    rfl
  · simp [State.log, h5]

/-- C16: for every state, with fuel beyond the number of registered
connections, `close_servers` returns; on return the registry is empty, the
poll context is NULL and the queue is empty, and the trace shows in this
order: for every previously registered connection its removal from the poll
set, the disconnect of both its sockets and the log line; then the destroy
of the poll context (if there was one); then the free of every command that
was queued, in queue order; then the free of the queue. -/
theorem close_servers_total (s : State) (fuel : Nat) (h : count_array s.servers < fuel) :
    ∃ s1, close_servers fuel s = .ret s1 () ∧ count_array s1.servers = 0 ∧
      s1.poll_context = none ∧ s1.sched_cmds = [] ∧
      s1.trace = s.trace ++ (s.servers.getD []).flatMap close_events ++
        (if s.poll_context.isSome then [.tpp_em_destroy] else []) ++
        s.sched_cmds.map Event.free_sched_cmd ++ [.free_ds_queue] :=
  close_servers_run s fuel h

/-- Witness of C16: two servers registered, two commands queued. -/
theorem close_servers_total_witness :
    ∃ s1, close_servers 3 (state_of [svrA, svrB] [cmd1, cmd2]) = .ret s1 () ∧
      count_array s1.servers = 0 ∧ s1.poll_context = none ∧ s1.sched_cmds = [] ∧
      s1.trace = [.tpp_em_del_fd 5, .pbs_disconnect 4, .pbs_disconnect 5, .log_disconnected "A",
        .tpp_em_del_fd 7, .pbs_disconnect 6, .pbs_disconnect 7, .log_disconnected "B",
        .tpp_em_destroy, .free_sched_cmd cmd1, .free_sched_cmd cmd2, .free_ds_queue] :=
  close_servers_total (state_of [svrA, svrB] [cmd1, cmd2]) 3 (by decide)

/-! ## `close_server` on a connection that is not registered -/

/-- C14 (counterexample): A is registered, B is not; `close_server` on B
disconnects the sockets of B and logs the disconnection, so the state after
the call differs from the state before it. -/
theorem close_server_absent_not_noop :
    svrB ∉ [svrA] ∧
      (close_server (state_of [svrA] []) (some svrB)).trace =
        [.tpp_em_del_fd 7, .pbs_disconnect 6, .pbs_disconnect 7, .log_disconnected "B"] ∧
      close_server (state_of [svrA] []) (some svrB) ≠ state_of [svrA] [] := by
  decide

/-- C14 (amended): `close_server` on NULL changes nothing; on a connection
that is not in the registry it leaves the registered connections as they
are, and it still takes that connection's secondary socket out of the poll
set, disconnects its two sockets and logs the disconnection. -/
theorem close_server_absent (s : State) (c : sched_svrconn)
    (hc : c ∉ s.servers.getD []) :
    close_server s none = s ∧
      (close_server s (some c)).servers.getD [] = s.servers.getD [] ∧
      (close_server s (some c)).poll_context = tpp_em_del_fd s.poll_context c.secondary_sock ∧
      (close_server s (some c)).sched_cmds = s.sched_cmds ∧
      (close_server s (some c)).trace = s.trace ++ close_events c := by
  refine ⟨rfl, ?_, rfl, rfl, rfl⟩
  cases hs : s.servers with
  | none => simp [close_server, remove_ptr_from_array, hs, count_array]
  | some reg =>
    have hc2 : c ∉ reg := by simpa [hs] using hc
    have he : reg.erase c = reg := List.erase_of_not_mem hc2
    simp only [close_server, remove_ptr_from_array, hs, Option.map_some', he, count_array]
    split
    · rename_i h0
      simp [List.length_eq_zero.1 h0]
    · rfl

/-- Witness of C14 (amended): A is registered, B is not. -/
theorem close_server_absent_witness :
    close_server (state_of [svrA] []) none = state_of [svrA] [] ∧
      (close_server (state_of [svrA] []) (some svrB)).servers.getD [] =
        (state_of [svrA] []).servers.getD [] ∧
      (close_server (state_of [svrA] []) (some svrB)).poll_context =
        tpp_em_del_fd (state_of [svrA] []).poll_context svrB.secondary_sock ∧
      (close_server (state_of [svrA] []) (some svrB)).sched_cmds =
        (state_of [svrA] []).sched_cmds ∧
      (close_server (state_of [svrA] []) (some svrB)).trace =
        (state_of [svrA] []).trace ++ close_events svrB :=
  close_server_absent (state_of [svrA] []) svrB (by decide)

/-! ## Reconnecting a registered server -/

/-- C13: when `reconnect_server` returns for a registered connection `c`, the
registry is the old one with `c` taken out and a connection with the host
string of `c` and two valid sockets added at the end (the same number of
connections, the others untouched and in order), the poll set is the old one
with the secondary socket of `c` taken out and the new secondary socket
added, and the trace shows the removal and the disconnects of the sockets of
`c` followed by connecting events only. -/
theorem reconnect_server_registry (env : Env) (fuel : Nat) (s s2 : State) (c : sched_svrconn)
    (reg : List sched_svrconn) (hs : s.servers = some reg) (hc : c ∈ reg)
    (h : reconnect_server env fuel s c = .ret s2 ()) :
    ∃ p q ev, 0 ≤ p ∧ 0 ≤ q ∧
      s2.servers = some (reg.erase c ++ [⟨c.svrhost, p, q⟩]) ∧
      count_array s2.servers = count_array s.servers ∧
      s2.poll_context = tpp_em_add_fd (tpp_em_del_fd s.poll_context c.secondary_sock) q ∧
      s2.trace = s.trace ++ [.tpp_em_del_fd c.secondary_sock, .pbs_disconnect c.primary_sock,
        .pbs_disconnect c.secondary_sock, .log_disconnected c.svrhost] ++ ev ∧
      ∀ e ∈ ev, e.connecting = true := by
  obtain ⟨p, q, ev, hp, hq, e1, e2, -, e4, e5⟩ := reconnect_server_ret env fuel s c s2 h
  have hreg : s2.servers = some (reg.erase c ++ [⟨c.svrhost, p, q⟩]) := by
    rw [e1]
    by_cases hm : reg.erase c = []
    · simp [close_server, remove_ptr_from_array, hs, count_array, add_ptr_to_array, hm]
    · have : (reg.erase c).length ≠ 0 := fun h0 => hm (List.length_eq_zero.1 h0)
      have h2 : ¬ (reg.length - 1 = 0) := by
        rw [← List.length_erase_of_mem hc]; exact this
      simp [close_server, remove_ptr_from_array, hs, count_array, add_ptr_to_array, h2, hc]
  refine ⟨p, q, ev, hp, hq, hreg, ?_, e2, e4, e5⟩
  rw [hreg, hs]
  have hpos : 0 < reg.length := List.length_pos_of_mem hc
  simp only [count_array, List.length_append, List.length_erase_of_mem hc, List.length_singleton]
  omega

/-- Witness of C13: B, second in the registry, is reconnected. -/
theorem reconnect_server_registry_witness :
    ∃ p q ev, 0 ≤ p ∧ 0 ≤ q ∧
      (reconnect_server env_ok 3 (state_of [svrA, svrB] []) svrB).state.servers =
        some ([svrA, svrB].erase svrB ++ [⟨svrB.svrhost, p, q⟩]) ∧
      count_array (reconnect_server env_ok 3 (state_of [svrA, svrB] []) svrB).state.servers =
        count_array (state_of [svrA, svrB] []).servers ∧
      (reconnect_server env_ok 3 (state_of [svrA, svrB] []) svrB).state.poll_context =
        tpp_em_add_fd (tpp_em_del_fd (state_of [svrA, svrB] []).poll_context
          svrB.secondary_sock) q ∧
      (reconnect_server env_ok 3 (state_of [svrA, svrB] []) svrB).state.trace =
        (state_of [svrA, svrB] []).trace ++ [.tpp_em_del_fd svrB.secondary_sock,
          .pbs_disconnect svrB.primary_sock, .pbs_disconnect svrB.secondary_sock,
          .log_disconnected svrB.svrhost] ++ ev ∧
      ∀ e ∈ ev, e.connecting = true :=
  reconnect_server_registry env_ok 3 (state_of [svrA, svrB] [])
    (reconnect_server env_ok 3 (state_of [svrA, svrB] []) svrB).state svrB [svrA, svrB]
    rfl (by decide) rfl

/-! ## Rejected registration -/

/-- C15 (counterexample): the reply to the register request carries error 15
and the connection has no error text; `connect_server_helper` returns -1
through `rerr`, and `connect_server` sleeps 2 seconds and tries again (here
until the fuel of the model is used up) instead of ending the process. -/
theorem rejected_without_text_retries :
    (env_silent_reject.connect_attempt [] "A" true).pbs_errno = 15 ∧
      (connect_server_helper env_silent_reject 3 (state_of [] []) "A" true).exit_status = none ∧
      (connect_server_helper env_silent_reject 3 (state_of [] []) "A" true).state.trace =
        [.pbs_connect "A" true 8, .pbs_disconnect 8] ∧
      (connect_server env_silent_reject 2 (state_of [] []) (some "A")).exit_status = none ∧
      (connect_server env_silent_reject 2 (state_of [] []) (some "A")).state.trace =
        [.pbs_connect "A" true 8, .pbs_disconnect 8, .sleep 2,
         .pbs_connect "A" true 8, .pbs_disconnect 8, .sleep 2] := by
  decide

/-- C15 (amended): `connect_server_helper` returns -1 through `rerr` after a
transport failure (connect, encode, flush, no reply) and also when the reply
carries a non-zero `pbs_errno` while the connection has no error text; when
the reply carries a non-zero `pbs_errno` and there is an error text, the
helper does not return: the process ends through `die(-1)` with exit status
1; with `pbs_errno` 0 it returns the connected socket. -/
theorem connect_server_helper_outcomes (env : Env) (fuel : Nat) (s : State) (host : String)
    (is_primary : Bool) :
    ((env.connect_attempt s.trace host is_primary).transport_failed = true →
        connect_server_helper env fuel s host is_primary =
          .ret (rerr_state env s host is_primary) (-1)) ∧
      ((env.connect_attempt s.trace host is_primary).transport_failed = false →
        (env.connect_attempt s.trace host is_primary).pbs_errno ≠ 0 →
        (env.connect_attempt s.trace host is_primary).errmsg = none →
        connect_server_helper env fuel s host is_primary =
          .ret (rerr_state env s host is_primary) (-1)) ∧
      ((env.connect_attempt s.trace host is_primary).transport_failed = false →
        (env.connect_attempt s.trace host is_primary).pbs_errno ≠ 0 →
        (env.connect_attempt s.trace host is_primary).errmsg ≠ none →
        count_array s.servers < fuel →
        ∃ sfin, connect_server_helper env fuel s host is_primary = .exited sfin 1) ∧
      ((env.connect_attempt s.trace host is_primary).transport_failed = false →
        (env.connect_attempt s.trace host is_primary).pbs_errno = 0 →
        connect_server_helper env fuel s host is_primary =
          .ret (s.log [.pbs_connect host is_primary
            (env.connect_attempt s.trace host is_primary).sock])
            (env.connect_attempt s.trace host is_primary).sock) := by
  refine ⟨?_, ?_, ?_, ?_⟩
  · intro ht
    unfold connect_server_helper rerr_state
    simp only [ConnAttempt.transport_failed, Bool.or_eq_true, decide_eq_true_eq,
      Bool.not_eq_true'] at ht
    dsimp only
    split_ifs <;> first | rfl | (exfalso; simp_all)
  · intro ht he hm
    unfold connect_server_helper rerr_state
    simp only [ConnAttempt.transport_failed, Bool.or_eq_false_iff, decide_eq_false_iff_not,
      Bool.not_eq_false'] at ht
    dsimp only
    split_ifs <;> first | rfl | (rw [hm])
  · intro ht he hm hf
    unfold connect_server_helper
    simp only [ConnAttempt.transport_failed, Bool.or_eq_false_iff, decide_eq_false_iff_not,
      Bool.not_eq_false'] at ht
    dsimp only
    cases hmsg : (env.connect_attempt s.trace host is_primary).errmsg with
    | none => exact absurd hmsg hm
    | some m =>
      obtain ⟨sfin, h1, -⟩ := die_exits (α := Int) ((s.log [.pbs_connect host is_primary
        (env.connect_attempt s.trace host is_primary).sock]).log
        [.log_rejected is_primary m]) fuel (-1) hf
      refine ⟨sfin, ?_⟩
      split_ifs <;> first | exact h1 | (exfalso; simp_all)
  · intro ht he
    unfold connect_server_helper
    simp only [ConnAttempt.transport_failed, Bool.or_eq_false_iff, decide_eq_false_iff_not,
      Bool.not_eq_false'] at ht
    dsimp only
    split_ifs <;> first | rfl | (exfalso; simp_all)

/-- Witness of C15 (amended): error 15 with an error text ends the process
with exit status 1. -/
theorem connect_server_helper_outcomes_witness :
    ∃ sfin, connect_server_helper env_reject 3 (state_of [svrA] []) "A" true = .exited sfin 1 :=
  (connect_server_helper_outcomes env_reject 3 (state_of [svrA] []) "A" true).2.2.1
    rfl (by decide) (by decide) (by decide)

/-! ## The queue when `wait_for_cmds` returns -/

/-- The result 1 of `read_sched_cmd` and the enqueue go together. -/
theorem read_sched_cmd_enqueues (env : Env) (s : State) (sock : Int) :
    ((read_sched_cmd env s sock).2 = 1 ∧
        (read_sched_cmd env s sock).1.sched_cmds =
          s.sched_cmds ++ [(get_sched_cmd env s sock).2.2]) ∨
      ((read_sched_cmd env s sock).2 ≠ 1 ∧
        (read_sched_cmd env s sock).1.sched_cmds = s.sched_cmds) := by
  simp only [read_sched_cmd, get_sched_cmd, get_sched_cmd_noblk, State.log, ds_enqueue]
  split_ifs <;> simp_all

/-- The loop of `wait_for_cmds` over the ready descriptors only adds to the
queue, and it sets `hascmd` only after adding. -/
theorem wait_for_cmds_events_grows (env : Env) (fuel : Nat) (fds : List Int) :
    ∀ (s : State) (hascmd : Bool) (s1 : State) (h1 : Bool),
      wait_for_cmds_events env fuel fds s hascmd = .ret s1 h1 →
        ∃ added, s1.sched_cmds = s.sched_cmds ++ added ∧
          (h1 = true → hascmd = true ∨ added ≠ []) := by
  induction fds with
  | nil =>
    intro s hascmd s1 h1 h
    simp only [wait_for_cmds_events, Res.ret.injEq] at h
    obtain ⟨rfl, rfl⟩ := h
    exact ⟨[], by simp, fun h => Or.inl h⟩
  | cons sock rest ih =>
    intro s hascmd s1 h1 h
    rw [wait_for_cmds_events] at h
    rcases read_sched_cmd_enqueues env s sock with ⟨hr, hq⟩ | ⟨hr, hq⟩
    · simp only [hr, ne_eq, not_true_eq_false, if_false] at h
      obtain ⟨added, ha, -⟩ := ih _ _ _ _ h
      refine ⟨[(get_sched_cmd env s sock).2.2] ++ added, ?_, fun _ => Or.inr (by simp)⟩
      rw [ha, hq, List.append_assoc]
    · simp only [hr, ne_eq, not_false_eq_true, if_true] at h
      split_ifs at h
      · obtain ⟨added, ha, hb⟩ := ih _ _ _ _ h
        exact ⟨added, by rw [ha, hq], hb⟩
      · split at h
        · cases h
        · obtain ⟨added, ha, hb⟩ := ih _ _ _ _ h
          exact ⟨added, by rw [ha, hq], hb⟩
        · obtain ⟨s2, a, hrec, hk⟩ := Res.bind_eq_ret h
          have hc := Frame.cmds (reconnect_server_frame _ _ _ _) s2 a hrec
          obtain ⟨added, ha, hb⟩ := ih _ _ _ _ hk
          exact ⟨added, by rw [ha, hc, hq], hb⟩

theorem wait_for_cmds_loop_grows (env : Env) (fuel : Nat) :
    ∀ (s : State) (hascmd : Bool) (s1 : State),
      wait_for_cmds_loop env fuel s hascmd = .ret s1 () →
        ∃ added, s1.sched_cmds = s.sched_cmds ++ added ∧ (hascmd = false → added ≠ []) := by
  induction fuel with
  | zero => intro s hascmd s1 h; simp [wait_for_cmds_loop] at h
  | succ n ih =>
    intro s hascmd s1 h
    rw [wait_for_cmds_loop] at h
    cases hascmd with
    | true =>
      simp only [Bool.not_true, Bool.false_eq_true, if_false, Res.ret.injEq, and_true] at h
      subst h
      exact ⟨[], by simp, by simp⟩
    | false =>
      simp only [Bool.not_false, if_true] at h
      split at h
      · obtain ⟨added, ha, hb⟩ := ih _ _ _ h
        refine ⟨added, ?_, hb⟩
        rw [ha]
        congr 1
        simp only [State.log, sigprocmask_block, sigprocmask_unblock]
        split_ifs <;> rfl
      · obtain ⟨s2, h2, hev, hk⟩ := Res.bind_eq_ret h
        obtain ⟨a1, ha1, hb1⟩ := wait_for_cmds_events_grows env n _ _ _ _ _ hev
        obtain ⟨a2, ha2, hb2⟩ := ih _ _ _ hk
        refine ⟨a1 ++ a2, by rw [ha2, ha1, List.append_assoc]; rfl, fun _ => ?_⟩
        cases h2 with
        | true =>
          rcases hb1 rfl with hf | hne
          · cases hf
          · simp [hne]
        | false => simp [hb2 rfl]

/-- C11: whenever `wait_for_cmds` returns, the queue is the queue it was
called with followed by at least one command that was enqueued during the
call: it is non-empty and nothing that ran inside the call (the reads, the
reconnections) took a command out. -/
theorem wait_for_cmds_queue_nonempty (env : Env) (fuel : Nat) (s s1 : State)
    (h : wait_for_cmds env fuel s = .ret s1 ()) :
    s1.sched_cmds ≠ [] ∧ ∃ added, added ≠ [] ∧ s1.sched_cmds = s.sched_cmds ++ added := by
  obtain ⟨added, ha, hb⟩ := wait_for_cmds_loop_grows env fuel s false s1 h
  exact ⟨by rw [ha]; simp [hb rfl], added, hb rfl, ha⟩

/-- Witness of C11: descriptor 5 is ready and a command is read from it. -/
theorem wait_for_cmds_queue_nonempty_witness :
    (wait_for_cmds env_ready 3 (state_of [svrA] [])).state.sched_cmds ≠ [] ∧
      ∃ added, added ≠ [] ∧
        (wait_for_cmds env_ready 3 (state_of [svrA] [])).state.sched_cmds =
          (state_of [svrA] []).sched_cmds ++ added :=
  wait_for_cmds_queue_nonempty env_ready 3 (state_of [svrA] [])
    (wait_for_cmds env_ready 3 (state_of [svrA] [])).state rfl

/-! ## The registry invariant -/

theorem connect_server_helper_origin (env : Env) (fuel : Nat) (s : State) (host : String)
    (is_primary : Bool) (s1 : State) (sock : Int)
    (h : connect_server_helper env fuel s host is_primary = .ret s1 sock) :
    sock = -1 ∨ sock = (env.connect_attempt s.trace host is_primary).sock := by
  unfold connect_server_helper at h
  dsimp only at h
  split_ifs at h
  all_goals first
    | (cases h; first | exact Or.inl rfl | exact Or.inr rfl)
    | skip
  split at h
  · exact absurd h (die_never_returns _ _ _ _ _)
  · cases h; exact Or.inl rfl

theorem connect_server_loop_origin (env : Env) (fuel : Nat) :
    ∀ (s : State) (host : String) (p q : Int) (s1 : State) (pq : Int × Int),
      connect_server_loop env fuel s host p q = .ret s1 pq →
        pq.2 = q ∨ pq.2 = -1 ∨ ∃ t, pq.2 = (env.connect_attempt t host false).sock := by
  induction fuel with
  | zero => intro s host p q s1 pq h; simp [connect_server_loop] at h
  | succ n ih =>
    intro s host p q s1 pq h
    unfold connect_server_loop at h
    dsimp only at h
    have hsec : ∀ (sa : State) (pa : Int),
        ((connect_server_helper env n sa host false).bind fun s2 q1 =>
          if q1 < 0 then connect_server_loop env n (s2.log [.sleep 2]) host pa q1
          else connect_server_loop env n s2 host pa q1) = .ret s1 pq →
        pq.2 = -1 ∨ ∃ t, pq.2 = (env.connect_attempt t host false).sock := by
      intro sa pa hb
      obtain ⟨s2, q1, hh, hk⟩ := Res.bind_eq_ret hb
      have ho := connect_server_helper_origin _ _ _ _ _ _ _ hh
      have hres : pq.2 = q1 ∨ pq.2 = -1 ∨
          ∃ t, pq.2 = (env.connect_attempt t host false).sock := by
        split_ifs at hk
        · exact ih _ _ _ _ _ _ hk
        · exact ih _ _ _ _ _ _ hk
      rcases hres with h1 | h1 | h1
      · rcases ho with h2 | h2
        · exact Or.inl (h1.trans h2)
        · exact Or.inr ⟨_, h1.trans h2⟩
      · exact Or.inl h1
      · exact Or.inr h1
    split_ifs at h with hcond hprim
    · obtain ⟨sa, p1, hh, hk⟩ := Res.bind_eq_ret h
      split_ifs at hk
      · exact ih _ _ _ _ _ _ hk
      · exact Or.inr (hsec _ _ hk)
    · exact Or.inr (hsec _ _ h)
    · cases h
      exact Or.inl rfl

/-- As `connect_server_ret`, naming the connection attempt the new secondary
socket came from. -/
theorem connect_server_ret_origin (env : Env) (fuel : Nat) (s : State) (host : String)
    (s2 : State) (h : connect_server env fuel s (some host) = .ret s2 ()) :
    ∃ p q t, 0 ≤ p ∧ 0 ≤ q ∧ q = (env.connect_attempt t host false).sock ∧
      s2.servers = add_ptr_to_array s.servers ⟨host, p, q⟩ ∧
      s2.poll_context = tpp_em_add_fd s.poll_context q := by
  unfold connect_server at h
  simp only at h
  obtain ⟨s1, pq, hl, hk⟩ := Res.bind_eq_ret h
  obtain ⟨c1, hp, hq⟩ := connect_server_loop_ret _ _ _ _ _ _ _ _ hl
  have ho : ∃ t, pq.2 = (env.connect_attempt t host false).sock := by
    rcases connect_server_loop_origin _ _ _ _ _ _ _ _ hl with h1 | h1 | h1
    · omega
    · omega
    · exact h1
  obtain ⟨t, ht⟩ := ho
  split_ifs at hk
  · exact absurd hk (die_never_returns _ _ _ _ _)
  · exact absurd hk (die_never_returns _ _ _ _ _)
  · exact absurd hk (die_never_returns _ _ _ _ _)
  · exact absurd hk (die_never_returns _ _ _ _ _)
  · cases hk
    refine ⟨pq.1, pq.2, t, hp, hq, ht, ?_, ?_⟩
    · simp [State.log, c1.servers]
    · simp [State.log, c1.poll]

theorem map_erase_of_nodup (l : List sched_svrconn) (c : sched_svrconn) (hc : c ∈ l)
    (hn : (l.map fun d => d.secondary_sock).Nodup) :
    (l.erase c).map (fun d => d.secondary_sock) =
      (l.map fun d => d.secondary_sock).erase c.secondary_sock := by
  induction l with
  | nil => simp at hc
  | cons d rest ih =>
    by_cases hd : d = c
    · subst hd
      simp
    · have hc2 : c ∈ rest := by
        rcases List.mem_cons.1 hc with h | h
        · exact absurd h.symm hd
        · exact h
      simp only [List.map_cons, List.nodup_cons] at hn
      have hne : d.secondary_sock ≠ c.secondary_sock := by
        intro he
        exact hn.1 (he ▸ List.mem_map_of_mem (fun d => d.secondary_sock) hc2)
      rw [List.erase_cons_tail (by simpa using hd), List.map_cons, List.map_cons,
        List.erase_cons_tail (by simpa using hne), ih hc2 hn.2]

theorem registry_close_server (s : State) (c : sched_svrconn) :
    registry (close_server s (some c)) = (registry s).erase c := by
  cases hs : s.servers with
  | none => simp [registry, close_server, remove_ptr_from_array, hs, count_array]
  | some reg =>
    simp only [registry, close_server, remove_ptr_from_array, hs, Option.map_some', count_array]
    split
    · rename_i h0
      simp [List.length_eq_zero.1 h0]
    · rfl

theorem RegInv.after_close_server {s : State} (hi : RegInv s) (c : sched_svrconn)
    (hc : c ∈ registry s) : RegInv (close_server s (some c)) := by
  have hreg := registry_close_server s c
  refine ⟨?_, ?_, ?_⟩
  · intro d hd
    rw [hreg] at hd
    exact hi.valid d (List.mem_of_mem_erase hd)
  · rw [hreg, map_erase_of_nodup _ c hc hi.nodup]
    exact hi.nodup.erase _
  · rw [hreg, map_erase_of_nodup _ c hc hi.nodup, ← hi.poll]
    cases hp : s.poll_context with
    | none => simp [poll_set, close_server, tpp_em_del_fd, hp]
    | some fds => simp [poll_set, close_server, tpp_em_del_fd, hp]

theorem registry_add_ptr (s : State) (svr : sched_svrconn) :
    (add_ptr_to_array s.servers svr).getD [] = registry s ++ [svr] := by
  cases hs : s.servers with
  | none => simp [registry, add_ptr_to_array, hs, count_array]
  | some reg =>
    cases reg with
    | nil => simp [registry, add_ptr_to_array, hs, count_array]
    | cons d rest => simp [registry, add_ptr_to_array, hs, count_array]

theorem RegInv.after_connect_server {env : Env} {fuel : Nat} {s s1 : State} {host : String}
    (hi : RegInv s) (hp : s.poll_context.isSome = true) (hf : SockFresh s s1)
    (h : connect_server env fuel s (some host) = .ret s1 ()) : RegInv s1 := by
  obtain ⟨p, q, t, h0, h1, hq, hsv, hpoll⟩ := connect_server_ret_origin env fuel s host s1 h
  have hreg : registry s1 = registry s ++ [⟨host, p, q⟩] := by
    unfold registry at *
    rw [hsv]
    exact registry_add_ptr s _
  have hfresh : q ∉ (registry s).map fun c => c.secondary_sock := by
    intro hm
    obtain ⟨c, hc, he⟩ := List.mem_map.1 hm
    exact hf ⟨host, p, q⟩ (by rw [hreg]; simp) c hc he.symm
  refine ⟨?_, ?_, ?_⟩
  · intro d hd
    rw [hreg] at hd
    rcases List.mem_append.1 hd with hd | hd
    · exact hi.valid d hd
    · simp only [List.mem_singleton] at hd
      subst hd
      exact ⟨h0, h1⟩
  · rw [hreg, List.map_append, List.map_singleton]
    exact List.Nodup.append hi.nodup (List.nodup_singleton _)
      (by simpa [List.Disjoint] using hfresh)
  · rw [hreg, List.map_append, List.map_singleton, ← hi.poll]
    obtain ⟨fds, hfds⟩ := Option.isSome_iff_exists.1 hp
    simp [poll_set, hpoll, hfds, tpp_em_add_fd]

theorem close_servers_loop_ret_empty (fuel : Nat) :
    ∀ (s s1 : State), close_servers_loop fuel s = .ret s1 () → count_array s1.servers = 0 := by
  induction fuel with
  | zero => intro s s1 h; simp [close_servers_loop] at h
  | succ n ih =>
    intro s s1 h
    rw [close_servers_loop] at h
    split_ifs at h with hc
    · split at h
      · exact ih _ _ h
      · cases h
    · cases h
      exact not_not.1 hc

theorem RegInv.after_close_servers {fuel : Nat} {s s1 : State}
    (h : close_servers fuel s = .ret s1 ()) : RegInv s1 := by
  unfold close_servers at h
  obtain ⟨s0, a, hl, hk⟩ := Res.bind_eq_ret h
  have h0 := close_servers_loop_ret_empty fuel s s0 hl
  have hreg0 : registry s0 = [] := by
    unfold registry
    cases hs : s0.servers with
    | none => rfl
    | some l => simpa [hs, count_array] using h0
  simp only [Res.ret.injEq, and_true] at hk
  have hreg : registry s1 = [] := by
    rw [← hk]
    simp only [State.log, registry] at hreg0 ⊢
    split <;> exact hreg0
  have hpoll : poll_set s1 = [] := by
    rw [← hk]
    simp only [State.log, poll_set]
    split
    · rfl
    · rename_i hn
      cases hp : s0.poll_context with
      | none => rfl
      | some x => simp [hp] at hn
  exact ⟨by simp [hreg], by simp [hreg], by simp [hreg, hpoll]⟩

theorem reachable_regInv (env : Env) (s : State) (h : Reachable env s) : RegInv s := by
  induction h with
  | init s h1 h2 => exact ⟨by simp [h1], by simp [h1], by simp [h1, poll_set, h2]⟩
  | connect s s1 fuel host _ hp h hf ih => exact ih.after_connect_server hp hf h
  | close s c _ hc ih => exact ih.after_close_server c hc
  | reconnect s s1 fuel c _ hc h hf ih =>
    have hcl := ih.after_close_server c hc
    have hps : (close_server s (some c)).poll_context.isSome = true := by
      have hne : s.poll_context ≠ none := by
        intro hn
        have := ih.poll
        simp only [poll_set, hn, Option.getD_none] at this
        have hmem := List.mem_map_of_mem (fun c => c.secondary_sock) hc
        rw [← this] at hmem
        simp at hmem
      obtain ⟨fds, hfds⟩ := Option.ne_none_iff_exists.1 hne
      simp [close_server, tpp_em_del_fd, ← hfds]
    exact hcl.after_connect_server hps hf h
  | close_all s s1 fuel _ h _ => exact RegInv.after_close_servers h

/-- C12: in every state reached from an empty registry with a fresh poll
context through `connect_server`, `close_server`, `reconnect_server` and
`close_servers`, every connect yielding a descriptor that is not the secondary
socket of a connection registered at that moment, every registered connection
has non-negative primary and secondary sockets and its secondary socket is in
the poll set, and every descriptor in the poll set is the secondary socket of
a registered connection. -/
theorem registry_invariant (env : Env) (s : State) (h : Reachable env s) :
    (∀ c ∈ registry s, 0 ≤ c.primary_sock ∧ 0 ≤ c.secondary_sock ∧
        c.secondary_sock ∈ poll_set s) ∧
      ∀ fd ∈ poll_set s, ∃ c ∈ registry s, c.secondary_sock = fd := by
  have hi := reachable_regInv env s h
  constructor
  · intro c hc
    refine ⟨(hi.valid c hc).1, (hi.valid c hc).2, ?_⟩
    rw [hi.poll]
    exact List.mem_map_of_mem (fun c => c.secondary_sock) hc
  · intro fd hfd
    rw [hi.poll] at hfd
    obtain ⟨c, hc, he⟩ := List.mem_map.1 hfd
    exact ⟨c, hc, he⟩

/-- Witness of C12: servers `A` and `B` are connected one after the other from
the initial state, then `A` is reconnected. The registry then holds `B` and
the new connection to `A`, the poll set holds their secondary sockets 7 and 5,
and the state is reached by the registry operations, so the invariant holds
in it. -/
theorem registry_invariant_witness :
    registry reg_two = [svrA, svrB] ∧ poll_set reg_two = [5, 7] ∧
      registry reg_three = [svrB, svrA] ∧ poll_set reg_three = [7, 5] ∧
      Reachable env_hosts reg_three ∧
      (∀ c ∈ registry reg_three, 0 ≤ c.primary_sock ∧ 0 ≤ c.secondary_sock ∧
          c.secondary_sock ∈ poll_set reg_three) ∧
      ∀ fd ∈ poll_set reg_three, ∃ c ∈ registry reg_three, c.secondary_sock = fd :=
  have hr : Reachable env_hosts reg_three :=
    Reachable.reconnect reg_two reg_three 3 svrA
      (Reachable.connect reg_one reg_two 3 "B"
        (Reachable.connect (state_of [] []) reg_one 3 "A" (Reachable.init _ rfl rfl) rfl rfl
          (by unfold SockFresh; decide))
        rfl rfl (by unfold SockFresh; decide))
      (by decide) rfl (by unfold SockFresh; decide)
  ⟨by decide, by decide, by decide, by decide, hr, registry_invariant env_hosts reg_three hr⟩

/-! ## The SIGHUP handler `restart` -/

theorem restart_log_quiet (sig : Int) : ∀ e ∈ restart_log sig, e.quiet = true := by
  unfold restart_log
  split <;> simp [Event.quiet]

/-- C17: `restart` run at a point where the loop is between cycles. When the
reload succeeds (or no configuration file is set) it returns after the reload
and exactly one `schedule` call, for a command of kind `SCH_CONFIGURE`; the
queue and the registry are as before, so every dispatch the loop does
afterwards comes after that call in the trace and takes the queued commands
in their order. When the reload fails, `restart` does not return and makes no
`schedule` call: the process ends through `die(0)` with exit status 1. -/
theorem restart_configure (env : Env) (fuel : Nat) (s : State) (sig : Int)
    (configfile : Option String) :
    (reload_ok env s sig configfile →
        ∃ s1, restart env fuel s sig configfile = .ret s1 () ∧
          s1.trace = s.trace ++ restart_log sig ++ reload_events configfile ++
            [.schedule restart_sconn restart_cmd (env.schedule
              (s.trace ++ restart_log sig ++ reload_events configfile)
              restart_sconn restart_cmd)] ∧
          scheduled_cmds s1.trace = scheduled_cmds s.trace ++ [restart_cmd] ∧
          restart_cmd.cmd = SCH_CONFIGURE ∧
          s1.sched_cmds = s.sched_cmds ∧ s1.servers = s.servers ∧
          ∀ (fuel2 : Nat) (go : Bool), ∃ ev,
            (dispatch_loop env fuel2 s1 go).state.trace = s1.trace ++ ev ∧
              (scheduled_cmds ev).Sublist s.sched_cmds) ∧
      (¬ reload_ok env s sig configfile → count_array s.servers < fuel →
        ∃ sfin, restart env fuel s sig configfile = .exited sfin 1 ∧
          scheduled_cmds sfin.trace = scheduled_cmds s.trace) := by
  constructor
  · intro hok
    have hkey : ∀ s1 : State, s1.trace = s.trace ++ restart_log sig ++ reload_events configfile →
        s1.sched_cmds = s.sched_cmds → s1.servers = s.servers →
        ∃ s2, (Res.ret (s1.log [.schedule restart_sconn restart_cmd
            (env.schedule s1.trace restart_sconn restart_cmd)]) () : Res Unit) = .ret s2 () ∧
          s2.trace = s.trace ++ restart_log sig ++ reload_events configfile ++
            [.schedule restart_sconn restart_cmd (env.schedule
              (s.trace ++ restart_log sig ++ reload_events configfile)
              restart_sconn restart_cmd)] ∧
          scheduled_cmds s2.trace = scheduled_cmds s.trace ++ [restart_cmd] ∧
          restart_cmd.cmd = SCH_CONFIGURE ∧
          s2.sched_cmds = s.sched_cmds ∧ s2.servers = s.servers ∧
          ∀ (fuel2 : Nat) (go : Bool), ∃ ev,
            (dispatch_loop env fuel2 s2 go).state.trace = s2.trace ++ ev ∧
              (scheduled_cmds ev).Sublist s.sched_cmds := by
      intro s1 ht hq hsv
      refine ⟨_, rfl, by simp [State.log, ht], ?_, rfl, hq, hsv, ?_⟩
      · simp only [State.log, ht, scheduled_cmds_append]
        have h1 : scheduled_cmds (restart_log sig) = [] :=
          scheduled_cmds_quiet _ (restart_log_quiet sig)
        have h2 : scheduled_cmds (reload_events configfile) = [] := by
          cases configfile <;> rfl
        rw [h1, h2]
        simp [scheduled_cmds]
      · intro fuel2 go
        obtain ⟨ev, done, left, h1, h2, h3, -, -⟩ := dispatch_loop_shape env fuel2
          (s1.log [.schedule restart_sconn restart_cmd
            (env.schedule s1.trace restart_sconn restart_cmd)]) go
        refine ⟨ev, h1, ?_⟩
        have hq2 : s.sched_cmds = done ++ left := by rw [← hq]; exact h2
        rw [hq2]
        exact h3.trans (List.sublist_append_left _ _)
    cases configfile with
    | none =>
      exact hkey (s.log (restart_log sig)) (by simp [State.log, reload_events]) rfl rfl
    | some file =>
      have h0 : env.read_config (s.log (restart_log sig)).trace file = 0 := hok
      simp only [restart, h0, ne_eq, not_true_eq_false, if_false]
      exact hkey ((s.log (restart_log sig)).log [.read_config file 0])
        (by simp [State.log, reload_events]) rfl rfl
  · intro hbad hf
    cases configfile with
    | none => exact absurd trivial hbad
    | some file =>
      have h0 : env.read_config (s.log (restart_log sig)).trace file ≠ 0 := hbad
      simp only [restart, h0, ne_eq, not_false_eq_true, if_true]
      obtain ⟨sfin, h1, -⟩ := die_exits (α := Unit) ((s.log (restart_log sig)).log
        [.read_config file (env.read_config (s.log (restart_log sig)).trace file)]) fuel 0 hf
      refine ⟨sfin, h1, ?_⟩
      obtain ⟨ev, he, hq⟩ := (die_frame (α := Unit) fuel ((s.log (restart_log sig)).log
        [.read_config file (env.read_config (s.log (restart_log sig)).trace file)]) 0).quiet
      rw [h1] at he
      simp only [Res.state] at he
      rw [he, scheduled_cmds_append, scheduled_cmds_quiet ev hq]
      simp only [State.log, scheduled_cmds_append, List.append_nil]
      rw [scheduled_cmds_quiet _ (restart_log_quiet sig)]
      simp [scheduled_cmds]

/-- Witness of C17: SIGHUP (signal 1) with a configuration file. When it
loads, two queued commands stay queued behind the configure cycle; when it
does not, the process exits with status 1 and no cycle was run. -/
theorem restart_configure_witness :
    (∃ s1, restart env_ok 1 (state_of [svrA] [cmd1, cmd3]) 1 (some "sched_clients") =
        .ret s1 () ∧
      s1.trace = [.log_msg "log reopened", .log_msg "restart on signal",
        .read_config "sched_clients" 0, .schedule restart_sconn restart_cmd 0] ∧
      scheduled_cmds s1.trace = [restart_cmd] ∧
      restart_cmd.cmd = SCH_CONFIGURE ∧
      s1.sched_cmds = [cmd1, cmd3] ∧ s1.servers = some [svrA] ∧
      ∀ (fuel2 : Nat) (go : Bool), ∃ ev,
        (dispatch_loop env_ok fuel2 s1 go).state.trace = s1.trace ++ ev ∧
          (scheduled_cmds ev).Sublist [cmd1, cmd3]) ∧
    ∃ sfin, restart env_bad_config 3 (state_of [svrA] [cmd1]) 1 (some "sched_clients") =
        .exited sfin 1 ∧
      scheduled_cmds sfin.trace = scheduled_cmds (state_of [svrA] [cmd1]).trace :=
  ⟨(restart_configure env_ok 1 (state_of [svrA] [cmd1, cmd3]) 1 (some "sched_clients")).1 rfl,
    (restart_configure env_bad_config 3 (state_of [svrA] [cmd1]) 1 (some "sched_clients")).2
      (fun h => absurd (show (-1 : Int) = 0 from h) (by decide)) (by decide)⟩

/-! ## The crash-loop breaker -/

/-- C19 (counterexample): the last cycle started 400 seconds after the start
of the scheduler and `fork()` fails; `on_segv` aborts without re-executing
although the difference is not below 300. -/
theorem on_segv_fork_failure_aborts :
    ¬ (state_late.segv_last_time - state_late.segv_start_time < 300) ∧
      on_segv 0 (-1) state_late = .abort_after_fork := by
  decide

/-- C19 (amended): once the cleanup lock is taken, `on_segv` aborts inside
the window exactly when `segv_last_time - segv_start_time` is below 300;
with 300 or more it forks, the process in which `fork()` returns a child pid
re-executes, and the process in which `fork()` returns 0 or fails aborts.
The statement of `main` moves `segv_last_time` to the start time of the
cycle exactly when restart-on-crash is enabled and never touches
`segv_start_time`. -/
theorem on_segv_breaker (lock_rc fork_rc : Int) (s : State) (now : Int) :
    (lock_rc = 0 →
        (on_segv lock_rc fork_rc s = .abort_in_window ↔
          s.segv_last_time - s.segv_start_time < 300)) ∧
      (lock_rc = 0 → 300 ≤ s.segv_last_time - s.segv_start_time → 0 < fork_rc →
        on_segv lock_rc fork_rc s = .reexec) ∧
      (lock_rc = 0 → 300 ≤ s.segv_last_time - s.segv_start_time → fork_rc ≤ 0 →
        on_segv lock_rc fork_rc s = .abort_after_fork) ∧
      (set_segv_last_time s now).segv_last_time =
        (if s.opt_no_restart then s.segv_last_time else now) ∧
      (set_segv_last_time s now).segv_start_time = s.segv_start_time := by
  refine ⟨?_, ?_, ?_, ?_, ?_⟩
  · intro hl
    subst hl
    unfold on_segv
    constructor
    · intro h
      by_contra hn
      simp only [ne_eq, not_true_eq_false, if_false, hn] at h
      split_ifs at h
    · intro h
      simp [h]
  · intro hl hd hf
    subst hl
    have : ¬ (s.segv_last_time - s.segv_start_time < 300) := by omega
    simp [on_segv, this, hf]
  · intro hl hd hf
    subst hl
    have h1 : ¬ (s.segv_last_time - s.segv_start_time < 300) := by omega
    have h2 : ¬ (fork_rc > 0) := by omega
    simp [on_segv, h1, h2]
  · unfold set_segv_last_time
    split <;> rfl
  · unfold set_segv_last_time
    split <;> rfl

/-- Witness of C19 (amended): 400 seconds after the start, `fork()` returns a
child pid and the scheduler is re-executed. -/
theorem on_segv_breaker_witness : on_segv 0 4711 state_late = .reexec :=
  (on_segv_breaker 0 4711 state_late 0).2.1 rfl (by decide) (by decide)

/-! ## `put_sched_cmd` and `contact_sched` -/

/-- C20: `put_sched_cmd` hands the integer `cmd` to the writer first and the
job id after it exactly when `cmd` is `SCH_SCHEDULE_AJOB` and the first write
succeeded; it returns -1 exactly when the first write fails or, for
`SCH_SCHEDULE_AJOB`, the second one does, and then nothing is flushed, and 0
in every other case; `contact_sched` returns -1 without any action when
`cmd` is `SCH_SCHEDULE_AJOB` and the job id is NULL. -/
theorem put_sched_cmd_wire (env : SvrEnv) (sock cmd : Int) (jobid : Option String) :
    wire_writes (put_sched_cmd env sock cmd jobid).1 =
        (if env.diswsi sock cmd = DIS_SUCCESS ∧ cmd = SCH_SCHEDULE_AJOB
          then [.int cmd, .str jobid] else [.int cmd]) ∧
      ((put_sched_cmd env sock cmd jobid).2 = -1 ↔
        (env.diswsi sock cmd ≠ DIS_SUCCESS ∨
          (cmd = SCH_SCHEDULE_AJOB ∧ env.diswst sock jobid ≠ DIS_SUCCESS))) ∧
      ((put_sched_cmd env sock cmd jobid).2 = -1 ∨ (put_sched_cmd env sock cmd jobid).2 = 0) ∧
      ((put_sched_cmd env sock cmd jobid).2 = -1 →
        SvrEvent.DIS_tcp_wflush sock ∉ (put_sched_cmd env sock cmd jobid).1) ∧
      contact_sched env SCH_SCHEDULE_AJOB none = ([], -1) := by
  refine ⟨?_, ?_, ?_, ?_, ?_⟩
  · by_cases h1 : env.diswsi sock cmd = DIS_SUCCESS
    · by_cases h2 : cmd = SCH_SCHEDULE_AJOB
      · by_cases h3 : env.diswst sock jobid = DIS_SUCCESS
        · subst h2
          simp [put_sched_cmd, wire_writes, h1, h3]
        · subst h2
          simp [put_sched_cmd, wire_writes, h1, h3]
      · simp [put_sched_cmd, wire_writes, h1, h2]
    · simp [put_sched_cmd, wire_writes, h1]
  · unfold put_sched_cmd
    dsimp only
    split_ifs <;> simp_all
  · unfold put_sched_cmd
    dsimp only
    split_ifs <;> simp
  · unfold put_sched_cmd
    dsimp only
    split_ifs <;> simp
  · simp [contact_sched]

/-! ## One cycle at a time: the signal mask around `schedule` -/

theorem mask_scan_append (st : MaskScan) (a b : List Event) :
    mask_scan st (a ++ b) = (mask_scan st a).bind fun st1 => mask_scan st1 b := by
  induction a generalizing st with
  | nil => rfl
  | cons e rest ih =>
    simp only [List.cons_append, mask_scan]
    cases mask_step st e with
    | none => rfl
    | some st1 => exact ih st1

theorem mask_step_keeps (st : MaskScan) (e : Event) (h : e.keeps_mask = true) :
    ∃ st1, mask_step st e = some st1 ∧ st1.mask = st.mask ∧
      (st1.running = none ∨ st1.running = st.running) := by
  cases e with
  | sigprocmask m => simp [Event.keeps_mask] at h
  | schedule sconn cmd r => simp [Event.keeps_mask] at h
  | free_sched_cmd c =>
    simp only [mask_step]
    split
    · exact ⟨_, rfl, rfl, Or.inl rfl⟩
    · exact ⟨st, rfl, rfl, Or.inr rfl⟩
  | _ => exact ⟨st, rfl, rfl, Or.inr rfl⟩

theorem mask_scan_keeps (ev : List Event) (h : ∀ e ∈ ev, e.keeps_mask = true) :
    ∀ st : MaskScan, ∃ st1, mask_scan st ev = some st1 ∧ st1.mask = st.mask ∧
      (st1.running = none ∨ st1.running = st.running) := by
  induction ev with
  | nil => intro st; exact ⟨st, rfl, rfl, Or.inr rfl⟩
  | cons e rest ih =>
    intro st
    obtain ⟨st1, h1, hm1, hr1⟩ := mask_step_keeps st e (h e (List.mem_cons_self _ _))
    obtain ⟨st2, h2, hm2, hr2⟩ := ih (fun x hx => h x (List.mem_cons_of_mem _ hx)) st1
    refine ⟨st2, by simp [mask_scan, h1, h2], hm2.trans hm1, ?_⟩
    rcases hr2 with h3 | h3
    · exact Or.inl h3
    · rcases hr1 with h4 | h4
      · exact Or.inl (h3.trans h4)
      · exact Or.inr (h3.trans h4)

theorem mem_block_mask (m : List Int) (x : Int) :
    x ∈ block_mask m ↔ x ∈ m ∨ x ∈ allsigs := by
  unfold block_mask
  simp only [List.mem_append, List.mem_filter, Bool.not_eq_true', List.contains_eq_any_beq,
    List.any_eq_false, beq_iff_eq]
  constructor
  · rintro (h | ⟨h, -⟩)
    · exact Or.inl h
    · exact Or.inr h
  · rintro (h | h)
    · exact Or.inl h
    · by_cases hx : x ∈ m
      · exact Or.inl hx
      · exact Or.inr ⟨h, fun y hy he => hx (by simpa [he] using hy)⟩

theorem same_signals_block_mask (m : List Int) (h : ∀ x ∈ m, x ∈ allsigs) :
    same_signals (block_mask m) = true := by
  unfold same_signals
  simp only [Bool.and_eq_true, List.all_eq_true, List.contains_eq_any_beq, List.any_eq_true,
    beq_iff_eq]
  constructor
  · intro x hx
    exact ⟨x, (mem_block_mask m x).2 (Or.inr hx), rfl⟩
  · intro x hx
    rcases (mem_block_mask m x).1 hx with h1 | h1
    · exact ⟨x, h x h1, rfl⟩
    · exact ⟨x, h1, rfl⟩

theorem KExt.unchanged (t : List Event) : KExt t t :=
  ⟨[], by simp, by simp⟩

theorem KExt.chain {t1 t2 t3 : List Event} (h1 : KExt t1 t2) (h2 : KExt t2 t3) :
    KExt t1 t3 := by
  obtain ⟨e1, rfl, q1⟩ := h1
  obtain ⟨e2, rfl, q2⟩ := h2
  refine ⟨e1 ++ e2, by simp, ?_⟩
  intro e he
  rcases List.mem_append.1 he with h | h
  · exact q1 e h
  · exact q2 e h

theorem KExt.events (t ev : List Event) (h : ∀ e ∈ ev, e.keeps_mask = true) :
    KExt t (t ++ ev) :=
  ⟨ev, rfl, h⟩

theorem KFrame.returned {α : Type} (s : State) (a : α) : KFrame s (Res.ret s a) :=
  ⟨KExt.unchanged _, by intro s1 a1 h; cases h; rfl⟩

theorem KFrame.from {α : Type} {s s1 : State} {r : Res α} (h : KFrame s1 r)
    (hq : KExt s.trace s1.trace) (hm : s1.sigmask = s.sigmask) : KFrame s r :=
  ⟨hq.chain h.ext, fun s2 a e => (h.mask s2 a e).trans hm⟩

theorem KFrame.with_log {α : Type} {s : State} {r : Res α} (ev : List Event)
    (hev : ∀ e ∈ ev, e.keeps_mask = true) (h : KFrame (s.log ev) r) : KFrame s r :=
  KFrame.from h (KExt.events _ _ hev) rfl

theorem KFrame.seq {α β : Type} {s : State} {r : Res α} {f : State → α → Res β}
    (h : KFrame s r) (hf : ∀ s1 a, r = .ret s1 a → KFrame s1 (f s1 a)) :
    KFrame s (r.bind f) := by
  cases r with
  | ret s1 a => exact KFrame.from (hf s1 a rfl) h.ext (h.mask s1 a rfl)
  | exited s1 n => exact ⟨h.ext, by intro s2 a e; cases e⟩
  | fault s1 => exact ⟨h.ext, by intro s2 a e; cases e⟩
  | out_of_fuel s1 => exact ⟨h.ext, by intro s2 a e; cases e⟩

theorem close_server_kext (s : State) (sconn : Option sched_svrconn) :
    KExt s.trace (close_server s sconn).trace := by
  cases sconn with
  | none => exact KExt.unchanged _
  | some c => exact KExt.events _ _ (by simp [Event.keeps_mask])

theorem close_server_sigmask (s : State) (sconn : Option sched_svrconn) :
    (close_server s sconn).sigmask = s.sigmask := by
  cases sconn <;> rfl

theorem kext_bind {α β : Type} {t : List Event} {r : Res α} {f : State → α → Res β}
    (h : KExt t r.state.trace)
    (hf : ∀ s1 a, r = .ret s1 a → KExt s1.trace (f s1 a).state.trace) :
    KExt t (r.bind f).state.trace := by
  cases r with
  | ret s1 a => exact h.chain (hf s1 a rfl)
  | exited s1 n => exact h
  | fault s1 => exact h
  | out_of_fuel s1 => exact h

theorem close_servers_loop_kext (fuel : Nat) (s : State) :
    KExt s.trace (close_servers_loop fuel s).state.trace := by
  induction fuel generalizing s with
  | zero => exact KExt.unchanged _
  | succ n ih =>
    unfold close_servers_loop
    split
    · split
      · exact (close_server_kext s _).chain (ih _)
      · exact KExt.unchanged _
    · exact KExt.unchanged _

theorem drain_sched_cmds_keeps (q : List sched_cmd) :
    ∀ e ∈ drain_sched_cmds q, e.keeps_mask = true := by
  rw [drain_sched_cmds_eq_map]
  intro e he
  obtain ⟨c, -, rfl⟩ := List.mem_map.1 he
  rfl

theorem close_servers_kext (fuel : Nat) (s : State) :
    KExt s.trace (close_servers fuel s).state.trace := by
  refine kext_bind (close_servers_loop_kext fuel s) ?_
  intro s1 _ _
  have h2 : KExt s1.trace
      (if s1.poll_context.isSome then
        { s1 with poll_context := none, trace := s1.trace ++ [.tpp_em_destroy] } else s1).trace := by
    split
    · exact KExt.events _ _ (by simp [Event.keeps_mask])
    · exact KExt.unchanged _
  refine h2.chain ?_
  generalize (if s1.poll_context.isSome then
        { s1 with poll_context := none, trace := s1.trace ++ [.tpp_em_destroy] } else s1) = s2
  exact (KExt.events s2.trace _ (drain_sched_cmds_keeps _)).chain
    (KExt.events _ _ (by simp [Event.keeps_mask]))

theorem die_kframe {α : Type} (fuel : Nat) (s : State) (sig : Int) :
    KFrame s (die fuel s sig : Res α) := by
  refine ⟨?_, fun s1 a e => absurd e (die_never_returns fuel s sig s1 a)⟩
  have h0 : KExt s.trace
      (s.log [.log_msg (if sig > 0 then "caught signal" else "abnormal termination")]).trace :=
    KExt.events _ _ (by simp [Event.keeps_mask])
  exact h0.chain (kext_bind (close_servers_kext fuel _)
    (fun s1 _ _ => KExt.events s1.trace _ (by simp [Event.keeps_mask])))

theorem connect_server_helper_kframe (env : Env) (fuel : Nat) (s : State) (host : String)
    (is_primary : Bool) : KFrame s (connect_server_helper env fuel s host is_primary) := by
  unfold connect_server_helper
  dsimp only
  have hrerr : KFrame s (Res.ret ((s.log [.pbs_connect host is_primary
      (env.connect_attempt s.trace host is_primary).sock]).log
      [.pbs_disconnect (env.connect_attempt s.trace host is_primary).sock]) (-1 : Int)) :=
    KFrame.with_log _ (by simp [Event.keeps_mask])
      (KFrame.with_log _ (by simp [Event.keeps_mask]) (KFrame.returned _ _))
  split_ifs
  any_goals exact hrerr
  · split
    · exact KFrame.with_log _ (by simp [Event.keeps_mask])
        (KFrame.with_log _ (by simp [Event.keeps_mask]) (die_kframe _ _ _))
    · exact hrerr
  · exact KFrame.with_log _ (by simp [Event.keeps_mask]) (KFrame.returned _ _)

theorem connect_server_loop_kframe (env : Env) (fuel : Nat) (s : State) (host : String)
    (p q : Int) : KFrame s (connect_server_loop env fuel s host p q) := by
  induction fuel generalizing s p q with
  | zero => exact ⟨KExt.unchanged _, by intro s1 a e; cases e⟩
  | succ n ih =>
    unfold connect_server_loop
    dsimp only
    have hsec : ∀ (s1 : State) (p1 : Int),
        KFrame s1 ((connect_server_helper env n s1 host false).bind fun s2 q1 =>
          if q1 < 0 then connect_server_loop env n (s2.log [.sleep 2]) host p1 q1
          else connect_server_loop env n s2 host p1 q1) := by
      intro s1 p1
      refine KFrame.seq (connect_server_helper_kframe _ _ _ _ _) ?_
      intro s2 q1 _
      split
      · exact KFrame.with_log _ (by simp [Event.keeps_mask]) (ih _ _ _)
      · exact ih _ _ _
    split
    · split
      · refine KFrame.seq (connect_server_helper_kframe _ _ _ _ _) ?_
        intro s1 p1 _
        split
        · exact KFrame.with_log _ (by simp [Event.keeps_mask]) (ih _ _ _)
        · exact hsec _ _
      · exact hsec _ _
    · exact KFrame.returned _ _

theorem connect_server_kframe (env : Env) (fuel : Nat) (s : State) (svrhost : Option String) :
    KFrame s (connect_server env fuel s svrhost) := by
  unfold connect_server
  split
  · exact KFrame.returned _ _
  · refine KFrame.seq (connect_server_loop_kframe _ _ _ _ _ _) ?_
    intro s1 pq _
    dsimp only
    refine KFrame.with_log [.tpp_em_add_fd pq.2 (env.tpp_em_add_fd s1.trace pq.2)]
      (by simp [Event.keeps_mask]) ?_
    split_ifs
    · exact KFrame.with_log _ (by simp [Event.keeps_mask]) (die_kframe _ _ _)
    · exact KFrame.from (KFrame.with_log [.log_msg "MEM_ERR_MSG"] (by simp [Event.keeps_mask])
        (die_kframe _ _ _)) (KExt.unchanged _) rfl
    · exact KFrame.from (KFrame.with_log [.log_msg "MEM_ERR_MSG"] (by simp [Event.keeps_mask])
        (die_kframe _ _ _)) (KExt.unchanged _) rfl
    · exact KFrame.from (KFrame.from (die_kframe _ _ _) (close_server_kext _ _)
        (close_server_sigmask _ _)) (KExt.unchanged _) rfl
    · exact KFrame.from (KFrame.returned _ _)
        (KExt.events _ _ (by simp [Event.keeps_mask])) rfl

theorem reconnect_server_kframe (env : Env) (fuel : Nat) (s : State) (sconn : sched_svrconn) :
    KFrame s (reconnect_server env fuel s sconn) :=
  KFrame.from (connect_server_kframe env fuel (close_server s (some sconn)) (some sconn.svrhost))
    (close_server_kext _ _) (close_server_sigmask _ _)

theorem send_cycle_end_kframe (env : Env) (fuel : Nat) (s : State) (sconn : sched_svrconn) :
    KFrame s (send_cycle_end env fuel s sconn) := by
  unfold send_cycle_end
  dsimp only
  split_ifs
  · exact KFrame.with_log _ (by simp [Event.keeps_mask])
      (KFrame.with_log _ (by simp [Event.keeps_mask]) (reconnect_server_kframe _ _ _ _))
  · exact KFrame.with_log _ (by simp [Event.keeps_mask])
      (KFrame.with_log _ (by simp [Event.keeps_mask]) (reconnect_server_kframe _ _ _ _))
  · exact KFrame.with_log _ (by simp [Event.keeps_mask])
      (KFrame.with_log _ (by simp [Event.keeps_mask]) (KFrame.returned _ _))

theorem MaskOK.of_kframe {α : Type} {s : State} {r : Res α}
    (hs : ∀ x ∈ s.sigmask, x ∈ allsigs) (h : KFrame s r) : MaskOK s r := by
  obtain ⟨ev, he, hq⟩ := h.ext
  obtain ⟨st1, h1, hm, hr⟩ := mask_scan_keeps ev hq ⟨s.sigmask, none⟩
  have hrun : st1.running = none := by
    rcases hr with h2 | h2
    · exact h2
    · exact h2
  refine ⟨⟨ev, st1, he, h1, ?_⟩, ?_⟩
  · intro s1 a e
    cases st1 with
    | mk m run =>
      simp only at hm hrun
      rw [hm, hrun, h.mask s1 a e]
  · intro s1 a e
    rw [h.mask s1 a e]
    exact hs

theorem MaskOK.then_ok {α β : Type} {s : State} {r : Res α} {f : State → α → Res β}
    (h : MaskOK s r) (hf : ∀ s1 a, r = .ret s1 a → MaskOK s1 (f s1 a)) :
    MaskOK s (r.bind f) := by
  obtain ⟨ev, st, he, hsc, hst⟩ := h.scan
  cases r with
  | ret s1 a =>
    obtain ⟨ev2, st2, he2, hsc2, hst2⟩ := (hf s1 a rfl).scan
    refine ⟨⟨ev ++ ev2, st2, ?_, ?_, hst2⟩, (hf s1 a rfl).sub⟩
    · simp only [Res.bind]
      rw [he2]
      simp only [Res.state] at he
      rw [he, List.append_assoc]
    · rw [mask_scan_append, hsc, hst s1 a rfl]
      exact hsc2
  | exited s1 n => exact ⟨⟨ev, st, he, hsc, by intro s2 a e; cases e⟩, by intro s2 a e; cases e⟩
  | fault s1 => exact ⟨⟨ev, st, he, hsc, by intro s2 a e; cases e⟩, by intro s2 a e; cases e⟩
  | out_of_fuel s1 =>
    exact ⟨⟨ev, st, he, hsc, by intro s2 a e; cases e⟩, by intro s2 a e; cases e⟩

theorem MaskOK.prepend {α : Type} {s0 s : State} {r : Res α} (ev0 : List Event)
    (ht : s.trace = s0.trace ++ ev0)
    (hscan : mask_scan ⟨s0.sigmask, none⟩ ev0 = some ⟨s.sigmask, none⟩)
    (h : MaskOK s r) : MaskOK s0 r := by
  obtain ⟨ev, st, he, hsc, hst⟩ := h.scan
  refine ⟨⟨ev0 ++ ev, st, by rw [he, ht, List.append_assoc], ?_, hst⟩, h.sub⟩
  rw [mask_scan_append, hscan]
  exact hsc

theorem MaskOK.stopped {α : Type} (s : State) (r : Res α) (ev : List Event) (st : MaskScan)
    (he : r.state.trace = s.trace ++ ev) (hsc : mask_scan ⟨s.sigmask, none⟩ ev = some st)
    (hr : ∀ s1 a, r ≠ .ret s1 a) : MaskOK s r :=
  ⟨⟨ev, st, he, hsc, fun s1 a e => absurd e (hr s1 a)⟩, fun s1 a e => absurd e (hr s1 a)⟩

theorem read_sched_cmd_kext (env : Env) (s : State) (sock : Int) :
    KExt s.trace (read_sched_cmd env s sock).1.trace ∧
      (read_sched_cmd env s sock).1.sigmask = s.sigmask := by
  simp only [read_sched_cmd, get_sched_cmd, get_sched_cmd_noblk, State.log, ds_enqueue]
  split_ifs <;> refine ⟨?_, rfl⟩ <;>
    first
      | exact KExt.unchanged _
      | exact KExt.events _ _ (by simp [Event.keeps_mask])
      | (simp only [List.append_assoc]; exact KExt.events _ _ (by simp [Event.keeps_mask]))

theorem wait_for_cmds_events_kframe (env : Env) (fuel : Nat) (fds : List Int) :
    ∀ (s : State) (hascmd : Bool), KFrame s (wait_for_cmds_events env fuel fds s hascmd) := by
  induction fds with
  | nil => intro s hascmd; exact KFrame.returned _ _
  | cons sock rest ih =>
    intro s hascmd
    rw [wait_for_cmds_events]
    have hr := read_sched_cmd_kext env s sock
    dsimp only
    split_ifs
    · split
      · exact ⟨hr.1, by intro s1 a e; cases e⟩
      · exact KFrame.from (ih _ _) hr.1 hr.2
      · exact KFrame.from (KFrame.seq (reconnect_server_kframe _ _ _ _) (fun s2 _ _ => ih _ _))
          hr.1 hr.2
    · exact KFrame.from (ih _ _) hr.1 hr.2
    · exact KFrame.from (ih _ _) hr.1 hr.2

theorem set_segv_last_time_sigmask (s : State) (now : Int) :
    (set_segv_last_time s now).sigmask = s.sigmask := by
  unfold set_segv_last_time; split <;> rfl

/-- A cycle read against the discipline: the block, the `schedule` call, what
`send_cycle_end` appended (events that keep the mask), the free of the
command and the restore of the mask. -/
theorem mask_scan_cycle (m : List Int) (hm : ∀ x ∈ m, x ∈ allsigs) (sconn : sched_svrconn)
    (cmd : sched_cmd) (r : Int) (ev : List Event) (hev : ∀ e ∈ ev, e.keeps_mask = true) :
    (∃ st, mask_scan ⟨m, none⟩
        ([.sigprocmask (block_mask m), .schedule sconn cmd r] ++ ev) = some st) ∧
      mask_scan ⟨m, none⟩ ([.sigprocmask (block_mask m), .schedule sconn cmd r] ++ ev ++
        [.free_sched_cmd cmd, .sigprocmask m]) = some ⟨m, none⟩ := by
  have hstart : mask_scan ⟨m, none⟩ [.sigprocmask (block_mask m), .schedule sconn cmd r] =
      some ⟨block_mask m, some cmd⟩ := by
    simp [mask_scan, mask_step, same_signals_block_mask m hm]
  obtain ⟨st1, h1, hm1, hr1⟩ := mask_scan_keeps ev hev ⟨block_mask m, some cmd⟩
  constructor
  · exact ⟨st1, by rw [mask_scan_append, hstart]; exact h1⟩
  · rw [mask_scan_append, mask_scan_append, hstart]
    simp only [Option.some_bind, h1]
    cases st1 with
    | mk m1 run =>
      simp only at hm1 hr1
      subst hm1
      rcases hr1 with h2 | h2 <;> subst h2 <;> simp [mask_scan, mask_step]

theorem dispatch_body_maskok (env : Env) (fuel : Nat) (s : State)
    (hs : ∀ x ∈ s.sigmask, x ∈ allsigs) : MaskOK s (dispatch_body env fuel s) := by
  unfold dispatch_body
  cases hq : s.sched_cmds with
  | nil =>
    simp only [ds_dequeue]
    exact ⟨⟨[], _, by simp [Res.state], rfl, by intro s1 a e; cases e; rfl⟩,
      by intro s1 a e; cases e; exact hs⟩
  | cons cmd rest =>
    simp only [ds_dequeue]
    cases hf : find_server s.servers cmd.from_sock with
    | none =>
      simp only []
      exact MaskOK.stopped _ _ [] _ (by simp [Res.state]) rfl (by intro s1 a e; cases e)
    | some o =>
      cases o with
      | none =>
        simp only []
        exact ⟨⟨[.free_sched_cmd cmd], ⟨s.sigmask, none⟩, rfl, by simp [mask_scan, mask_step],
          by intro s1 a e; cases e; rfl⟩, by intro s1 a e; cases e; exact hs⟩
      | some sconn =>
        simp only []
        generalize hr : env.schedule (set_segv_last_time (sigprocmask_block
          { s with sched_cmds := rest }) (env.time (sigprocmask_block
          { s with sched_cmds := rest }).trace)).trace sconn cmd = r
        generalize hs3 : (set_segv_last_time (sigprocmask_block { s with sched_cmds := rest })
          (env.time (sigprocmask_block { s with sched_cmds := rest }).trace)).log
          [.schedule sconn cmd r] = s3
        have ht3 : s3.trace = s.trace ++
            [.sigprocmask (block_mask s.sigmask), .schedule sconn cmd r] := by
          rw [← hs3]
          simp [State.log, set_segv_last_time_trace, sigprocmask_block]
        have hm3 : s3.sigmask = block_mask s.sigmask := by
          rw [← hs3]
          simp [State.log, set_segv_last_time_sigmask, sigprocmask_block]
        split_ifs with hne
        · obtain ⟨-, hc⟩ := mask_scan_cycle s.sigmask hs sconn cmd r [] (by simp)
          refine ⟨⟨_, _, ?_, hc, by intro s1 a e; cases e; rfl⟩,
            by intro s1 a e; cases e; exact hs⟩
          simp [Res.state, sigprocmask_setmask, State.log, ht3]
        · have hk := send_cycle_end_kframe env fuel s3 sconn
          obtain ⟨ev, he, hq2⟩ := hk.ext
          obtain ⟨⟨st, hst⟩, hc⟩ := mask_scan_cycle s.sigmask hs sconn cmd r ev hq2
          cases hres : send_cycle_end env fuel s3 sconn with
          | ret s4 a =>
            rw [hres] at he
            simp only [Res.state] at he
            refine ⟨⟨_, _, ?_, hc, by intro s1 a e; cases e; rfl⟩,
              by intro s1 a e; cases e; exact hs⟩
            simp [Res.bind, Res.state, sigprocmask_setmask, State.log, he, ht3]
          | exited s4 n =>
            rw [hres] at he
            exact MaskOK.stopped _ _ _ st (by simpa [Res.bind, Res.state, ht3] using he) hst
              (by intro s1 a e; cases e)
          | fault s4 =>
            rw [hres] at he
            exact MaskOK.stopped _ _ _ st (by simpa [Res.bind, Res.state, ht3] using he) hst
              (by intro s1 a e; cases e)
          | out_of_fuel s4 =>
            rw [hres] at he
            exact MaskOK.stopped _ _ _ st (by simpa [Res.bind, Res.state, ht3] using he) hst
              (by intro s1 a e; cases e)

theorem dispatch_loop_maskok (env : Env) (fuel : Nat) :
    ∀ (s : State) (go : Bool), (∀ x ∈ s.sigmask, x ∈ allsigs) →
      MaskOK s (dispatch_loop env fuel s go) := by
  induction fuel with
  | zero =>
    intro s go _
    exact MaskOK.stopped _ _ [] _ (by simp [dispatch_loop, Res.state]) rfl
      (by intro s1 a e; simp [dispatch_loop] at e)
  | succ n ih =>
    intro s go hs
    unfold dispatch_loop
    split
    · exact MaskOK.then_ok (dispatch_body_maskok env n s hs)
        (fun s1 go1 e => ih s1 go1 ((dispatch_body_maskok env n s hs).sub s1 go1 e))
    · exact MaskOK.of_kframe hs (KFrame.returned _ _)

theorem unblock_block_sub (m : List Int) (hm : ∀ x ∈ m, x ∈ allsigs) :
    ∀ x ∈ block_mask (m.filter fun x => !allsigs.contains x), x ∈ allsigs := by
  intro x hx
  rcases (mem_block_mask _ x).1 hx with h | h
  · exact hm x (List.mem_of_mem_filter h)
  · exact h

theorem wait_for_cmds_loop_maskok (env : Env) (fuel : Nat) :
    ∀ (s : State) (hascmd : Bool), (∀ x ∈ s.sigmask, x ∈ allsigs) →
      MaskOK s (wait_for_cmds_loop env fuel s hascmd) := by
  induction fuel with
  | zero =>
    intro s hascmd _
    exact MaskOK.stopped _ _ [] _ (by simp [wait_for_cmds_loop, Res.state]) rfl
      (by intro s1 a e; simp [wait_for_cmds_loop] at e)
  | succ n ih =>
    intro s hascmd hs
    rw [wait_for_cmds_loop]
    split
    · split
      · rename_i err _
        dsimp only
        split_ifs with h1 h2 h2
        · exact MaskOK.prepend [.tpp_em_pwait (-1) err,
            .sigprocmask (s.sigmask.filter fun x => !allsigs.contains x),
            .sigprocmask (block_mask (s.sigmask.filter fun x => !allsigs.contains x))]
            (by simp [State.log, sigprocmask_block, sigprocmask_unblock])
            (by simp [mask_scan, mask_step, State.log, sigprocmask_block, sigprocmask_unblock])
            (ih _ _ (by
              simpa [State.log, sigprocmask_block, sigprocmask_unblock]
                using unblock_block_sub s.sigmask hs))
        · exact absurd (Or.inl h1) h2
        · exact MaskOK.prepend [.tpp_em_pwait (-1) err]
            (by simp [State.log]) (by simp [mask_scan, mask_step, State.log])
            (ih _ _ (by simpa [State.log] using hs))
        · exact MaskOK.prepend [.tpp_em_pwait (-1) err, .log_msg "tpp_em_wait() error", .sleep 1]
            (by simp [State.log]) (by simp [mask_scan, mask_step, State.log])
            (ih _ _ (by simpa [State.log] using hs))
      · rename_i fds _
        dsimp only
        have hs0 : ∀ x ∈ (s.log [.tpp_em_pwait fds.length 0]).sigmask, x ∈ allsigs := hs
        have hev := MaskOK.of_kframe hs0
          (wait_for_cmds_events_kframe env n fds (s.log [.tpp_em_pwait fds.length 0]) hascmd)
        exact MaskOK.prepend [.tpp_em_pwait fds.length 0] rfl
          (by simp [mask_scan, mask_step, State.log])
          (MaskOK.then_ok hev (fun s1 h e => ih s1 h (hev.sub s1 h e)))
    · exact MaskOK.of_kframe hs (KFrame.returned _ _)

theorem main_finish_maskok (fuel : Nat) (s : State) (hs : ∀ x ∈ s.sigmask, x ∈ allsigs) :
    MaskOK s (main_finish fuel s) := by
  refine MaskOK.of_kframe hs ⟨?_, ?_⟩
  · exact kext_bind (close_servers_kext fuel s)
      (fun s1 _ _ => KExt.events s1.trace _ (by simp [Event.keeps_mask]))
  · intro s1 a e
    exact absurd e (Res.bind_exited_ne_ret _ _ _ _ _)

theorem main_loop_maskok (env : Env) (fuel : Nat) :
    ∀ (s : State) (resume go : Bool), (∀ x ∈ s.sigmask, x ∈ allsigs) →
      MaskOK s (main_loop env fuel s resume go) := by
  induction fuel with
  | zero =>
    intro s resume go _
    exact MaskOK.stopped _ _ [] _ (by simp [main_loop, Res.state]) rfl
      (by intro s1 a e; simp [main_loop] at e)
  | succ n ih =>
    intro s resume go hs
    rw [main_loop]
    split
    · have hd := dispatch_loop_maskok env n s go hs
      refine MaskOK.then_ok hd ?_
      intro s1 go1 e
      split
      · exact ih _ _ _ (hd.sub s1 go1 e)
      · exact main_finish_maskok n s1 (hd.sub s1 go1 e)
    · have hw := wait_for_cmds_loop_maskok env n s false hs
      exact MaskOK.then_ok hw (fun s1 a e => ih _ _ _ (hw.sub s1 a e))

/-- C18: along every run of the main loop entered with a mask that blocks
signals of `allsigs` only (`main` starts it with the empty mask), whatever
the loop appends to the trace is accepted by the reader `mask_scan`: every
`schedule` call of the dispatch loop happens while exactly SIGHUP, SIGINT,
SIGTERM and SIGUSR1 are blocked and no earlier cycle has its command still
unfreed, and the mask is never changed between a `schedule` call and the free
of its command; the same holds for the dispatch loop alone. -/
theorem cycles_run_with_signals_blocked (env : Env) (fuel : Nat) (s : State)
    (resume go : Bool) (hs : ∀ x ∈ s.sigmask, x ∈ allsigs) :
    (∃ ev st, (main_loop env fuel s resume go).state.trace = s.trace ++ ev ∧
        mask_scan ⟨s.sigmask, none⟩ ev = some st) ∧
      ∃ ev st, (dispatch_loop env fuel s go).state.trace = s.trace ++ ev ∧
        mask_scan ⟨s.sigmask, none⟩ ev = some st := by
  obtain ⟨ev, st, h1, h2, -⟩ := (main_loop_maskok env fuel s resume go hs).scan
  obtain ⟨ev2, st2, h3, h4, -⟩ := (dispatch_loop_maskok env fuel s go hs).scan
  exact ⟨⟨ev, st, h1, h2⟩, ev2, st2, h3, h4⟩

/-- The reader refuses a `schedule` call made with nothing blocked, and a
mask change made before the command of the cycle is freed. -/
theorem mask_scan_refuses :
    mask_scan ⟨[], none⟩ [.schedule svrA cmd1 0] = none ∧
      mask_scan ⟨[], none⟩
        [.sigprocmask allsigs, .schedule svrA cmd1 0, .sigprocmask [], .free_sched_cmd cmd1] =
        none ∧
      mask_scan ⟨[], none⟩
        [.sigprocmask allsigs, .schedule svrA cmd1 0, .schedule svrA cmd3 0] = none := by
  decide

/-- Witness of C18: the main loop started with the empty mask, descriptor 5
ready at every wait; and the trace of one dispatched cycle read from the
empty mask. -/
theorem cycles_run_with_signals_blocked_witness :
    ((∃ ev st, (main_loop env_ready 4 (state_of [svrA] []) false true).state.trace =
          (state_of [svrA] []).trace ++ ev ∧
        mask_scan ⟨(state_of [svrA] []).sigmask, none⟩ ev = some st) ∧
      ∃ ev st, (dispatch_loop env_ready 4 (state_of [svrA] []) true).state.trace =
          (state_of [svrA] []).trace ++ ev ∧
        mask_scan ⟨(state_of [svrA] []).sigmask, none⟩ ev = some st) ∧
    mask_scan ⟨[], none⟩ (dispatch_loop env_ok 3 (state_of [svrA] [cmd1]) true).state.trace =
      some ⟨[], none⟩ :=
  ⟨cycles_run_with_signals_blocked env_ready 4 (state_of [svrA] []) false true
    (fun x hx => absurd hx (List.not_mem_nil x)), by decide⟩

/-! ## `schedule_jobs` and `set_scheduler_flag` -/

/-- A returning `put_sched_cmd` that did not fail has written the command
with success and flushed the descriptor. -/
theorem put_sched_cmd_sent (env : SvrEnv) (sock cmd : Int) (jobid : Option String)
    (h : ¬ (put_sched_cmd env sock cmd jobid).2 < 0) :
    SvrEvent.diswsi sock cmd DIS_SUCCESS ∈ (put_sched_cmd env sock cmd jobid).1 ∧
      SvrEvent.DIS_tcp_wflush sock ∈ (put_sched_cmd env sock cmd jobid).1 := by
  simp only [put_sched_cmd] at h ⊢
  split_ifs at h ⊢ with h6 h7 h8
  · exact absurd (show ((-1 : Int) < 0) by decide) h
  · exact absurd (show ((-1 : Int) < 0) by decide) h
  · rw [not_not.mp h6]; simp
  · rw [not_not.mp h6]; simp

/-- A contact that returns a descriptor has written the command with success
and flushed it on that descriptor. -/
theorem contact_sched_sent (env : SvrEnv) (cmd : Int) (jobid : Option String)
    (h : ¬ (contact_sched env cmd jobid).2 < 0) :
    SvrEvent.diswsi (contact_sched env cmd jobid).2 cmd DIS_SUCCESS ∈
        (contact_sched env cmd jobid).1 ∧
      SvrEvent.DIS_tcp_wflush (contact_sched env cmd jobid).2 ∈
        (contact_sched env cmd jobid).1 := by
  simp only [contact_sched] at h ⊢
  by_cases h1 : cmd = SCH_SCHEDULE_AJOB ∧ jobid = none
  · simp [h1] at h
  · by_cases h2 : env.sigaction = -1
    · simp [h1, h2, PBS_NET_RC_RETRY] at h
    · by_cases h3 : env.client_to_svr < 0
      · simp [h1, h2, h3] at h
      · by_cases h4 : env.add_conn env.client_to_svr = true
        · by_cases h5 : (put_sched_cmd env env.client_to_svr cmd jobid).2 < 0
          · simp [h1, h2, h3, h4, h5] at h
          · obtain ⟨hw, hf⟩ := put_sched_cmd_sent env _ cmd jobid h5
            simp only [h1, h2, h3, h4, h5, if_false, Bool.not_true, Bool.false_eq_true]
            exact ⟨List.mem_append_left _ (List.mem_append_right _ hw),
              List.mem_append_left _ (List.mem_append_right _ hf)⟩
        · simp [h1, h2, h3, h4] at h

/-- Claim C22. Over every sequence of `set_scheduler_flag` calls a
`SCH_QUIT` in `svr_do_sched_high` stays there; a call with `SCH_CONFIGURE` or
`SCH_QUIT` leaves `svr_do_schedule` as it was; a call with any other flag
stores the flag in `svr_do_schedule` and leaves `svr_do_sched_high` as it
was. -/
theorem set_scheduler_flag_keeps_quit (s : SvrState) :
    (∀ flags : List Int, s.svr_do_sched_high = SCH_QUIT →
      (flags.foldl set_scheduler_flag s).svr_do_sched_high = SCH_QUIT) ∧
    (∀ flag : Int, flag = SCH_CONFIGURE ∨ flag = SCH_QUIT →
      (set_scheduler_flag s flag).svr_do_schedule = s.svr_do_schedule) ∧
    (∀ flag : Int, ¬ (flag = SCH_CONFIGURE ∨ flag = SCH_QUIT) →
      (set_scheduler_flag s flag).svr_do_schedule = flag ∧
      (set_scheduler_flag s flag).svr_do_sched_high = s.svr_do_sched_high) := by
  refine ⟨?_, ?_, ?_⟩
  · intro flags
    induction flags generalizing s with
    | nil => intro h; exact h
    | cons f rest ih =>
      intro h
      rw [List.foldl_cons]
      apply ih
      unfold set_scheduler_flag
      split_ifs <;> exact h
  · intro flag hf
    unfold set_scheduler_flag
    rw [if_pos hf]
    split_ifs <;> rfl
  · intro flag hf
    unfold set_scheduler_flag
    rw [if_neg hf]
    exact ⟨rfl, rfl⟩

/-- Claim C21. With a request outstanding `schedule_jobs` returns 1 and the
whole state, trace included, is as it was: nobody is contacted. When the
first contact fails it returns -1 and only the trace has grown; whenever it
returns -1 the two sockets, `svr_do_schedule`, `first_time` and the deferred
requests with their sent marks are unchanged. Whenever it returns 0 the
events it added contain a successful write of the chosen command and the
flush, on a valid descriptor. -/
theorem schedule_jobs_skips_or_fails (env : List SvrEvent → SvrEnv) (jobs : SvrJobs)
    (s : SvrState) :
    (s.scheduler_sock ≠ -1 → schedule_jobs env jobs s = (s, 1)) ∧
    (s.scheduler_sock = -1 →
      (contact_sched (env s.trace) (schedule_jobs_cmd jobs s).1 (schedule_jobs_cmd jobs s).2).2 < 0 →
      schedule_jobs env jobs s =
        ({ s with trace := s.trace ++
            (contact_sched (env s.trace) (schedule_jobs_cmd jobs s).1
              (schedule_jobs_cmd jobs s).2).1 }, -1)) ∧
    ((schedule_jobs env jobs s).2 = -1 →
      (schedule_jobs env jobs s).1.svr_do_schedule = s.svr_do_schedule ∧
      (schedule_jobs env jobs s).1.first_time = s.first_time ∧
      (schedule_jobs env jobs s).1.svr_deferred_req = s.svr_deferred_req ∧
      (schedule_jobs env jobs s).1.scheduler_sock = s.scheduler_sock ∧
      (schedule_jobs env jobs s).1.scheduler_sock2 = s.scheduler_sock2) ∧
    ((schedule_jobs env jobs s).2 = 0 →
      ∃ sock t, 0 ≤ sock ∧ (schedule_jobs env jobs s).1.trace = s.trace ++ t ∧
        SvrEvent.diswsi sock (schedule_jobs_cmd jobs s).1 DIS_SUCCESS ∈ t ∧
        SvrEvent.DIS_tcp_wflush sock ∈ t) := by
  refine ⟨?_, ?_, ?_, ?_⟩
  · intro h
    simp [schedule_jobs, h]
  · intro h hf
    simp [schedule_jobs, h, hf]
  · intro h
    simp only [schedule_jobs] at h ⊢
    split_ifs at h ⊢ with h1 h2
    exact ⟨rfl, rfl, rfl, rfl, rfl⟩
  · intro h
    have h1 : s.scheduler_sock = -1 := by
      by_contra hc
      simp [schedule_jobs, hc] at h
    have h2 : ¬ (contact_sched (env s.trace) (schedule_jobs_cmd jobs s).1
        (schedule_jobs_cmd jobs s).2).2 < 0 := by
      intro hc
      simp [schedule_jobs, h1, hc] at h
    obtain ⟨hw, hfl⟩ := contact_sched_sent _ _ _ h2
    by_cases h3 : s.scheduler_sock2 = -1
    · refine ⟨_, _ ++ (contact_sched (env (set_sched_sock
          (match schedule_jobs_pick jobs s.svr_deferred_req 0 with
            | some i =>
              { ({ s with trace := s.trace ++ (contact_sched (env s.trace)
                    (schedule_jobs_cmd jobs s).1 (schedule_jobs_cmd jobs s).2).1 } : SvrState) with
                svr_deferred_req := mark_sent s.svr_deferred_req i }
            | none => { s with trace := s.trace ++ (contact_sched (env s.trace)
                    (schedule_jobs_cmd jobs s).1 (schedule_jobs_cmd jobs s).2).1 })
          (contact_sched (env s.trace) (schedule_jobs_cmd jobs s).1
            (schedule_jobs_cmd jobs s).2).2).trace) SCH_SCHEDULE_NULL none).1,
        not_lt.mp h2, ?_, List.mem_append_left _ hw, List.mem_append_left _ hfl⟩
      simp only [schedule_jobs, h1, h2, if_true, if_false]
      cases hp : schedule_jobs_pick jobs s.svr_deferred_req 0 <;>
        simp only [set_sched_sock, h3, if_true] <;>
        split_ifs <;> simp [List.append_assoc]
    · refine ⟨_, _, not_lt.mp h2, ?_, hw, hfl⟩
      simp only [schedule_jobs, h1, h2, if_true, if_false]
      cases hp : schedule_jobs_pick jobs s.svr_deferred_req 0 <;>
        simp only [set_sched_sock, h3, if_false] <;>
        split_ifs <;> rfl

/-- A run of `schedule_jobs` on the idle server with one unsent qrun request:
the request is sent as `SCH_SCHEDULE_AJOB` with its job id and marked, both
sockets are set, and nothing is left to ask for. With the scheduler down the
result is -1 and the request stays unmarked. -/
theorem schedule_jobs_example :
    (schedule_jobs svr_env_ok svr_jobs_all svr_idle).2 = 0 ∧
    (schedule_jobs svr_env_ok svr_jobs_all svr_idle).1.svr_deferred_req = [⟨"7.srv", 1⟩] ∧
    (schedule_jobs svr_env_ok svr_jobs_all svr_idle).1.scheduler_sock = 9 ∧
    (schedule_jobs svr_env_ok svr_jobs_all svr_idle).1.scheduler_sock2 = 9 ∧
    (schedule_jobs svr_env_ok svr_jobs_all svr_idle).1.svr_do_schedule = SCH_SCHEDULE_NULL ∧
    wire_writes (schedule_jobs svr_env_ok svr_jobs_all svr_idle).1.trace =
      [.int SCH_SCHEDULE_AJOB, .str (some "7.srv"), .int SCH_SCHEDULE_NULL] ∧
    (schedule_jobs svr_env_down svr_jobs_all svr_idle).2 = -1 ∧
    (schedule_jobs svr_env_down svr_jobs_all svr_idle).1.svr_deferred_req = [⟨"7.srv", 0⟩] := by
  refine ⟨?_, ?_, ?_, ?_, ?_, ?_, ?_, ?_⟩ <;> decide

/-! ## The timed task list: `set_task` -/

/-- The insert of `set_task` splits the list at the first task that is due
later than the new one. -/
theorem set_task_timed_split (pnew : work_task) (l : List work_task) :
    ∃ pre post, l = pre ++ post ∧ set_task_timed pnew l = pre ++ pnew :: post ∧
      (∀ x ∈ pre, x.wt_event ≤ pnew.wt_event) ∧
      (∀ x, post.head? = some x → pnew.wt_event < x.wt_event) := by
  induction l with
  | nil => exact ⟨[], [], rfl, rfl, by simp, by simp⟩
  | cons a rest ih =>
    by_cases h : a.wt_event > pnew.wt_event
    · refine ⟨[], a :: rest, rfl, ?_, by simp, ?_⟩
      · simp [set_task_timed, h]
      · intro x hx
        simp at hx
        subst hx
        exact h
    · obtain ⟨pre, post, h1, h2, h3, h4⟩ := ih
      refine ⟨a :: pre, post, ?_, ?_, ?_, h4⟩
      · simp [h1]
      · simp [set_task_timed, h, h2]
      · intro x hx
        rcases List.mem_cons.mp hx with hx | hx
        · subst hx; exact not_lt.mp h
        · exact h3 x hx

/-- Claim C29. On a timed list in non-decreasing order of `wt_event`,
`set_task(WORK_Timed, t, f, p)` whose allocation succeeds returns the new
task and leaves the list as the old one cut in two with the new task in
between: every task before it is due at `t` or earlier, every task after it
later than `t`, and the list is again in non-decreasing order; the immediate
and the event list are unchanged. When the allocation fails NULL is returned
and no list changes. -/
theorem set_task_keeps_timed_sorted (L : TaskLists) (t : Int) (f : Option Nat) (p : Nat)
    (hs : TimedSorted L.task_list_timed) :
    (∃ pre post, L.task_list_timed = pre ++ post ∧
      (set_task true .WORK_Timed t f p L).2 = some ⟨t, .WORK_Timed, f, p⟩ ∧
      (set_task true .WORK_Timed t f p L).1.task_list_timed =
        pre ++ ⟨t, .WORK_Timed, f, p⟩ :: post ∧
      (∀ x ∈ pre, x.wt_event ≤ t) ∧ (∀ x ∈ post, t < x.wt_event)) ∧
    TimedSorted (set_task true .WORK_Timed t f p L).1.task_list_timed ∧
    (set_task true .WORK_Timed t f p L).1.task_list_immed = L.task_list_immed ∧
    (set_task true .WORK_Timed t f p L).1.task_list_event = L.task_list_event ∧
    set_task false .WORK_Timed t f p L = (L, none) := by
  obtain ⟨pre, post, h1, h2, h3, h4⟩ :=
    set_task_timed_split ⟨t, .WORK_Timed, f, p⟩ L.task_list_timed
  have hst : (set_task true .WORK_Timed t f p L).1.task_list_timed =
      pre ++ ⟨t, .WORK_Timed, f, p⟩ :: post := by
    simp [set_task, h2]
  unfold TimedSorted at hs ⊢
  rw [h1] at hs
  have hpost : ∀ x ∈ post, t < x.wt_event := by
    intro x hx
    cases post with
    | nil => simp at hx
    | cons b rest =>
      have hb : t < b.wt_event := h4 b rfl
      rcases List.mem_cons.mp hx with hx | hx
      · subst hx; exact hb
      · have hp := (List.pairwise_append.mp hs).2.1
        have := (List.pairwise_cons.mp hp).1 x hx
        exact lt_of_lt_of_le hb this
  refine ⟨⟨pre, post, h1, by simp [set_task], hst, h3, hpost⟩, ?_, by simp [set_task],
    by simp [set_task], by simp [set_task]⟩
  rw [hst]
  obtain ⟨hp1, hp2, hp3⟩ := List.pairwise_append.mp hs
  refine List.pairwise_append.mpr ⟨hp1, ?_, ?_⟩
  · exact List.pairwise_cons.mpr ⟨fun x hx => le_of_lt (hpost x hx), hp2⟩
  · intro a ha b hb
    rcases List.mem_cons.mp hb with hb | hb
    · subst hb; exact h3 a ha
    · exact hp3 a ha b hb

/-- The statement for C29 at a list with tasks due at 5, 7, 7 and 9: a new
task due at 7 goes behind the two that are due at 7. -/
theorem set_task_keeps_timed_sorted_witness :
    TimedSorted [timed_task 5 1, timed_task 7 2, timed_task 7 3, timed_task 9 4] ∧
    (set_task true .WORK_Timed 7 (some 1) 9
      ⟨[], [timed_task 5 1, timed_task 7 2, timed_task 7 3, timed_task 9 4], []⟩).1.task_list_timed
      = [timed_task 5 1, timed_task 7 2, timed_task 7 3, timed_task 7 9, timed_task 9 4] ∧
    TimedSorted (set_task true .WORK_Timed 7 (some 1) 9
      ⟨[], [timed_task 5 1, timed_task 7 2, timed_task 7 3, timed_task 9 4], []⟩).1.task_list_timed :=
  ⟨by simp [TimedSorted, timed_task], by decide,
    (set_task_keeps_timed_sorted
      ⟨[], [timed_task 5 1, timed_task 7 2, timed_task 7 3, timed_task 9 4], []⟩ 7 (some 1) 9
      (by simp [TimedSorted, timed_task])).2.1⟩

/-! ## Dispatching the due tasks: `default_next_task` -/

set_option maxRecDepth 100000 in
/-- Counterexample for C24: with a host name of 256 characters the element
keeps the first 255, so the second call with the same arguments finds no match
and adds a second element; `svr_num_moms` goes up twice. -/
theorem create_mom_entry_long_name_twice :
    (create_mom_entry (mom_env 1) mom_state_empty long_hostname 15002).1.svr_num_moms = 1 ∧
    (create_mom_entry (mom_env 2)
      (create_mom_entry (mom_env 1) mom_state_empty long_hostname 15002).1
      long_hostname 15002).1.svr_num_moms = 2 ∧
    ((create_mom_entry (mom_env 2)
      (create_mom_entry (mom_env 1) mom_state_empty long_hostname 15002).1
      long_hostname 15002).2.map fun q => q.addr) = some 2 ∧
    ((create_mom_entry (mom_env 1) mom_state_empty long_hostname 15002).2.map
      fun q => q.addr) = some 1 := by
  refine ⟨?_, ?_, ?_, ?_⟩ <;> decide

/-- When the first loop of `create_mom_entry` ends without a match, no element
of the array matches, a slot found earlier is kept, and a slot found by this
loop is a position of the array that holds NULL. -/
theorem create_mom_entry_scan_inr (hostname : String) (port : Nat)
    (l : List (Option mominfo_t)) (i : Nat) (e e' : Option Nat)
    (hs : create_mom_entry_scan hostname port l i e = .inr e') :
    (∀ q, some q ∈ l → mom_matches q hostname port = false) ∧
    (e ≠ none → e' = e) ∧
    (e = none → ∀ j, e' = some j → i ≤ j ∧ l.get? (j - i) = some none) := by
  induction l generalizing i e with
  | nil =>
    simp only [create_mom_entry_scan, Sum.inr.injEq] at hs
    subst hs
    refine ⟨by simp, fun _ => rfl, ?_⟩
    intro he j hj
    rw [he] at hj
    exact absurd hj (by simp)
  | cons s rest ih =>
    cases s with
    | some pmom =>
      by_cases hm : mom_matches pmom hostname port = true
      · simp [create_mom_entry_scan, hm] at hs
      · have hm' : mom_matches pmom hostname port = false := by simpa using hm
        simp only [create_mom_entry_scan, hm', Bool.false_eq_true, if_false] at hs
        obtain ⟨h1, h2, h3⟩ := ih (i + 1) e hs
        refine ⟨?_, h2, ?_⟩
        · intro q hq
          rcases List.mem_cons.mp hq with hq | hq
          · cases hq; exact hm'
          · exact h1 q hq
        · intro he j hj
          obtain ⟨h4, h5⟩ := h3 he j hj
          refine ⟨by omega, ?_⟩
          have : j - i = (j - (i + 1)) + 1 := by omega
          rw [this, List.get?_cons_succ]
          exact h5
    | none =>
      simp only [create_mom_entry_scan] at hs
      obtain ⟨h1, h2, _⟩ := ih (i + 1) (if e = none then some i else e) hs
      refine ⟨?_, ?_, ?_⟩
      · intro q hq
        rcases List.mem_cons.mp hq with hq | hq
        · cases hq
        · exact h1 q hq
      · intro he
        rw [if_neg he] at h2
        exact h2 he
      · intro he j hj
        rw [if_pos he] at h2
        have := h2 (by simp)
        rw [this] at hj
        cases hj
        simp

/-- The first loop of `create_mom_entry` and the loop of `find_mom_entry` find
the same element, or both none. -/
theorem create_mom_entry_scan_find (hostname : String) (port : Nat)
    (l : List (Option mominfo_t)) (i : Nat) (e : Option Nat) :
    (∀ q, create_mom_entry_scan hostname port l i e = .inl q ↔
      find_mom_entry_scan hostname port l = some q) ∧
    ((∃ e', create_mom_entry_scan hostname port l i e = .inr e') ↔
      find_mom_entry_scan hostname port l = none) := by
  induction l generalizing i e with
  | nil => simp [create_mom_entry_scan, find_mom_entry_scan]
  | cons s rest ih =>
    cases s with
    | some pmom =>
      by_cases hm : mom_matches pmom hostname port = true
      · simp [create_mom_entry_scan, find_mom_entry_scan, hm]
      · have hm' : mom_matches pmom hostname port = false := by simpa using hm
        simp only [create_mom_entry_scan, find_mom_entry_scan, hm', Bool.false_eq_true, if_false]
        exact ih (i + 1) e
    | none =>
      simp only [create_mom_entry_scan, find_mom_entry_scan]
      exact ih (i + 1) _

/-- Once a matching element stands in a slot of an array that held no match,
both loops end with that element. -/
theorem scan_after_set (hostname : String) (port : Nat) (pmom : mominfo_t)
    (hm : mom_matches pmom hostname port = true) (l : List (Option mominfo_t))
    (hno : ∀ q, some q ∈ l → mom_matches q hostname port = false)
    (j : Nat) (hj : j < l.length) (i : Nat) (e : Option Nat) :
    create_mom_entry_scan hostname port (l.set j (some pmom)) i e = .inl pmom ∧
    find_mom_entry_scan hostname port (l.set j (some pmom)) = some pmom := by
  induction l generalizing j i e with
  | nil => exact absurd hj (Nat.not_lt_zero _)
  | cons s rest ih =>
    cases j with
    | zero => simp [create_mom_entry_scan, find_mom_entry_scan, hm]
    | succ j =>
      have hj' : j < rest.length := by simpa using hj
      have hno' : ∀ q, some q ∈ rest → mom_matches q hostname port = false :=
        fun q hq => hno q (List.mem_cons_of_mem _ hq)
      cases s with
      | some q0 =>
        have hq0 := hno q0 (List.mem_cons_self _ _)
        simp only [List.set_cons_succ, create_mom_entry_scan, find_mom_entry_scan, hq0,
          Bool.false_eq_true, if_false]
        exact ih hno' j hj' (i + 1) e
      | none =>
        simp only [List.set_cons_succ, create_mom_entry_scan, find_mom_entry_scan]
        exact ih hno' j hj' (i + 1) _

/-- An element built from a host name that fits in `mi_host` matches that
name and its port. -/
theorem new_mom_matches (a : Nat) (hostname : String) (port : Nat)
    (hlen : hostname.length ≤ PBS_MAXHOSTNAME) :
    mom_matches (new_mom a hostname port) hostname port = true := by
  have : hostname.data.take PBS_MAXHOSTNAME = hostname.data := List.take_of_length_le hlen
  simp [mom_matches, new_mom, strcasecmp_zero, this]

/-- Filling a slot that held NULL adds one to the number of slots in use. -/
theorem countP_set_none (l : List (Option mominfo_t)) (j : Nat) (x : mominfo_t)
    (hj : l.get? j = some none) :
    (l.set j (some x)).countP (fun slot => slot.isSome) =
      l.countP (fun slot => slot.isSome) + 1 := by
  induction l generalizing j with
  | nil => simp at hj
  | cons s rest ih =>
    cases j with
    | zero =>
      simp only [List.get?_cons_zero, Option.some.injEq] at hj
      subst hj
      simp
    | succ j =>
      simp only [List.get?_cons_succ] at hj
      rw [List.set_cons_succ, List.countP_cons, List.countP_cons, ih j hj]
      omega

/-- Clearing the slot of an element of the table takes one from the number of
slots in use. -/
theorem countP_delete_clear (a : Nat) (l : List (Option mominfo_t))
    (h : ∃ slot ∈ l, slot.map (fun q => q.addr) = some a) :
    ((delete_mom_entry_clear a l).countP (fun slot => slot.isSome) : Int) =
      (l.countP (fun slot => slot.isSome) : Int) - 1 := by
  induction l with
  | nil => obtain ⟨s, hs, _⟩ := h; exact absurd hs (List.not_mem_nil _)
  | cons s rest ih =>
    by_cases hs : s.map (fun q => q.addr) = some a
    · have hsome : s.isSome = true := by
        cases s with
        | none => simp at hs
        | some q => rfl
      simp [delete_mom_entry_clear, hs, List.countP_cons, hsome]
    · have hrest : ∃ slot ∈ rest, slot.map (fun q => q.addr) = some a := by
        obtain ⟨t, ht, hta⟩ := h
        rcases List.mem_cons.mp ht with ht | ht
        · subst ht; exact absurd hta hs
        · exact ⟨t, ht, hta⟩
      simp only [delete_mom_entry_clear, hs, if_false, List.countP_cons]
      rw [Nat.cast_add, Nat.cast_add, ih hrest]
      ring

/-- What a call of `create_mom_entry` that found no match and returned an
element has done: the element is the new one, it stands in a slot of the
(possibly grown) array that held NULL, nothing in that array matched, and the
count went up by one. -/
theorem create_mom_entry_added (env : MomEnv) (S : MomState) (hostname : String) (port : Nat)
    (e : mominfo_t) (hnone : find_mom_entry S hostname port = none)
    (hr : (create_mom_entry env S hostname port).2 = some e) :
    ∃ (l : List (Option mominfo_t)) (j a : Nat), e = new_mom a hostname port ∧
      (create_mom_entry env S hostname port).1.mominfo_array = l.set j (some e) ∧
      l.get? j = some none ∧
      (∀ q, some q ∈ l → mom_matches q hostname port = false) ∧
      l.countP (fun slot => slot.isSome) = S.mominfo_array.countP (fun slot => slot.isSome) ∧
      (create_mom_entry env S hostname port).1.svr_num_moms = S.svr_num_moms + 1 := by
  obtain ⟨e0, he0⟩ := ((create_mom_entry_scan_find hostname port S.mominfo_array 0 none).2).mpr hnone
  obtain ⟨hno, _, hslot⟩ := create_mom_entry_scan_inr hostname port S.mominfo_array 0 none e0 he0
  unfold create_mom_entry at hr ⊢
  rw [he0] at hr ⊢
  cases e0 with
  | some j0 =>
    obtain ⟨_, hget⟩ := hslot rfl j0 rfl
    cases hmal : env.malloc with
    | none => simp [hmal] at hr
    | some a =>
      simp only [hmal, Option.some.injEq] at hr
      subst hr
      exact ⟨S.mominfo_array, j0, a, rfl, rfl, hget, hno, rfl, rfl⟩
  | none =>
    cases hre : env.realloc_ok with
    | false => simp [hre] at hr
    | true =>
      cases hmal : env.malloc with
      | none => simp [hre, hmal] at hr
      | some a =>
        simp only [hre, hmal, if_true, Option.some.injEq] at hr
        subst hr
        refine ⟨S.mominfo_array ++ List.replicate GROW_MOMINFO_ARRAY_AMT none,
          S.mominfo_array.length, a, rfl, rfl, ?_, ?_, ?_, rfl⟩
        · rw [List.get?_eq_getElem?, List.getElem?_append_right (le_refl _)]
          simp [GROW_MOMINFO_ARRAY_AMT]
        · intro q hq
          rcases List.mem_append.mp hq with hq | hq
          · exact hno q hq
          · simp [List.mem_replicate] at hq
        · rw [List.countP_append]
          simp [List.countP_replicate]

/-- A call of `create_mom_entry` that returns NULL leaves the count as it was
and fills no slot. -/
theorem create_mom_entry_failed (env : MomEnv) (S : MomState) (hostname : String) (port : Nat)
    (hr : (create_mom_entry env S hostname port).2 = none) :
    (create_mom_entry env S hostname port).1.svr_num_moms = S.svr_num_moms ∧
    (create_mom_entry env S hostname port).1.mominfo_array.countP (fun slot => slot.isSome) =
      S.mominfo_array.countP (fun slot => slot.isSome) := by
  unfold create_mom_entry at hr ⊢
  cases hs : create_mom_entry_scan hostname port S.mominfo_array 0 none with
  | inl q => rw [hs] at hr; simp at hr
  | inr e0 =>
    rw [hs] at hr
    cases e0 with
    | some j0 =>
      cases hmal : env.malloc with
      | some a => simp [hmal] at hr
      | none => exact ⟨rfl, rfl⟩
    | none =>
      cases hre : env.realloc_ok with
      | false => exact ⟨rfl, rfl⟩
      | true =>
        cases hmal : env.malloc with
        | some a => simp [hre, hmal] at hr
        | none =>
          refine ⟨rfl, ?_⟩
          show List.countP _ (S.mominfo_array ++ List.replicate GROW_MOMINFO_ARRAY_AMT none) = _
          rw [List.countP_append]
          simp [List.countP_replicate]

/-- Claim C24, amended. For every table, host name and port:
when an element with that host name (ignoring case) and port is in the table,
`create_mom_entry` returns it and changes nothing; when there is none and the
call returns an element, `svr_num_moms` has gone up by one; when the host name
has at most `PBS_MAXHOSTNAME` characters and the call returns an element, a
second call with the same arguments returns the same element and changes
nothing, whatever the allocator would do, and `find_mom_entry` returns that
element. `create_mom_entry` always keeps `svr_num_moms` equal to the number
of slots that are not NULL, `delete_mom_entry` keeps it for an element of the
table and does nothing for NULL, and the empty table has it. -/
theorem create_mom_entry_twice (env env' : MomEnv) (S : MomState) (hostname : String)
    (port : Nat) :
    (∀ q, find_mom_entry S hostname port = some q →
      create_mom_entry env S hostname port = (S, some q)) ∧
    (∀ e, find_mom_entry S hostname port = none →
      (create_mom_entry env S hostname port).2 = some e →
      (create_mom_entry env S hostname port).1.svr_num_moms = S.svr_num_moms + 1) ∧
    (∀ e, hostname.length ≤ PBS_MAXHOSTNAME →
      (create_mom_entry env S hostname port).2 = some e →
      create_mom_entry env' (create_mom_entry env S hostname port).1 hostname port =
        ((create_mom_entry env S hostname port).1, some e) ∧
      find_mom_entry (create_mom_entry env S hostname port).1 hostname port = some e) ∧
    (MomInv S → MomInv (create_mom_entry env S hostname port).1) ∧
    (∀ pmom : mominfo_t, mom_in_table S pmom.addr → MomInv S →
      MomInv (delete_mom_entry S (some pmom))) ∧
    delete_mom_entry S none = S ∧
    MomInv mom_state_empty := by
  have hA : ∀ q, find_mom_entry S hostname port = some q →
      create_mom_entry env S hostname port = (S, some q) := by
    intro q hq
    have := ((create_mom_entry_scan_find hostname port S.mominfo_array 0 none).1 q).mpr hq
    simp [create_mom_entry, this]
  refine ⟨hA, ?_, ?_, ?_, ?_, rfl, ?_⟩
  · intro e hnone hr
    obtain ⟨_, _, _, _, _, _, _, _, h⟩ := create_mom_entry_added env S hostname port e hnone hr
    exact h
  · intro e hlen hr
    cases hf : find_mom_entry S hostname port with
    | some q =>
      have h1 := hA q hf
      rw [h1] at hr ⊢
      simp only [Option.some.injEq] at hr
      subst hr
      have := ((create_mom_entry_scan_find hostname port S.mominfo_array 0 none).1 q).mpr hf
      exact ⟨by simp [create_mom_entry, this], hf⟩
    | none =>
      obtain ⟨l, j, a, he, harr, hget, hno, _, _⟩ :=
        create_mom_entry_added env S hostname port e hf hr
      have hj : j < l.length := by
        by_contra hc
        rw [List.get?_eq_none.mpr (not_lt.mp hc)] at hget
        exact absurd hget (by simp)
      have hm : mom_matches e hostname port = true := by
        rw [he]; exact new_mom_matches a hostname port hlen
      obtain ⟨s1, s2⟩ := scan_after_set hostname port e hm l hno j hj 0 none
      generalize (create_mom_entry env S hostname port).1 = S' at harr ⊢
      constructor
      · unfold create_mom_entry
        rw [harr, s1]
      · unfold find_mom_entry
        rw [harr, s2]
  · intro hinv
    cases hf : find_mom_entry S hostname port with
    | some q => rw [hA q hf]; exact hinv
    | none =>
      cases hr : (create_mom_entry env S hostname port).2 with
      | some e =>
        obtain ⟨l, j, a, he, harr, hget, hno, hcnt, hnum⟩ :=
          create_mom_entry_added env S hostname port e hf hr
        unfold MomInv at hinv ⊢
        rw [harr, hnum, countP_set_none l j e hget, hcnt, hinv]
        simp
      | none =>
        obtain ⟨h1, h2⟩ := create_mom_entry_failed env S hostname port hr
        unfold MomInv at hinv ⊢
        rw [h1, h2, hinv]
  · intro pmom hin hinv
    unfold MomInv at hinv ⊢
    simp only [delete_mom_entry]
    rw [countP_delete_clear pmom.addr S.mominfo_array hin, hinv]
  · simp [MomInv, mom_state_empty]

/-- The statement for C24 on the empty table: the host `Node1` on port 15002
is added once, found again under the name `node1`, and a second call for
`node1` returns the same element without a change. -/
theorem create_mom_entry_twice_witness :
    (create_mom_entry (mom_env 1) mom_state_empty "Node1" 15002).2 =
      some ⟨1, "Node1", 15002, 15003⟩ ∧
    create_mom_entry (mom_env 2)
        (create_mom_entry (mom_env 1) mom_state_empty "Node1" 15002).1 "node1" 15002 =
      ((create_mom_entry (mom_env 1) mom_state_empty "Node1" 15002).1,
        some ⟨1, "Node1", 15002, 15003⟩) ∧
    (create_mom_entry (mom_env 2)
        (create_mom_entry (mom_env 1) mom_state_empty "Node1" 15002).1 "Node1" 15002 =
      ((create_mom_entry (mom_env 1) mom_state_empty "Node1" 15002).1,
        some ⟨1, "Node1", 15002, 15003⟩) ∧
     find_mom_entry (create_mom_entry (mom_env 1) mom_state_empty "Node1" 15002).1
        "Node1" 15002 = some ⟨1, "Node1", 15002, 15003⟩) :=
  ⟨by decide, by decide,
    (create_mom_entry_twice (mom_env 1) (mom_env 2) mom_state_empty "Node1" 15002).2.2.1
      ⟨1, "Node1", 15002, 15003⟩ (by decide) (by decide)⟩

/-! ## `decode_b` -/

/-- Counterexample for C25: the value string `true` is not `1` and decodes to
1; the value string `maybe` is not decoded to false but refused with
`PBSE_BADATVAL`, the attribute left as it was. -/
theorem decode_b_other_spellings :
    (decode_b ⟨0, 0⟩ "a" none (some "true")).1.at_long = 1 ∧
    (decode_b ⟨0, 0⟩ "a" none (some "true")).2 = 0 ∧
    decode_b ⟨0, 7⟩ "a" none (some "maybe") = (⟨0, 7⟩, PBSE_BADATVAL) := by
  refine ⟨?_, ?_, ?_⟩ <;> decide

/-- The sixteen spellings that `is_true_or_false` knows, none of them
empty. -/
theorem is_true_or_false_spellings (val : String) :
    (val ∈ true_spellings → is_true_or_false val = 1 ∧ val.length ≠ 0) ∧
    (val ∈ false_spellings → is_true_or_false val = 0 ∧ val.length ≠ 0) := by
  constructor
  · intro h
    simp only [true_spellings, List.mem_cons, List.mem_singleton, List.not_mem_nil,
      or_false] at h
    rcases h with h | h | h | h | h | h | h | h <;> subst h <;> exact ⟨by decide, by decide⟩
  · intro h
    simp only [false_spellings, List.mem_cons, List.mem_singleton, List.not_mem_nil,
      or_false] at h
    rcases h with h | h | h | h | h | h | h | h <;> subst h <;> exact ⟨by decide, by decide⟩

/-- Claim C25, amended. For every value string: a spelling of true (`True`,
`TRUE`, `true`, `t`, `T`, `1`, `y`, `Y`) gives result 0 and `at_long` 1; a
spelling of false (`False`, `FALSE`, `false`, `f`, `F`, `0`, `n`, `N`) gives
result 0 and `at_long` 0; every other non-empty string gives
`PBSE_BADATVAL` and leaves the attribute as it was; the empty string and NULL
give result 0 and `at_long` 0. -/
theorem decode_b_spellings (patr : pbs_attribute) (name : String) (rescn : Option String)
    (val : String) :
    (val ∈ true_spellings →
      (decode_b patr name rescn (some val)).2 = 0 ∧
      (decode_b patr name rescn (some val)).1.at_long = 1) ∧
    (val ∈ false_spellings →
      (decode_b patr name rescn (some val)).2 = 0 ∧
      (decode_b patr name rescn (some val)).1.at_long = 0) ∧
    (val ≠ "" → val ∉ true_spellings → val ∉ false_spellings →
      decode_b patr name rescn (some val) = (patr, PBSE_BADATVAL)) ∧
    (decode_b patr name rescn (some "")).2 = 0 ∧
    (decode_b patr name rescn (some "")).1.at_long = 0 ∧
    (decode_b patr name rescn none).2 = 0 ∧
    (decode_b patr name rescn none).1.at_long = 0 := by
  refine ⟨?_, ?_, ?_, rfl, rfl, rfl, rfl⟩
  · intro h
    obtain ⟨h1, h2⟩ := (is_true_or_false_spellings val).1 h
    simp only [decode_b, h1, h2, if_false]
    exact ⟨rfl, rfl⟩
  · intro h
    obtain ⟨h1, h2⟩ := (is_true_or_false_spellings val).2 h
    simp only [decode_b, h1, h2, if_false]
    exact ⟨rfl, rfl⟩
  · intro h0 ht hf
    have hlen : val.length ≠ 0 := by
      intro hl
      apply h0
      have : val.data = [] := List.length_eq_zero.mp hl
      exact String.ext this
    simp only [true_spellings, List.mem_cons, List.mem_singleton, List.not_mem_nil,
      or_false] at ht
    simp only [false_spellings, List.mem_cons, List.mem_singleton, List.not_mem_nil,
      or_false] at hf
    simp only [decode_b, hlen, if_false, is_true_or_false, ht, hf]
    simp

/-! ## `cmp_node_name` -/

/-- What `cmp_node_name` computes on strings without a NUL character: 0
exactly when the names are equal or the first is the second followed by a dot
and more. -/
theorem cmp_node_name_chars_zero (n1 n2 : List Char)
    (h1 : ∀ c ∈ n1, c ≠ Char.ofNat 0) (h2 : ∀ c ∈ n2, c ≠ Char.ofNat 0) :
    cmp_node_name_chars n1 n2 = 0 ↔ n1 = n2 ∨ ∃ rest, n1 = n2 ++ '.' :: rest := by
  induction n1 generalizing n2 with
  | nil =>
    cases n2 with
    | nil => simp [cmp_node_name_chars, cmp_node_name_end]
    | cons c2 r2 =>
      have hc2 := h2 c2 (List.mem_cons_self _ _)
      simp only [cmp_node_name_chars, cmp_node_name_end, deref, List.headD_nil, List.headD_cons]
      have hne : Char.ofNat 0 ≠ c2 := fun h => hc2 h.symm
      have hd : ¬ (Char.ofNat 0 = '.') := by decide
      simp [hne, hd]
  | cons c1 r1 ih =>
    have hc1 := h1 c1 (List.mem_cons_self _ _)
    cases n2 with
    | nil =>
      simp only [cmp_node_name_chars, cmp_node_name_end, deref, List.headD_nil, List.headD_cons]
      by_cases hdot : c1 = '.'
      · simp [hc1, hdot]
      · simp [hc1, hdot]
    | cons c2 r2 =>
      have hc2 := h2 c2 (List.mem_cons_self _ _)
      by_cases hcc : c1 = c2
      · subst hcc
        have := ih r2 (fun c hc => h1 c (List.mem_cons_of_mem _ hc))
          (fun c hc => h2 c (List.mem_cons_of_mem _ hc))
        simp [cmp_node_name_chars, hc1, this]
      · simp [cmp_node_name_chars, cmp_node_name_end, deref, hc1, hc2, hcc]

/-- Claim C26, the divergence. For the pair of the doc comment, first name
`foo` and second name `foo.bar`, `cmp_node_name` returns 1, no match; it
returns 0 for the pair the other way round, and 0 for equal names. -/
theorem cmp_node_name_dot_in_first :
    cmp_node_name "foo" "foo.bar" = 1 ∧
    cmp_node_name "foo.bar" "foo" = 0 ∧
    cmp_node_name "foo" "foo" = 0 := by
  refine ⟨?_, ?_, ?_⟩ <;> decide

/-! ## `schedule_bare` -/

/-- Runs of `schedule_bare`: a new job with a server that answers runs a
cycle and returns 0, with a server that does not answer returns 1; the first
cycle with attributes that do not validate returns 0 without a cycle. -/
theorem schedule_bare_example :
    schedule_bare ⟨false, true, true, 0, false⟩ ⟨SCH_SCHEDULE_NEW, none, 5⟩ =
      ([.log_msg "Starting Scheduling Cycle", .send_job_attr_updates 0, .update_cycle_status,
        .query_server true, .main_sched_loop_bare, .end_cycle_tasks], 0) ∧
    (schedule_bare ⟨false, false, true, 0, false⟩ ⟨SCH_SCHEDULE_NEW, none, 5⟩).2 = 1 ∧
    schedule_bare ⟨false, true, false, 0, false⟩ ⟨SCH_SCHEDULE_FIRST, none, 5⟩ =
      ([.update_resource_defs, .set_validate_sched_attrs false], 0) ∧
    (schedule_bare ⟨false, true, true, 0, false⟩ ⟨SCH_QUIT, none, 5⟩).2 = 1 := by
  refine ⟨?_, ?_, ?_, ?_⟩ <;> decide

/-! ## The reply of `req_preemptjobs` -/

/-- Claim C28, the divergence. Neither job of the request is running: `1.srv`
is queued and `2.srv` is held. The reply that is sent has count 2 and code 1,
but its first entry is the one of `2.srv` with code `000`, written by
`job_preempt_fail` at the position of the reply count and over the entry of
`1.srv`, and its second entry has the id of `2.srv` and no code: the entry
`1.srv` with `Q` is lost. With the same two jobs asked for in the other order
the reply is the expected one. -/
theorem req_preemptjobs_overwrites_entry :
    (req_preemptjobs preempt_env_queued_held preempt_req_two).trace =
      [.log_event "2.srv" "Job failed to be preempted",
       .reply_send 1 2 [⟨"2.srv", "000"⟩, ⟨"2.srv", ""⟩]] ∧
    (req_preemptjobs preempt_env_queued_held preempt_req_two).brp_ppj_list ≠
      [⟨"1.srv", "Q"⟩, ⟨"2.srv", "000"⟩] ∧
    (req_preemptjobs preempt_env_queued_held
      { preempt_req_two with rq_preempt := [⟨"2.srv", ""⟩, ⟨"1.srv", ""⟩] }).trace =
      [.log_event "2.srv" "Job failed to be preempted",
       .reply_send 1 2 [⟨"2.srv", "000"⟩, ⟨"1.srv", "Q"⟩]] := by
  refine ⟨?_, ?_, ?_⟩ <;> decide

/-! ## The inventory Mom of a vnode pool -/

/-- Claim C30, the divergence. Three Moms that are up are added to pool 1; the
first becomes the inventory Mom and alone has the flag. When she is removed
from the pool, which resets the inventory Mom, the loop of
`reset_pool_inventory_mom` sets the flag on both remaining Moms: the pool
names the last of them as its inventory Mom and the other one keeps a flag
that does not belong to her. -/
theorem reset_pool_inventory_flags_every_up_mom :
    pool_three_added.vnode_pool_mom_list = [⟨1, some 0, [0, 1, 2]⟩] ∧
    flagged_moms pool_three_added = [0] ∧
    (remove_mom_from_pool pool_three_added 0).vnode_pool_mom_list = [⟨1, some 2, [1, 2]⟩] ∧
    flagged_moms (remove_mom_from_pool pool_three_added 0) = [1, 2] := by
  refine ⟨?_, ?_, ?_, ?_⟩ <;> decide

end PbsSched
